import Mathlib

/-!
# Control-plane O/S synchronisation (`linux_cplane.c`) and filter callbacks (`oof_onload.c`)

A shallow embedding of `src/driver/linux_onload/linux_cplane.c` (the
address-resolution row functions, the rtnetlink response reader, the message
handlers and their dispatcher, the table dump cycle, the poller, the
synchroniser's constructor and destructor, deferred packet transmission, the
neighbour refresh and the route row update) and of the software-filter
callbacks of `src/lib/efthrm/oof_onload.c`, with theorems about them.

Conventions of the embedding:

* C `int` values are `Int`; C "bool" `int`s are `Int` too, true meaning
  non-zero, exactly as the C conditions read them.
* one-bit bit-fields (`source_sync`, `source_prot`, `recent_sync`) are `Bool`.
* a pointer that may be `NULL` (`os`, `post_handling_fn`) is an `Option`.
* in-place mutation through a pointer becomes a returned, updated record.
-/

namespace Cplane

/-! ## Platform constants -/

/-- `EIO` of the Linux errno table. -/
def EIO : Int := 5

/-- `EAGAIN` of the Linux errno table. -/
def EAGAIN : Int := 11

/-- `EINVAL` of the Linux errno table. -/
def EINVAL : Int := 22

/-- `EHOSTUNREACH` of the Linux errno table. -/
def EHOSTUNREACH : Int := 113

/-- The neighbour-state and refresh-hint constants that
`cicpos_mac_kmib_row_update` uses.  Their `#define`s live in a control-plane
header that is not among the sources, so the functions below take them as a
parameter and the theorems hold for every choice of values. -/
structure cicp_defs where
  CICPOS_IPMAC_NONE : Nat
  CICPOS_IPMAC_INCOMPLETE : Nat
  CICPOS_IPMAC_REACHABLE : Nat
  CICPOS_IPMAC_STALE : Nat
  CICPOS_IPMAC_FAILED : Nat
  CICPOS_IPMAC_NOARP : Nat
  CICP_MAC_ROW_NEED_UPDATE_STALE : Nat
  CICP_MAC_ROW_NEED_UPDATE_SOON : Nat
  deriving DecidableEq, Repr

/-- The values on Linux.  `cicpos_handle_mac_msg` stores the kernel's
`ndm_state` into `os.state` unchanged, so the `CICPOS_IPMAC_*` states are the
kernel's `NUD_*` bits (`NUD_NONE` 0x00, `NUD_INCOMPLETE` 0x01,
`NUD_REACHABLE` 0x02, `NUD_STALE` 0x04, `NUD_FAILED` 0x20, `NUD_NOARP` 0x40);
the two refresh hints are distinct non-zero codes. -/
def linux_defs : cicp_defs where
  CICPOS_IPMAC_NONE := 0x00
  CICPOS_IPMAC_INCOMPLETE := 0x01
  CICPOS_IPMAC_REACHABLE := 0x02
  CICPOS_IPMAC_STALE := 0x04
  CICPOS_IPMAC_FAILED := 0x20
  CICPOS_IPMAC_NOARP := 0x40
  CICP_MAC_ROW_NEED_UPDATE_STALE := 1
  CICP_MAC_ROW_NEED_UPDATE_SOON := 2

/-! ## Address-resolution MIB: data model -/

/-- An Ethernet MAC address: six octets, compared by `CI_MAC_ADDR_EQ`. -/
abbrev ci_mac_addr_t := Nat × Nat × Nat × Nat × Nat × Nat

/-- The O/S view of a neighbour entry (`cicpos_mac_row_sync_t`), with the
fields `cicpos_handle_mac_msg` fills in. -/
structure cicpos_mac_row_sync_t where
  confirmed : Nat
  used : Nat
  updated : Nat
  refcnt : Nat
  state : Nat
  family : Nat
  flags : Nat
  deriving DecidableEq, Repr

/-- The synchronisation sub-record of an IP-MAC row (`cicpos_mac_row_t`). -/
structure cicpos_mac_row_t where
  os : cicpos_mac_row_sync_t
  source_sync : Bool
  source_prot : Bool
  recent_sync : Bool
  mapping_set : Nat
  deriving DecidableEq, Repr

/-- The user-visible part of an IP-MAC row (`cicp_mac_row_t`), with the fields
the synchronisation code reads or prints.  `rc` holds a negated errno or 0. -/
structure cicp_mac_row_t where
  ifindex : Nat
  ip_addr : Nat
  mac_addr : ci_mac_addr_t
  need_update : Nat
  version : Nat
  rc : Int
  deriving DecidableEq, Repr

/-- What a call of `cicpos_mac_kmib_row_update` leaves behind: the returned
"bool", the two records it writes through its pointers, and the value stored
in `*out_ignore_clash`. -/
structure row_update_result where
  ret : Int
  sync_row : cicpos_mac_row_t
  row : cicp_mac_row_t
  out_ignore_clash : Int
  deriving DecidableEq, Repr

/-! ## Address-resolution MIB: operations -/

/-- The constructor `cicpos_mac_kmib_row_ctor`: the record is zeroed, then
marked as a protocol entry (`os == NULL`) or filled from the O/S record. -/
def cicpos_mac_kmib_row_ctor (os : Option cicpos_mac_row_sync_t) :
    cicpos_mac_row_t :=
  let zero : cicpos_mac_row_t :=
    { os := ⟨0, 0, 0, 0, 0, 0, 0⟩, source_sync := false, source_prot := false,
      recent_sync := false, mapping_set := 0 }
  match os with
  | none => { zero with source_prot := true }
  | some o => { zero with os := o, source_sync := true }

/-- The update `cicpos_mac_kmib_row_update`.  `jiffies` is the kernel tick
counter read at the call and `reachable_time` is
`arp_tbl.parms.reachable_time`, which the kernel keeps non-negative, so that
the C quotient `reachable_time / 3` is the natural-number quotient.  The three
early `return 0` guards come first, in source order; then the O/S branch
(`os != NULL`) or the protocol branch.  The function never writes
`row->mac_addr`: storing the new MAC is left to the caller. -/
def cicpos_mac_kmib_row_update (K : cicp_defs) (jiffies reachable_time : Nat)
    (sync_row : cicpos_mac_row_t) (row : cicp_mac_row_t)
    (os : Option cicpos_mac_row_sync_t) (mac : ci_mac_addr_t)
    (alteration : Int) : row_update_result :=
  let newly_valid : Int := alteration
  let unchanged : row_update_result := ⟨0, sync_row, row, 0⟩
  if (match os with
      | some o => decide (o.state = K.CICPOS_IPMAC_INCOMPLETE ∨
                          o.state = K.CICPOS_IPMAC_NONE)
      | none => false) = true then unchanged
  else if sync_row.source_sync = true ∧
      sync_row.os.state ≠ K.CICPOS_IPMAC_FAILED ∧ os.isNone = true then
    unchanged
  else if os.isNone = true ∧ sync_row.source_sync = false ∧ alteration ≠ 0 ∧
      ¬ (row.mac_addr = mac) then
    unchanged
  else
    let out_ignore_clash : Int :=
      if os.isSome = true ∧ sync_row.source_sync = true then 1 else 0
    match os with
    | some o =>
      let orig_state := sync_row.os.state
      let sync1 : cicpos_mac_row_t := { sync_row with os := o, source_sync := true }
      let row1 : cicp_mac_row_t :=
        if sync1.os.state &&& K.CICPOS_IPMAC_NOARP ≠ 0 then
          { row with rc := -EINVAL }
        else row
      let row2 : cicp_mac_row_t :=
        if sync1.os.state &&& K.CICPOS_IPMAC_FAILED ≠ 0 then
          { row1 with rc := -EHOSTUNREACH }
        else { row1 with rc := 0 }
      let hinted : cicp_mac_row_t × Int × Int :=
        if o.state &&& K.CICPOS_IPMAC_STALE ≠ 0 then
          if row2.need_update ≠ K.CICP_MAC_ROW_NEED_UPDATE_STALE then
            ({ row2 with need_update := K.CICP_MAC_ROW_NEED_UPDATE_STALE }, 1, 1)
          else (row2, alteration, out_ignore_clash)
        else if o.state = K.CICPOS_IPMAC_REACHABLE ∧
            o.confirmed > reachable_time / 3 then
          if row2.need_update ≠ K.CICP_MAC_ROW_NEED_UPDATE_SOON then
            ({ row2 with need_update := K.CICP_MAC_ROW_NEED_UPDATE_SOON }, 1, 1)
          else (row2, alteration, out_ignore_clash)
        else ({ row2 with need_update := 0 }, alteration, out_ignore_clash)
      let newly_valid1 : Int :=
        if sync1.os.state &&& K.CICPOS_IPMAC_REACHABLE ≠ 0 ∧
            sync1.os.state ≠ orig_state then 1
        else newly_valid
      let sync2 : cicpos_mac_row_t :=
        if newly_valid1 ≠ 0 then { sync1 with mapping_set := jiffies } else sync1
      ⟨hinted.2.1, sync2, hinted.1, hinted.2.2⟩
    | none =>
      let sync1 : cicpos_mac_row_t :=
        { sync_row with
          source_prot := true,
          os := { sync_row.os with state := K.CICPOS_IPMAC_REACHABLE } }
      let row1 : cicp_mac_row_t := { row with rc := 0 }
      let sync2 : cicpos_mac_row_t :=
        if newly_valid ≠ 0 then { sync1 with mapping_set := jiffies } else sync1
      ⟨alteration, sync2, row1, out_ignore_clash⟩

/-- The three early `return 0` guards of `cicpos_mac_kmib_row_update`, in
source order: `true` when one of them fires and the update is rejected. -/
def row_update_rejects (K : cicp_defs) (sync_row : cicpos_mac_row_t)
    (row : cicp_mac_row_t) (os : Option cicpos_mac_row_sync_t)
    (mac : ci_mac_addr_t) (alteration : Int) : Bool :=
  (match os with
   | some o => decide (o.state = K.CICPOS_IPMAC_INCOMPLETE ∨
                       o.state = K.CICPOS_IPMAC_NONE)
   | none => false) ||
  decide (sync_row.source_sync = true ∧
    sync_row.os.state ≠ K.CICPOS_IPMAC_FAILED ∧ os.isNone = true) ||
  decide (os.isNone = true ∧ sync_row.source_sync = false ∧ alteration ≠ 0 ∧
    ¬ (row.mac_addr = mac))

/-- The setter `cicpos_mac_row_synced`: marks the record recently synced. -/
def cicpos_mac_row_synced (row : cicpos_mac_row_t) : cicpos_mac_row_t :=
  { row with recent_sync := true }

/-- The check `cicpos_mac_row_recent`: the returned "bool" and the record it
leaves behind. -/
def cicpos_mac_row_recent (sync : cicpos_mac_row_t) : Int × cicpos_mac_row_t :=
  if sync.recent_sync = false then (0, sync)
  else ((if sync.source_sync then 1 else 0), { sync with recent_sync := false })

/-- A call that can reach one IP-MAC row between two purge checks: the
"seen in the O/S table" mark, or an update with its arguments. -/
inductive mac_row_call where
  | synced
  | update (jiffies reachable_time : Nat) (os : Option cicpos_mac_row_sync_t)
      (mac : ci_mac_addr_t) (alteration : Int)
  deriving DecidableEq, Repr

/-- Applies one call to a row and its sync record. -/
def mac_row_call.apply (K : cicp_defs) (c : mac_row_call)
    (st : cicpos_mac_row_t × cicp_mac_row_t) : cicpos_mac_row_t × cicp_mac_row_t :=
  match c with
  | .synced => (cicpos_mac_row_synced st.1, st.2)
  | .update j rt os mac alt =>
    let r := cicpos_mac_kmib_row_update K j rt st.1 st.2 os mac alt
    (r.sync_row, r.row)

/-- Applies a sequence of calls, first call first. -/
def mac_row_calls (K : cicp_defs) (cs : List mac_row_call)
    (st : cicpos_mac_row_t × cicp_mac_row_t) : cicpos_mac_row_t × cicp_mac_row_t :=
  cs.foldl (fun s c => c.apply K s) st

/-! ## rtnetlink response reader -/

/-- `NLMSG_NOOP` of the kernel's netlink interface. -/
def NLMSG_NOOP : Nat := 1

/-- `NLMSG_ERROR` of the kernel's netlink interface. -/
def NLMSG_ERROR : Nat := 2

/-- `NLMSG_DONE` of the kernel's netlink interface. -/
def NLMSG_DONE : Nat := 3

/-- A route attribute `struct rtattr` with its payload, as the handlers read
it: `u32` is the first 32-bit word of `RTA_DATA`, `mac` its first six octets,
`name` its octets read as an interface name, `cacheinfo` its first four words
(`struct nda_cacheinfo`: confirmed, used, updated, refcnt) and `nested` the
(type, first word) pairs of the attributes nested in it (`RTA_METRICS`). -/
structure rtattr where
  rta_type : Nat
  u32 : Nat
  mac : ci_mac_addr_t
  name : List Nat
  cacheinfo : Nat × Nat × Nat × Nat
  nested : List (Nat × Nat)
  deriving DecidableEq, Repr

/-- The route message header `struct rtmsg`. -/
structure rtmsg where
  rtm_family : Nat
  rtm_dst_len : Nat
  rtm_src_len : Nat
  rtm_tos : Nat
  rtm_table : Nat
  rtm_protocol : Nat
  rtm_scope : Nat
  rtm_type : Nat
  rtm_flags : Nat
  deriving DecidableEq, Repr

/-- The link message header `struct ifinfomsg`. -/
structure ifinfomsg where
  ifi_family : Nat
  ifi_type : Nat
  ifi_index : Int
  ifi_flags : Nat
  ifi_change : Nat
  deriving DecidableEq, Repr

/-- The address message header `struct ifaddrmsg`. -/
structure ifaddrmsg where
  ifa_family : Nat
  ifa_prefixlen : Nat
  ifa_flags : Nat
  ifa_scope : Nat
  ifa_index : Nat
  deriving DecidableEq, Repr

/-- The neighbour message header `struct ndmsg`. -/
structure ndmsg where
  ndm_family : Nat
  ndm_ifindex : Int
  ndm_state : Nat
  ndm_flags : Nat
  ndm_type : Nat
  deriving DecidableEq, Repr

/-- What lies behind a netlink header (`NLMSG_DATA`), as each handler reads
it: the family header under the handler's cast and the attributes that the
`RTA_OK` / `RTA_NEXT` walk visits after it, in order. -/
structure nl_payload where
  rtm : rtmsg
  rtm_rta : List rtattr
  ifi : ifinfomsg
  ifla_rta : List rtattr
  ifa : ifaddrmsg
  ifa_rta : List rtattr
  ndm : ndmsg
  nda_rta : List rtattr
  deriving DecidableEq, Repr

/-- An all-zero payload without attributes. -/
def nl_payload.zero : nl_payload :=
  { rtm := ⟨0, 0, 0, 0, 0, 0, 0, 0, 0⟩, rtm_rta := [],
    ifi := ⟨0, 0, 0, 0, 0⟩, ifla_rta := [],
    ifa := ⟨0, 0, 0, 0, 0⟩, ifa_rta := [],
    ndm := ⟨0, 0, 0, 0, 0⟩, nda_rta := [] }

/-- The netlink message `struct nlmsghdr`: the header fields and, in
`nlmsg_data`, what `NLMSG_DATA` gives access to. -/
structure nlmsghdr where
  nlmsg_len : Nat
  nlmsg_type : Nat
  nlmsg_flags : Nat
  nlmsg_seq : Nat
  nlmsg_pid : Nat
  nlmsg_data : nl_payload
  deriving DecidableEq, Repr

/-- One outcome of `netlink_read` (non-blocking, after its own retries): the
byte count or negated errno it returns and, for a positive count, the headers
that the `NLMSG_OK` / `NLMSG_NEXT` walk visits in the datagram, in order. -/
structure nl_read where
  bytes : Int
  msgs : List nlmsghdr
  deriving DecidableEq, Repr

/-- The socket as seen by the reader: the outcomes of the reads still to come.
Once nothing is queued a non-blocking read fails with `-EAGAIN`. -/
def netlink_read (sock : List nl_read) : nl_read × List nl_read :=
  match sock with
  | [] => (⟨- EAGAIN, []⟩, [])
  | d :: rest => (d, rest)

/-- The return value of `read_nl_msg` for a given `netlink_read` outcome: an
error is passed on, end-of-file (0 bytes) becomes `-EIO`. -/
def read_nl_msg (bytes : Int) : Int :=
  if bytes < 0 then bytes
  else if bytes = 0 then - EIO
  else bytes

/-- A call made through one of the two function pointers of
`read_rtnl_response`. -/
inductive rtnl_call where
  | handler (nlhdr : nlmsghdr)
  | post_handling
  deriving DecidableEq, Repr

/-- How the inner `while (NLMSG_OK ...)` loop is left: by `goto done`, by
`return -EIO`, or by running off the end of the datagram. -/
inductive rtnl_walk_exit where
  | done
  | error
  | next
  deriving DecidableEq, Repr

/-- The inner loop of `read_rtnl_response` over the messages of one datagram.
Returns how the loop is left, the session after the handler calls, and the
calls made, in order. -/
def rtnl_walk {σ : Type} (hf : σ → nlmsghdr → Int × σ) (seq : Nat) :
    List nlmsghdr → σ → rtnl_walk_exit × σ × List rtnl_call
  | [], session => (.next, session, [])
  | nlhdr :: rest, session =>
    if nlhdr.nlmsg_seq ≠ seq then rtnl_walk hf seq rest session
    else if nlhdr.nlmsg_type = NLMSG_DONE then (.done, session, [])
    else if nlhdr.nlmsg_type = NLMSG_NOOP then rtnl_walk hf seq rest session
    else if nlhdr.nlmsg_type = NLMSG_ERROR then (.error, session, [])
    else
      let r := hf session nlhdr
      let w := rtnl_walk hf seq rest r.2
      (w.1, w.2.1, rtnl_call.handler nlhdr :: w.2.2)

/-- What `read_rtnl_response` leaves behind: its return value, the session,
the calls made through `hf` and `post_handling_fn` in order, and the reads
still queued on the socket. -/
structure rtnl_result (σ : Type) where
  rc : Int
  session : σ
  calls : List rtnl_call
  sock : List nl_read

/-- The reader `read_rtnl_response`: `seq` is `nlsock->seq`, `sock` the socket
of `nlsock`.  Each turn of the outer `do ... while(1)` takes one read. -/
def read_rtnl_response {σ : Type} (hf : σ → nlmsghdr → Int × σ)
    (post_handling_fn : Option (σ → σ)) (seq : Nat) :
    List nl_read → σ → rtnl_result σ
  | [], session => ⟨read_nl_msg (netlink_read []).1.bytes, session, [], []⟩
  | d :: rest, session =>
    let rc := read_nl_msg (netlink_read (d :: rest)).1.bytes
    if rc < 0 then ⟨rc, session, [], rest⟩
    else
      let w := rtnl_walk hf seq d.msgs session
      match w.1 with
      | .done =>
        match post_handling_fn with
        | some f => ⟨0, f w.2.1, w.2.2 ++ [rtnl_call.post_handling], rest⟩
        | none => ⟨0, w.2.1, w.2.2, rest⟩
      | .error => ⟨- EIO, w.2.1, w.2.2, rest⟩
      | .next =>
        let r := read_rtnl_response hf post_handling_fn seq rest w.2.1
        ⟨r.rc, r.session, w.2.2 ++ r.calls, r.sock⟩

/-- The number of times the post-handling callback was invoked. -/
def post_handling_calls (calls : List rtnl_call) : Nat :=
  calls.count rtnl_call.post_handling

/-- A datagram's messages hold no end marker for the outstanding request: none
with the request's sequence number is of type `NLMSG_DONE` or `NLMSG_ERROR`. -/
def no_end_marker (seq : Nat) (msgs : List nlmsghdr) : Prop :=
  ∀ m ∈ msgs, m.nlmsg_seq = seq →
    m.nlmsg_type ≠ NLMSG_DONE ∧ m.nlmsg_type ≠ NLMSG_ERROR

/-- A read that lets the outer loop go round again: it delivered data and its
datagram holds no end marker. -/
def read_passes (seq : Nat) (d : nl_read) : Prop :=
  0 < d.bytes ∧ no_end_marker seq d.msgs

/-! ## Table synchronisation: constants and data model -/

/-- `ENODATA` of the Linux errno table. -/
def ENODATA : Int := 61

/-- `EALREADY` of the Linux errno table. -/
def EALREADY : Int := 114

/-- `PF_INET`, equal to `AF_INET`. -/
def PF_INET : Nat := 2

/-- `AF_INET` of the kernel's socket interface. -/
def AF_INET : Nat := 2

/-- `INADDR_ANY`. -/
def INADDR_ANY : Nat := 0

/-- `NLM_F_REQUEST` of the kernel's netlink interface. -/
def NLM_F_REQUEST : Nat := 0x1

/-- `NLM_F_ROOT` of the kernel's netlink interface. -/
def NLM_F_ROOT : Nat := 0x100

/-- `RTM_NEWLINK` of the kernel's rtnetlink interface. -/
def RTM_NEWLINK : Nat := 16

/-- `RTM_DELLINK` of the kernel's rtnetlink interface. -/
def RTM_DELLINK : Nat := 17

/-- `RTM_GETLINK` of the kernel's rtnetlink interface. -/
def RTM_GETLINK : Nat := 18

/-- `RTM_NEWADDR` of the kernel's rtnetlink interface. -/
def RTM_NEWADDR : Nat := 20

/-- `RTM_DELADDR` of the kernel's rtnetlink interface. -/
def RTM_DELADDR : Nat := 21

/-- `RTM_GETADDR` of the kernel's rtnetlink interface. -/
def RTM_GETADDR : Nat := 22

/-- `RTM_NEWROUTE` of the kernel's rtnetlink interface. -/
def RTM_NEWROUTE : Nat := 24

/-- `RTM_DELROUTE` of the kernel's rtnetlink interface. -/
def RTM_DELROUTE : Nat := 25

/-- `RTM_GETROUTE` of the kernel's rtnetlink interface. -/
def RTM_GETROUTE : Nat := 26

/-- `RTM_GETNEIGH` of the kernel's rtnetlink interface. -/
def RTM_GETNEIGH : Nat := 30

/-- `RTM_F_CLONED`: the route is a route-cache clone. -/
def RTM_F_CLONED : Nat := 0x200

/-- `RT_TABLE_MAIN`. -/
def RT_TABLE_MAIN : Nat := 254

/-- `RT_TABLE_LOCAL`. -/
def RT_TABLE_LOCAL : Nat := 255

/-- `RTN_UNICAST`. -/
def RTN_UNICAST : Nat := 1

/-- `RTN_LOCAL`. -/
def RTN_LOCAL : Nat := 2

/-- `RT_SCOPE_HOST`. -/
def RT_SCOPE_HOST : Nat := 254

/-- `RTA_DST`. -/
def RTA_DST : Nat := 1

/-- `RTA_IIF`. -/
def RTA_IIF : Nat := 3

/-- `RTA_OIF`. -/
def RTA_OIF : Nat := 4

/-- `RTA_GATEWAY`. -/
def RTA_GATEWAY : Nat := 5

/-- `RTA_PREFSRC`. -/
def RTA_PREFSRC : Nat := 7

/-- `RTA_METRICS`. -/
def RTA_METRICS : Nat := 8

/-- `RTAX_MTU`. -/
def RTAX_MTU : Nat := 2

/-- `LOOPBACK_IFINDEX`, defined as 1 in the source when the kernel has none. -/
def LOOPBACK_IFINDEX : Int := 1

/-- `ARPHRD_ETHER`. -/
def ARPHRD_ETHER : Nat := 1

/-- `ARPHRD_LOOPBACK`. -/
def ARPHRD_LOOPBACK : Nat := 772

/-- `IFF_UP`. -/
def IFF_UP : Nat := 0x1

/-- `IFLA_ADDRESS`. -/
def IFLA_ADDRESS : Nat := 1

/-- `IFLA_IFNAME`. -/
def IFLA_IFNAME : Nat := 3

/-- `IFLA_MTU`. -/
def IFLA_MTU : Nat := 4

/-- `IFA_LOCAL`. -/
def IFA_LOCAL : Nat := 2

/-- `IFA_BROADCAST`. -/
def IFA_BROADCAST : Nat := 4

/-- `NDA_DST`. -/
def NDA_DST : Nat := 1

/-- `NDA_LLADDR`. -/
def NDA_LLADDR : Nat := 2

/-- `NDA_CACHEINFO`. -/
def NDA_CACHEINFO : Nat := 3

/-- The MIB tables that a synchronisation cycle purges. -/
inductive cicp_table where
  | ipif
  | llap
  | route
  | mac
  deriving DecidableEq, Repr

/-- A call of a control-plane operation whose code is not among the sources,
with the arguments the handlers pass.  The post-poll calls carry the session's
seen bit-set(s) and no-sort flag at the time of the call. -/
inductive cp_call where
  | pmtu_check (dest_ip : Nat) (ifindex : Int) (mtu : Nat)
  | route_import (dest_ip dest_ipset : Nat) (scope_host : Bool)
      (next_hop_ip tos metric pref_source : Nat) (ifindex : Int)
      (mtu flags : Nat) (nosort : Bool)
  | route_delete (dest_ip dest_ipset : Nat) (ifindex : Int)
  | llap_import (ifindex : Int) (mtu : Nat) (up : Bool) (type : Nat)
      (name : List Nat) (mac : ci_mac_addr_t)
  | llap_delete (ifindex : Int)
  | ipif_import (ifindex net_ip net_ipset net_bcast scope : Nat)
  | ipif_delete (ifindex net_ip net_ipset : Nat)
  | mac_stat_nl_msg_reject
  | mac_set (ifindex : Int) (ip_addr : Nat) (mac : ci_mac_addr_t)
      (os : cicpos_mac_row_sync_t)
  | mac_row_seen (row_index : Int)
  | mact_open (ok : Bool)
  | mact_close
  | mac_purge_unseen
  | llap_post_poll (imported_llap : Nat) (nosort : Bool)
  | ipif_post_poll (imported_ipif : Nat) (nosort : Bool)
  | route_post_poll (imported_route imported_pmtu : Nat) (nosort : Bool)
  deriving DecidableEq, Repr

/-- The table a call purges, for the calls that run a table's purge. -/
def cp_call.purges : cp_call → Option cicp_table
  | .mac_purge_unseen => some cicp_table.mac
  | .llap_post_poll _ _ => some cicp_table.llap
  | .ipif_post_poll _ _ => some cicp_table.ipif
  | .route_post_poll _ _ _ => some cicp_table.route
  | _ => none

/-- The control plane as the synchronisation code sees it: the operations it
has been asked to perform so far, oldest first. -/
abbrev cicp_handle_t := List cp_call

/-- The purges run on a control plane so far, oldest first. -/
def purges_run (cp : cicp_handle_t) : List cicp_table :=
  cp.filterMap cp_call.purges

/-- What the synchronisation code takes from outside the sources: constants of
the control-plane headers, the width of `ci_mtu_t`, the kernel's
`clock_t_to_jiffies`, and the results of the control-plane operations.  The
result of an operation may depend on everything done to the control plane
before it and on its own arguments, so each result is a function of the
history it is applied to (for the imports, `cicpos_pmtu_check` and
`cicpos_mac_set` the history ending with the call itself, for
`cicpos_mact_open` and `pmtu_table` the history before it).  `pmtu_table` lists the rows below `used_rows_max` as (allocated,
net_ip); the table never holds more than `pmtu_rows_max` rows. -/
structure cp_env where
  CI_IFID_BAD : Int
  CICP_FLAG_ROUTE_MTU : Nat
  CICP_LLAP_TYPE_NONE : Nat
  CICP_LLAP_TYPE_LOOP : Nat
  CICPOS_IPMAC_VALID : Nat
  CICP_MAC_ROWID_BAD : Int
  mtu_bits : Nat
  clock_t_to_jiffies : Nat → Nat
  cicpos_pmtu_check : cicp_handle_t → Int
  cicpos_route_import : cicp_handle_t → Int × Int
  cicpos_llap_import : cicp_handle_t → Int × Int
  cicpos_ipif_import : cicp_handle_t → Int × Int
  cicpos_mac_set : cicp_handle_t → Int
  cicpos_mact_open : cicp_handle_t → Bool
  pmtu_table : cicp_handle_t → List (Bool × Nat)
  pmtu_rows_max : Nat

/-- The parse state of one synchronisation session (`cicpos_parse_state_t`):
the control plane it works on, the no-sort flag and the four seen bit-sets. -/
structure cicpos_parse_state_t where
  control_plane : cicp_handle_t
  nosort : Bool
  imported_route : Nat
  imported_llap : Nat
  imported_ipif : Nat
  imported_pmtu : Nat
  deriving DecidableEq, Repr

/-- Sets bit `i` of a bit-set (`ci_bitset_add`). -/
def ci_bitset_add (bitset : Nat) (i : Int) : Nat :=
  bitset ||| (1 <<< i.toNat)

/-- A 32-bit attribute word stored into a `ci_mtu_t`. -/
def to_ci_mtu_t (E : cp_env) (v : Nat) : Nat := v % 2 ^ E.mtu_bits

/-- The value `(ci_mtu_t)(-1)`: all ones. -/
def ci_mtu_all_ones (E : cp_env) : Nat := 2 ^ E.mtu_bits - 1

/-! ## Table synchronisation: message handlers -/

/-- The locals that the attribute walk of `cicpos_handle_route_msg` fills. -/
structure route_locals where
  dest_ip : Nat
  next_hop_ip : Nat
  pref_source : Nat
  ifindex : Int
  mtu : Nat
  ignore : Bool
  deriving DecidableEq, Repr

/-- One turn of the attribute `switch` of `cicpos_handle_route_msg`.  The
cases that only log (or do nothing) leave the locals as they are. -/
def route_attr_step (E : cp_env) (l : route_locals) (attr : rtattr) :
    route_locals :=
  if attr.rta_type = RTA_DST then { l with dest_ip := attr.u32 }
  else if attr.rta_type = RTA_OIF then { l with ifindex := (attr.u32 : Int) }
  else if attr.rta_type = RTA_GATEWAY then { l with next_hop_ip := attr.u32 }
  else if attr.rta_type = RTA_PREFSRC then { l with pref_source := attr.u32 }
  else if attr.rta_type = RTA_METRICS then
    { l with
      mtu := attr.nested.foldl
        (fun m rta => if rta.1 = RTAX_MTU then to_ci_mtu_t E rta.2 else m) l.mtu }
  else if attr.rta_type = RTA_IIF then { l with ignore := true }
  else l

/-- The handler `cicpos_handle_route_msg`: the returned `rc` and the session it
leaves.  Assertions are not checked (release build) and log output is left
out. -/
def cicpos_handle_route_msg (E : cp_env) (session : cicpos_parse_state_t)
    (nlhdr : nlmsghdr) : Int × cicpos_parse_state_t :=
  let rtmsg := nlhdr.nlmsg_data.rtm
  if rtmsg.rtm_family ≠ PF_INET then (0, session)
  else if rtmsg.rtm_table ≠ RT_TABLE_MAIN ∧ rtmsg.rtm_table ≠ RT_TABLE_LOCAL then
    (0, session)
  else
    let l := nlhdr.nlmsg_data.rtm_rta.foldl (route_attr_step E)
      { dest_ip := 0, next_hop_ip := 0, pref_source := 0,
        ifindex := E.CI_IFID_BAD, mtu := 0, ignore := false }
    let dest_ipset := rtmsg.rtm_dst_len
    let tos := rtmsg.rtm_tos
    let metric : Nat := 1
    if l.ignore = true ∨
        (rtmsg.rtm_type = RTN_LOCAL ∧ rtmsg.rtm_flags &&& RTM_F_CLONED ≠ 0) then
      (0, session)
    else if rtmsg.rtm_type ≠ RTN_UNICAST ∧ rtmsg.rtm_type ≠ RTN_LOCAL then
      (0, session)
    else
      let scope_host : Bool := decide (rtmsg.rtm_scope = RT_SCOPE_HOST)
      let ifindex : Int :=
        if rtmsg.rtm_table = RT_TABLE_LOCAL then LOOPBACK_IFINDEX else l.ifindex
      let cloned : cicpos_parse_state_t × Bool :=
        if rtmsg.rtm_flags &&& RTM_F_CLONED ≠ 0 then
          let cp := session.control_plane ++
            [cp_call.pmtu_check l.dest_ip ifindex l.mtu]
          let rowid := E.cicpos_pmtu_check cp
          if rowid ≠ -1 then
            ({ session with
                control_plane := cp,
                imported_pmtu := ci_bitset_add session.imported_pmtu rowid },
              l.ignore)
          else ({ session with control_plane := cp }, true)
        else (session, l.ignore)
      let session1 := cloned.1
      let ignore := cloned.2
      let imported : Int × cicpos_parse_state_t :=
        if nlhdr.nlmsg_type = RTM_NEWROUTE ∧ ignore = false then
          let cp := session1.control_plane ++
            [cp_call.route_import l.dest_ip dest_ipset scope_host l.next_hop_ip
              tos metric l.pref_source ifindex l.mtu
              (if l.mtu ≠ 0 ∧ ¬ (rtmsg.rtm_flags &&& RTM_F_CLONED ≠ 0) then
                E.CICP_FLAG_ROUTE_MTU else 0)
              session1.nosort]
          let r := E.cicpos_route_import cp
          if r.1 = 0 then
            (r.1, { session1 with
                      control_plane := cp,
                      imported_route := ci_bitset_add session1.imported_route r.2 })
          else (r.1, { session1 with control_plane := cp })
        else (0, session1)
      let rc := imported.1
      let session2 := imported.2
      if nlhdr.nlmsg_type = RTM_DELROUTE then
        let session3 : cicpos_parse_state_t :=
          { session2 with
            control_plane := session2.control_plane ++
              [cp_call.route_delete l.dest_ip dest_ipset ifindex] }
        if session3.nosort = true then (rc, { session3 with nosort := false })
        else (rc, session3)
      else (rc, session2)

/-- The locals that the attribute walk of `cicpos_handle_llap_msg` fills. -/
structure llap_locals where
  mtu : Nat
  name : List Nat
  mac : ci_mac_addr_t
  deriving DecidableEq, Repr

/-- One turn of the attribute `switch` of `cicpos_handle_llap_msg`. -/
def llap_attr_step (E : cp_env) (l : llap_locals) (attr : rtattr) : llap_locals :=
  if attr.rta_type = IFLA_ADDRESS then { l with mac := attr.mac }
  else if attr.rta_type = IFLA_IFNAME then { l with name := attr.name }
  else if attr.rta_type = IFLA_MTU then
    let mtu := to_ci_mtu_t E attr.u32
    { l with mtu := if mtu = 0 then ci_mtu_all_ones E else mtu }
  else l

/-- The handler `cicpos_handle_llap_msg`. -/
def cicpos_handle_llap_msg (E : cp_env) (session : cicpos_parse_state_t)
    (nlhdr : nlmsghdr) : Int × cicpos_parse_state_t :=
  let ifinfomsg := nlhdr.nlmsg_data.ifi
  if ifinfomsg.ifi_type ≠ ARPHRD_ETHER ∧ ifinfomsg.ifi_type ≠ ARPHRD_LOOPBACK then
    (0, session)
  else
    let add : Bool := decide (nlhdr.nlmsg_type = RTM_NEWLINK)
    let up : Bool := decide (ifinfomsg.ifi_flags &&& IFF_UP ≠ 0)
    let l := nlhdr.nlmsg_data.ifla_rta.foldl (llap_attr_step E)
      { mtu := 0, name := [], mac := (0, 0, 0, 0, 0, 0) }
    if add = true then
      let cp := session.control_plane ++
        [cp_call.llap_import ifinfomsg.ifi_index l.mtu up
          (if ifinfomsg.ifi_type = ARPHRD_LOOPBACK then E.CICP_LLAP_TYPE_LOOP
           else E.CICP_LLAP_TYPE_NONE)
          l.name l.mac]
      let r := E.cicpos_llap_import cp
      if r.1 = 0 then
        (r.1, { session with
                  control_plane := cp,
                  imported_llap := ci_bitset_add session.imported_llap r.2 })
      else (r.1, { session with control_plane := cp })
    else
      let session1 : cicpos_parse_state_t :=
        { session with
          control_plane := session.control_plane ++
            [cp_call.llap_delete ifinfomsg.ifi_index] }
      if session1.nosort = true then (0, { session1 with nosort := false })
      else (0, session1)

/-- The locals that the attribute walk of `cicpos_handle_ipif_msg` fills (the
interface label is read but never used). -/
structure ipif_locals where
  net_ip : Nat
  net_bcast : Nat
  deriving DecidableEq, Repr

/-- One turn of the attribute `switch` of `cicpos_handle_ipif_msg`. -/
def ipif_attr_step (l : ipif_locals) (attr : rtattr) : ipif_locals :=
  if attr.rta_type = IFA_LOCAL then { l with net_ip := attr.u32 }
  else if attr.rta_type = IFA_BROADCAST then { l with net_bcast := attr.u32 }
  else l

/-- The handler `cicpos_handle_ipif_msg`. -/
def cicpos_handle_ipif_msg (E : cp_env) (session : cicpos_parse_state_t)
    (nlhdr : nlmsghdr) : Int × cicpos_parse_state_t :=
  let ifmsg := nlhdr.nlmsg_data.ifa
  if ifmsg.ifa_family ≠ AF_INET then (0, session)
  else
    let ifindex := ifmsg.ifa_index
    let net_ipset := ifmsg.ifa_prefixlen
    let l := nlhdr.nlmsg_data.ifa_rta.foldl ipif_attr_step
      { net_ip := 0, net_bcast := 0 }
    let add : Bool := decide (nlhdr.nlmsg_type = RTM_NEWADDR)
    if add = true then
      let cp := session.control_plane ++
        [cp_call.ipif_import ifindex l.net_ip net_ipset l.net_bcast ifmsg.ifa_scope]
      let r := E.cicpos_ipif_import cp
      if r.1 = 0 then
        (r.1, { session with
                  control_plane := cp,
                  imported_ipif := ci_bitset_add session.imported_ipif r.2 })
      else (r.1, { session with control_plane := cp })
    else
      let session1 : cicpos_parse_state_t :=
        { session with
          control_plane := session.control_plane ++
            [cp_call.ipif_delete ifindex l.net_ip net_ipset] }
      if session1.nosort = true then (0, { session1 with nosort := false })
      else (0, session1)

/-- The locals that the attribute walk of `cicpos_handle_mac_msg` fills. -/
structure mac_locals where
  os : cicpos_mac_row_sync_t
  mac_addr : ci_mac_addr_t
  ip_addr : Nat
  mac_valid : Bool
  deriving DecidableEq, Repr

/-- One turn of the attribute `switch` of `cicpos_handle_mac_msg`. -/
def mac_attr_step (E : cp_env) (l : mac_locals) (attr : rtattr) : mac_locals :=
  if attr.rta_type = NDA_DST then { l with ip_addr := attr.u32 }
  else if attr.rta_type = NDA_LLADDR then
    { l with mac_addr := attr.mac, mac_valid := true }
  else if attr.rta_type = NDA_CACHEINFO then
    { l with
      os := { l.os with
              confirmed := E.clock_t_to_jiffies attr.cacheinfo.1,
              used := attr.cacheinfo.2.1,
              updated := attr.cacheinfo.2.2.1,
              refcnt := attr.cacheinfo.2.2.2 } }
  else l

/-- The handler `cicpos_handle_mac_msg` (its `rc` is always 0). -/
def cicpos_handle_mac_msg (E : cp_env) (session : cicpos_parse_state_t)
    (nlhdr : nlmsghdr) : Int × cicpos_parse_state_t :=
  let ndmsg := nlhdr.nlmsg_data.ndm
  if ndmsg.ndm_family ≠ AF_INET then
    (0, { session with
          control_plane := session.control_plane ++
            [cp_call.mac_stat_nl_msg_reject] })
  else
    let l := nlhdr.nlmsg_data.nda_rta.foldl (mac_attr_step E)
      { os := { confirmed := 0, used := 0, updated := 0, refcnt := 0,
                state := ndmsg.ndm_state, family := ndmsg.ndm_family,
                flags := ndmsg.ndm_flags },
        mac_addr := (0, 0, 0, 0, 0, 0), ip_addr := 0, mac_valid := false }
    if l.mac_valid = false ∧ l.os.state &&& E.CICPOS_IPMAC_VALID ≠ 0 then
      (0, session)
    else
      let cp := session.control_plane ++
        [cp_call.mac_set ndmsg.ndm_ifindex l.ip_addr l.mac_addr l.os]
      let row_index := E.cicpos_mac_set cp
      if row_index ≠ E.CICP_MAC_ROWID_BAD then
        (0, { session with
              control_plane := cp ++ [cp_call.mac_row_seen row_index] })
      else (0, { session with control_plane := cp })

/-! ## Table synchronisation: dump cycle -/

/-- A request handed to `kernel_sendmsg`: the header fields and the `rtmsg`
fields that the sender fills in; `dst` is the `RTA_DST` attribute of a single
path-MTU row request. -/
structure nl_request where
  nlmsg_type : Nat
  nlmsg_flags : Nat
  nlmsg_seq : Nat
  nlmsg_len : Nat
  rtm_flags : Nat
  rtm_dst_len : Nat
  dst : Option Nat
  deriving DecidableEq, Repr

/-- The netlink socket with its sequence counter (`cicp_nlsock_t`).  `sends`
holds the results of the `kernel_sendmsg` calls still to come (when it is
used up a send writes the whole message), `sent` the requests handed to
`kernel_sendmsg` so far, oldest first, and `reads` the outcomes of the reads
still to come. -/
structure cicp_nlsock_t where
  sends : List Int
  sent : List nl_request
  reads : List nl_read
  seq : Nat
  deriving DecidableEq, Repr

/-- The call `kernel_sendmsg(nlsock->sock, ...)` of a request: its return value
and the socket afterwards. -/
def kernel_sendmsg (nlsock : cicp_nlsock_t) (req : nl_request) :
    Int × cicp_nlsock_t :=
  match nlsock.sends with
  | [] => ((req.nlmsg_len : Int), { nlsock with sent := nlsock.sent ++ [req] })
  | ret :: rest =>
    (ret, { nlsock with sends := rest, sent := nlsock.sent ++ [req] })

/-- The macro `NLMSG_LENGTH`: payload length plus the aligned header length. -/
def NLMSG_LENGTH (len : Nat) : Nat := len + 16

/-- The request `request_table`: `sizeof(struct rtmsg)` is 12 and
`sizeof(struct rtgenmsg)` is 1; the sequence counter is a `__u32`. -/
def request_table (nlsock : cicp_nlsock_t) (nlmsg_type rtm_flags : Nat) :
    Int × cicp_nlsock_t :=
  let nlmsg_len :=
    if nlmsg_type = RTM_GETROUTE then NLMSG_LENGTH 12 else NLMSG_LENGTH 1
  let nlsock1 := { nlsock with seq := (nlsock.seq + 1) % 2 ^ 32 }
  let req : nl_request :=
    { nlmsg_type := nlmsg_type, nlmsg_flags := NLM_F_ROOT ||| NLM_F_REQUEST,
      nlmsg_seq := nlsock1.seq, nlmsg_len := nlmsg_len, rtm_flags := rtm_flags,
      rtm_dst_len := 0, dst := none }
  let sent := kernel_sendmsg nlsock1 req
  let ret := sent.1
  if ret < 0 then (ret, sent.2)
  else if ret ≠ (nlmsg_len : Int) then (- ENODATA, sent.2)
  else (0, sent.2)

/-- The post-poll `cicpos_llap_post_poll`, whose code is not among the sources:
recorded as a call on the control plane. -/
def cicpos_llap_post_poll (session : cicpos_parse_state_t) : cicpos_parse_state_t :=
  { session with
    control_plane := session.control_plane ++
      [cp_call.llap_post_poll session.imported_llap session.nosort] }

/-- The post-poll `cicpos_ipif_post_poll`, whose code is not among the sources:
recorded as a call on the control plane. -/
def cicpos_ipif_post_poll (session : cicpos_parse_state_t) : cicpos_parse_state_t :=
  { session with
    control_plane := session.control_plane ++
      [cp_call.ipif_post_poll session.imported_ipif session.nosort] }

/-- The post-poll `cicpos_route_post_poll`, whose code is not among the
sources: recorded as a call on the control plane. -/
def cicpos_route_post_poll (session : cicpos_parse_state_t) : cicpos_parse_state_t :=
  { session with
    control_plane := session.control_plane ++
      [cp_call.route_post_poll session.imported_route session.imported_pmtu
        session.nosort] }

/-- The post-poll `cicpos_mac_post_poll`: calls `cicpos_mac_purge_unseen`. -/
def cicpos_mac_post_poll (session : cicpos_parse_state_t) : cicpos_parse_state_t :=
  { session with
    control_plane := session.control_plane ++ [cp_call.mac_purge_unseen] }

/-- What a table dump leaves behind: its `rc`, the socket and the session. -/
structure dump_result where
  rc : Int
  nlsock : cicp_nlsock_t
  session : cicpos_parse_state_t
  deriving DecidableEq, Repr

/-- Runs `read_rtnl_response` on the socket of `nlsock`. -/
def read_response (hf : cicpos_parse_state_t → nlmsghdr → Int × cicpos_parse_state_t)
    (post_handling_fn : Option (cicpos_parse_state_t → cicpos_parse_state_t))
    (nlsock : cicp_nlsock_t) (session : cicpos_parse_state_t) : dump_result :=
  let r := read_rtnl_response hf post_handling_fn nlsock.seq nlsock.reads session
  ⟨r.rc, { nlsock with reads := r.sock }, r.session⟩

/-- The dump `cicpos_dump_routet`. -/
def cicpos_dump_routet (E : cp_env) (nlsock : cicp_nlsock_t)
    (session : cicpos_parse_state_t) : dump_result :=
  let req := request_table nlsock RTM_GETROUTE 0
  if req.1 < 0 then ⟨req.1, req.2, session⟩
  else read_response (cicpos_handle_route_msg E) none req.2 session

/-- The dump `cicpos_dump_route_cache`. -/
def cicpos_dump_route_cache (E : cp_env) (nlsock : cicp_nlsock_t)
    (session : cicpos_parse_state_t) : dump_result :=
  let req := request_table nlsock RTM_GETROUTE RTM_F_CLONED
  if req.1 < 0 then ⟨req.1, req.2, session⟩
  else read_response (cicpos_handle_route_msg E) none req.2 session

/-- The request of one path-MTU row, `cicpos_dump_pmtu_row`: nothing is done
for a row whose address is `INADDR_ANY` or that no longer exists; `RTA_LENGTH(4)`
is 8. -/
def cicpos_dump_pmtu_row (E : cp_env) (nlsock : cicp_nlsock_t) (rowid : Nat)
    (session : cicpos_parse_state_t) : cicp_nlsock_t × cicpos_parse_state_t :=
  match (E.pmtu_table session.control_plane).get? rowid with
  | none => (nlsock, session)
  | some row =>
    let net_ip := row.2
    if net_ip = INADDR_ANY then (nlsock, session)
    else
      let nlsock1 := { nlsock with seq := (nlsock.seq + 1) % 2 ^ 32 }
      let req : nl_request :=
        { nlmsg_type := RTM_GETROUTE, nlmsg_flags := NLM_F_REQUEST,
          nlmsg_seq := nlsock1.seq, nlmsg_len := NLMSG_LENGTH 12 + 8,
          rtm_flags := RTM_F_CLONED, rtm_dst_len := 32, dst := some net_ip }
      let sent := kernel_sendmsg nlsock1 req
      if sent.1 < 0 then (sent.2, session)
      else
        let r := read_response (cicpos_handle_route_msg E) none sent.2 session
        (r.nlsock, r.session)

/-- The loop of `cicpos_dump_pmtu_cache` from row `i` on; `fuel` bounds the
number of rows still to visit. -/
def pmtu_cache_loop (E : cp_env) :
    Nat → Nat → cicp_nlsock_t → cicpos_parse_state_t →
      cicp_nlsock_t × cicpos_parse_state_t
  | 0, _, nlsock, session => (nlsock, session)
  | fuel + 1, i, nlsock, session =>
    match (E.pmtu_table session.control_plane).get? i with
    | none => (nlsock, session)
    | some row =>
      let r :=
        if row.1 = true then cicpos_dump_pmtu_row E nlsock i session
        else (nlsock, session)
      pmtu_cache_loop E fuel (i + 1) r.1 r.2

/-- The dump `cicpos_dump_pmtu_cache`: one request per allocated row. -/
def cicpos_dump_pmtu_cache (E : cp_env) (nlsock : cicp_nlsock_t)
    (session : cicpos_parse_state_t) : cicp_nlsock_t × cicpos_parse_state_t :=
  pmtu_cache_loop E E.pmtu_rows_max 0 nlsock session

/-- The dump `cicpos_dump_mact`. -/
def cicpos_dump_mact (E : cp_env) (nlsock : cicp_nlsock_t)
    (session : cicpos_parse_state_t) : dump_result :=
  let opened := session.control_plane ++
    [cp_call.mact_open (E.cicpos_mact_open session.control_plane)]
  if E.cicpos_mact_open session.control_plane = true then
    let session1 := { session with control_plane := opened }
    let req := request_table nlsock RTM_GETNEIGH 0
    let r : dump_result :=
      if req.1 < 0 then ⟨req.1, req.2, session1⟩
      else read_response (cicpos_handle_mac_msg E) (some cicpos_mac_post_poll)
        req.2 session1
    ⟨r.rc, r.nlsock,
      { r.session with
        control_plane := r.session.control_plane ++ [cp_call.mact_close] }⟩
  else ⟨- EALREADY, nlsock, { session with control_plane := opened }⟩

/-- The dump `cicpos_dump_llapt`. -/
def cicpos_dump_llapt (E : cp_env) (nlsock : cicp_nlsock_t)
    (session : cicpos_parse_state_t) : dump_result :=
  let req := request_table nlsock RTM_GETLINK 0
  if req.1 < 0 then ⟨req.1, req.2, session⟩
  else read_response (cicpos_handle_llap_msg E) (some cicpos_llap_post_poll)
    req.2 session

/-- The dump `cicpos_dump_ipift`. -/
def cicpos_dump_ipift (E : cp_env) (nlsock : cicp_nlsock_t)
    (session : cicpos_parse_state_t) : dump_result :=
  let req := request_table nlsock RTM_GETADDR 0
  if req.1 < 0 then ⟨req.1, req.2, session⟩
  else read_response (cicpos_handle_ipif_msg E) (some cicpos_ipif_post_poll)
    req.2 session

/-- What one run of `cicpos_dump_tables` leaves behind: the socket and the
session just before they are released, and the `rc` of each table dump that
was run (the function itself ignores them). -/
structure dump_tables_result where
  nlsock : cicp_nlsock_t
  session : cicpos_parse_state_t
  rc_ipif : Option Int
  rc_llap : Option Int
  rc_route : Option Int
  rc_route_cache : Int
  rc_mac : Int
  deriving DecidableEq, Repr

/-- The cycle `cicpos_dump_tables`.  `alloc` is the session that
`cicpos_parse_state_alloc` and `cicpos_parse_init` deliver (`none` when out of
memory), `create_rc` the result of `create_netlink_socket` and `sock` the
socket it creates.  The result is `none` when the function returns before any
dump. -/
def cicpos_dump_tables (E : cp_env) (alloc : Option cicpos_parse_state_t)
    (create_rc : Int) (sock : cicp_nlsock_t) (mac_only : Int) :
    Option dump_tables_result :=
  match alloc with
  | none => none
  | some session0 =>
    if create_rc < 0 then none
    else
      let nlsock0 := { sock with seq := 1 }
      let full : dump_result × Option Int × Option Int × Option Int :=
        if mac_only = 0 then
          let session1 := { session0 with nosort := true }
          let r1 := cicpos_dump_ipift E nlsock0 session1
          let r2 := cicpos_dump_llapt E r1.nlsock r1.session
          let r3 := cicpos_dump_routet E r2.nlsock r2.session
          (r3, some r1.rc, some r2.rc, some r3.rc)
        else (⟨0, nlsock0, session0⟩, none, none, none)
      let p := cicpos_dump_pmtu_cache E full.1.nlsock full.1.session
      let r5 := cicpos_dump_route_cache E p.1 p.2
      let session6 := cicpos_route_post_poll r5.session
      let r7 := cicpos_dump_mact E r5.nlsock session6
      some ⟨r7.nlsock, r7.session, full.2.1, full.2.2.1, full.2.2.2, r5.rc,
        r7.rc⟩

/-- The session that `cicpos_dump_tables` hands to `cicpos_dump_mact`: the
function's statements up to and including `cicpos_route_post_poll(session)`,
for a cycle that has obtained its session `session0` and its socket `sock`. -/
def dump_tables_mact_session (E : cp_env) (session0 : cicpos_parse_state_t)
    (sock : cicp_nlsock_t) (mac_only : Int) : cicpos_parse_state_t :=
  let nlsock0 := { sock with seq := 1 }
  let full : dump_result :=
    if mac_only = 0 then
      let session1 := { session0 with nosort := true }
      let r1 := cicpos_dump_ipift E nlsock0 session1
      let r2 := cicpos_dump_llapt E r1.nlsock r1.session
      cicpos_dump_routet E r2.nlsock r2.session
    else ⟨0, nlsock0, session0⟩
  let p := cicpos_dump_pmtu_cache E full.nlsock full.session
  let r5 := cicpos_dump_route_cache E p.1 p.2
  cicpos_route_post_poll r5.session

/-! ## Filter manager callbacks (`oof_onload.c`) -/

/-- A call into the filter manager made by the control-plane callbacks. -/
inductive oof_manager_call where
  | addr_add (filter_manager : Nat) (net_ip : Nat) (ifindex : Int)
  | addr_del (filter_manager : Nat) (net_ip : Nat) (ifindex : Int)
  deriving DecidableEq, Repr

/-- The driver state `efab_tcp_driver_t`, as far as the callbacks use it: the
filter manager it owns. -/
structure efab_tcp_driver_t where
  filter_manager : Nat
  deriving DecidableEq, Repr

/-- The callback `oof_onload_on_cplane_ipadd`: the filter-manager calls it
makes. -/
def oof_onload_on_cplane_ipadd (net_ip net_ipset net_bcast : Nat)
    (ifindex : Int) (arg : efab_tcp_driver_t) : List oof_manager_call :=
  let _unused := (net_ipset, net_bcast)
  if net_ip ≠ 0 then [oof_manager_call.addr_add arg.filter_manager net_ip ifindex]
  else []

/-- The callback `oof_onload_on_cplane_ipdel`: the filter-manager calls it
makes. -/
def oof_onload_on_cplane_ipdel (net_ip net_ipset net_bcast : Nat)
    (ifindex : Int) (arg : efab_tcp_driver_t) : List oof_manager_call :=
  let _unused := (net_ipset, net_bcast)
  if net_ip ≠ 0 then [oof_manager_call.addr_del arg.filter_manager net_ip ifindex]
  else []

/-- The kind of a pending software-filter operation (the `op` enum). -/
inductive sw_filter_op_kind where
  | OOF_CB_SW_FILTER_OP_ADD
  | OOF_CB_SW_FILTER_OP_REMOVE
  deriving DecidableEq, Repr

/-- A pending software-filter operation `struct oof_cb_sw_filter_op`; `next`
is a pointer to another such record or `NULL`. -/
structure oof_cb_sw_filter_op where
  next : Option Nat
  sock_id : Int
  laddr : Nat
  raddr : Nat
  lport : Int
  rport : Int
  protocol : Int
  op : sw_filter_op_kind
  deriving DecidableEq, Repr

/-- A call made on a stack by the software-filter callbacks: the two
filter-table operations, and the stack-lock primitives, whose code is not
among the sources (for the two that try to take the lock, `locked` is what
they return). -/
inductive netif_call where
  | filter_insert (sock_id : Int) (laddr : Nat) (lport : Int) (raddr : Nat)
      (rport : Int) (protocol : Int)
  | filter_remove (sock_id : Int) (laddr : Nat) (lport : Int) (raddr : Nat)
      (rport : Int) (protocol : Int)
  | try_lock (locked : Bool)
  | lock_or_set_flags (locked : Bool)
  | holder_set_flag
  | unlock
  deriving DecidableEq, Repr

/-- Whether a call is a filter-table operation. -/
def netif_call.is_filter_op : netif_call → Bool
  | .filter_insert _ _ _ _ _ _ => true
  | .filter_remove _ _ _ _ _ _ => true
  | _ => false

/-- Whether a call is one of the stack-lock primitives. -/
def netif_call.is_lock_op : netif_call → Bool
  | .filter_insert _ _ _ _ _ _ => false
  | .filter_remove _ _ _ _ _ _ => false
  | _ => true

/-- The stack `ci_netif`, as far as the callbacks use it: the two ends of the
pending queue, the allocated operation records by address, and the calls made
on the stack so far, oldest first. -/
structure ci_netif where
  swf_update_first : Option Nat
  swf_update_last : Option Nat
  ops : List (Nat × oof_cb_sw_filter_op)
  calls : List netif_call
  deriving DecidableEq, Repr

/-- Reads the record at address `p`. -/
def heap_get (h : List (Nat × oof_cb_sw_filter_op)) (p : Nat) :
    Option oof_cb_sw_filter_op :=
  match h with
  | [] => none
  | (a, v) :: t => if a = p then some v else heap_get t p

/-- Frees the record at address `p` (`ci_free`). -/
def heap_free (h : List (Nat × oof_cb_sw_filter_op)) (p : Nat) :
    List (Nat × oof_cb_sw_filter_op) :=
  match h with
  | [] => []
  | (a, v) :: t => if a = p then heap_free t p else (a, v) :: heap_free t p

/-- Writes record `v` at address `p`. -/
def heap_set (h : List (Nat × oof_cb_sw_filter_op)) (p : Nat)
    (v : oof_cb_sw_filter_op) : List (Nat × oof_cb_sw_filter_op) :=
  (p, v) :: heap_free h p

/-- The filter-table call that `oof_cb_sw_filter_apply` makes for a record. -/
def oof_cb_sw_filter_op.call (o : oof_cb_sw_filter_op) : netif_call :=
  if o.op = sw_filter_op_kind.OOF_CB_SW_FILTER_OP_ADD then
    netif_call.filter_insert o.sock_id o.laddr o.lport o.raddr o.rport o.protocol
  else
    netif_call.filter_remove o.sock_id o.laddr o.lport o.raddr o.rport o.protocol

/-- The `for` loop of `oof_cb_sw_filter_apply`.  Each turn frees one record, so
`fuel` above the number of allocated records is never used up.  A dangling
`swf_update_first` stops the loop. -/
def sw_filter_apply_loop : Nat → ci_netif → ci_netif
  | 0, ni => ni
  | fuel + 1, ni =>
    match ni.swf_update_first with
    | none => ni
    | some p =>
      match heap_get ni.ops p with
      | none => ni
      | some op =>
        let ni1 : ci_netif :=
          { ni with
            swf_update_first := op.next,
            swf_update_last :=
              if op.next = none then none else ni.swf_update_last }
        let ni2 : ci_netif := { ni1 with calls := ni1.calls ++ [op.call] }
        let ni3 : ci_netif := { ni2 with ops := heap_free ni2.ops p }
        sw_filter_apply_loop fuel ni3

/-- The drain `oof_cb_sw_filter_apply`. -/
def oof_cb_sw_filter_apply (ni : ci_netif) : ci_netif :=
  sw_filter_apply_loop (ni.ops.length + 1) ni

/-- The enqueue `oof_cb_sw_filter_postpone`.  `ep_id` is `skf_to_ep(skf)->id`
(taken as the socket id `OO_SP_FROM_INT` yields), `alloc` the result of
`CI_ALLOC_OBJ` (`none` for `NULL`) and `locked` the result of
`efab_tcp_helper_netif_lock_or_set_flags`. -/
def oof_cb_sw_filter_postpone (ni : ci_netif) (ep_id : Int) (laddr : Nat)
    (lport : Int) (raddr : Nat) (rport : Int) (protocol : Int)
    (op_op : sw_filter_op_kind) (alloc : Option Nat) (locked : Bool) : ci_netif :=
  match alloc with
  | none => ni
  | some p =>
    let op : oof_cb_sw_filter_op :=
      { next := none, sock_id := ep_id, laddr := laddr, raddr := raddr,
        lport := lport, rport := rport, protocol := protocol, op := op_op }
    let ops1 := heap_set ni.ops p op
    let ni1 : ci_netif :=
      match ni.swf_update_last with
      | none => { ni with ops := ops1, swf_update_first := some p }
      | some l =>
        match heap_get ops1 l with
        | some last => { ni with ops := heap_set ops1 l { last with next := some p } }
        | none => { ni with ops := ops1 }
    let ni2 : ci_netif := { ni1 with swf_update_last := some p }
    let ni3 : ci_netif :=
      { ni2 with calls := ni2.calls ++ [netif_call.lock_or_set_flags locked] }
    if locked = true then
      { ni3 with calls := ni3.calls ++ [netif_call.holder_set_flag, netif_call.unlock] }
    else ni3

/-- The insert `oof_cb_sw_filter_insert`: the returned `rc` and the stack
afterwards.  `try_lock` is the result of `efab_tcp_helper_netif_try_lock`
(only called when `stack_locked` is false) and `insert_rc` the result of
`ci_netif_filter_insert`. -/
def oof_cb_sw_filter_insert (ni : ci_netif) (ep_id : Int) (laddr : Nat)
    (lport : Int) (raddr : Nat) (rport : Int) (protocol : Int)
    (stack_locked : Int) (try_lock : Bool) (insert_rc : Int)
    (alloc : Option Nat) (locked : Bool) : Int × ci_netif :=
  let ni0 : ci_netif :=
    if stack_locked ≠ 0 then ni
    else { ni with calls := ni.calls ++ [netif_call.try_lock try_lock] }
  if stack_locked ≠ 0 ∨ try_lock = true then
    let ni1 : ci_netif :=
      { ni0 with
        calls := ni0.calls ++
          [netif_call.filter_insert ep_id laddr lport raddr rport protocol] }
    if stack_locked = 0 then
      (insert_rc, { ni1 with calls := ni1.calls ++ [netif_call.unlock] })
    else (insert_rc, ni1)
  else
    (0, oof_cb_sw_filter_postpone ni0 ep_id laddr lport raddr rport protocol
      sw_filter_op_kind.OOF_CB_SW_FILTER_OP_ADD alloc locked)

/-- The filter-table operations among the calls made on a stack. -/
def filter_ops (calls : List netif_call) : List netif_call :=
  calls.filter netif_call.is_filter_op

/-- The stack-lock calls among the calls made on a stack. -/
def lock_ops (calls : List netif_call) : List netif_call :=
  calls.filter netif_call.is_lock_op

/-- The records reached from pointer `p` by following `next` are exactly those
of `nodes`, in order: each entry gives the address of a record and its content
apart from the link (`next` cleared); the link of the last record is `NULL`. -/
def swf_chain (h : List (Nat × oof_cb_sw_filter_op)) :
    Option Nat → List (Nat × oof_cb_sw_filter_op) → Prop
  | p, [] => p = none
  | p, (a, q) :: rest =>
    p = some a ∧
    ∃ o, heap_get h a = some o ∧ { o with next := none } = q ∧
      swf_chain h o.next rest

/-- The pending queue of a stack holds exactly `nodes`, head first:
`swf_update_first` starts the chain, `swf_update_last` points at its last
record (both `NULL` for an empty queue) and no address occurs twice. -/
def swf_queue (ni : ci_netif) (nodes : List (Nat × oof_cb_sw_filter_op)) : Prop :=
  swf_chain ni.ops ni.swf_update_first nodes ∧
  ni.swf_update_last = (nodes.getLast?).map Prod.fst ∧
  (nodes.map Prod.fst).Nodup

/-- The record that `oof_cb_sw_filter_postpone` builds for its arguments. -/
def new_op (ep_id : Int) (laddr : Nat) (lport : Int) (raddr : Nat) (rport : Int)
    (protocol : Int) (op_op : sw_filter_op_kind) : oof_cb_sw_filter_op :=
  { next := none, sock_id := ep_id, laddr := laddr, raddr := raddr,
    lport := lport, rport := rport, protocol := protocol, op := op_op }

/-- One postponed operation: the arguments of `oof_cb_sw_filter_postpone`, the
address its allocation returned and the result of its lock attempt. -/
structure postponed where
  addr : Nat
  ep_id : Int
  laddr : Nat
  lport : Int
  raddr : Nat
  rport : Int
  protocol : Int
  op_op : sw_filter_op_kind
  locked : Bool
  deriving DecidableEq, Repr

/-- The postpone call of a postponed operation (its allocation succeeded). -/
def postponed.run (ni : ci_netif) (p : postponed) : ci_netif :=
  oof_cb_sw_filter_postpone ni p.ep_id p.laddr p.lport p.raddr p.rport p.protocol
    p.op_op (some p.addr) p.locked

/-- The filter-table call that belongs to a postponed operation. -/
def postponed.call (p : postponed) : netif_call :=
  match p.op_op with
  | .OOF_CB_SW_FILTER_OP_ADD =>
    netif_call.filter_insert p.ep_id p.laddr p.lport p.raddr p.rport p.protocol
  | .OOF_CB_SW_FILTER_OP_REMOVE =>
    netif_call.filter_remove p.ep_id p.laddr p.lport p.raddr p.rport p.protocol

/-- The remove `oof_cb_sw_filter_remove`.  `sf_flags` is `skf->sf_flags`;
the flag bit `OOF_SOCKET_SW_FILTER_WAS_REMOVED` is declared in a header that is
not among the sources and is taken as a parameter.  The other arguments are as
for `oof_cb_sw_filter_insert`. -/
def oof_cb_sw_filter_remove (OOF_SOCKET_SW_FILTER_WAS_REMOVED : Nat)
    (ni : ci_netif) (sf_flags : Nat) (ep_id : Int) (laddr : Nat) (lport : Int)
    (raddr : Nat) (rport : Int) (protocol : Int) (stack_locked : Int)
    (try_lock : Bool) (alloc : Option Nat) (locked : Bool) : ci_netif :=
  if sf_flags &&& OOF_SOCKET_SW_FILTER_WAS_REMOVED ≠ 0 then ni
  else
    let ni0 : ci_netif :=
      if stack_locked ≠ 0 then ni
      else { ni with calls := ni.calls ++ [netif_call.try_lock try_lock] }
    if stack_locked ≠ 0 ∨ try_lock = true then
      let ni1 : ci_netif :=
        { ni0 with
          calls := ni0.calls ++
            [netif_call.filter_remove ep_id laddr lport raddr rport protocol] }
      if stack_locked = 0 then
        { ni1 with calls := ni1.calls ++ [netif_call.unlock] }
      else ni1
    else
      oof_cb_sw_filter_postpone ni0 ep_id laddr lport raddr rport protocol
        sw_filter_op_kind.OOF_CB_SW_FILTER_OP_REMOVE alloc locked

/-! ## Overall operation of the synchroniser (`linux_cplane.c`) -/

/-- What `cicpos_worker` does besides updating its counter: the calls it
makes, with the `mac_only` argument of the dump and the delay of the
re-scheduling. -/
inductive worker_call where
  | efab_netlink_poll_for_updates
  | cicpos_dump_tables (mac_only : Nat)
  | queue_delayed_work (delay : Nat)
  deriving DecidableEq, Repr

/-- The variables `cicpos_worker` reads and writes: `cicpos_timer_data.stop`,
`cicpos_running` and its `static unsigned int count`. -/
structure worker_state where
  stop : Int
  cicpos_running : Int
  count : Nat
  deriving DecidableEq, Repr

/-- `CICPOS_SCAN_INTERVAL`, for the kernel's tick rate `HZ`. -/
def CICPOS_SCAN_INTERVAL (HZ : Nat) : Nat := HZ / 2

/-- The poller `cicpos_worker`: the state it leaves and the calls it makes, in
order.  `count` is an `unsigned int` (32 bits), so `count++` wraps. -/
def cicpos_worker (HZ : Nat) (st : worker_state) :
    worker_state × List worker_call :=
  if st.stop ≠ 0 then (st, [])
  else
    let r : worker_state × List worker_call :=
      if st.cicpos_running ≠ 0 then
        let calls1 := [worker_call.efab_netlink_poll_for_updates]
        let calls2 :=
          if st.count % 2 = 0 then
            calls1 ++ [worker_call.cicpos_dump_tables (st.count % 20)]
          else calls1
        ({ st with count := (st.count + 1) % 2 ^ 32 }, calls2)
      else (st, [])
    (r.1, r.2 ++ [worker_call.queue_delayed_work (CICPOS_SCAN_INTERVAL HZ)])

/-- The synchronisation part of a route row, `cicpos_route_row_t`: its type is
declared in a header that is not among the sources, so a row is taken as the
bytes of its object representation, which is what `memset`, `memcmp` and
`memcpy` work on. -/
abbrev cicpos_route_row_t := List Nat

/-- `memset(p, 0, n)` on an object given by its bytes. -/
def memset_zero (p : List Nat) (n : Nat) : List Nat :=
  List.replicate n 0 ++ p.drop n

/-- `memcpy(dst, src, n)` on objects given by their bytes. -/
def memcpy (dst src : List Nat) (n : Nat) : List Nat :=
  src.take n ++ dst.drop n

/-- Whether `memcmp(a, b, n)` is non-zero: the first `n` bytes differ. -/
def memcmp_ne (a b : List Nat) (n : Nat) : Bool :=
  decide (a.take n ≠ b.take n)

/-- The update `cicpos_route_kmib_row_update`: the returned `changed` and the
stored row afterwards.  `size` is `sizeof(*sync_row)`; `sync_newrow` is `none`
for `NULL`. -/
def cicpos_route_kmib_row_update (size : Nat) (sync_row : cicpos_route_row_t)
    (sync_newrow : Option cicpos_route_row_t) : Int × cicpos_route_row_t :=
  match sync_newrow with
  | none => (0, memset_zero sync_row size)
  | some newrow =>
    let changed : Int := if memcmp_ne sync_row newrow size = true then 1 else 0
    (changed, memcpy sync_row newrow size)

/-- The calls `cicpos_sync_ctor` and `cicpos_sync_dtor` make: the creation of
the listening socket with its result, the scheduling and cancelling of the
poller and the release of the socket held in `NL_SOCKET` at that time. -/
inductive sync_call where
  | create_listening_netlink_socket (rc : Int)
  | queue_delayed_work (delay : Nat)
  | cancel_delayed_work_sync
  | cancel_delayed_work
  | flush_workqueue
  | sock_release (sock : Option Nat)
  deriving DecidableEq, Repr

/-- The file-scope variables of the synchroniser: `constructed`, `NL_SOCKET`
(`none` for a null pointer), `cicpos_timer_data.stop`, and the calls made so
far, oldest first. -/
structure sync_state where
  constructed : Int
  NL_SOCKET : Option Nat
  stop : Int
  calls : List sync_call
  deriving DecidableEq, Repr

/-- The constructor `cicpos_sync_ctor`.  `create_rc` is what
`create_listening_netlink_socket` returns and `sock` the socket it creates:
that function stores the socket on success and a null pointer on failure. -/
def cicpos_sync_ctor (HZ : Nat) (st : sync_state) (create_rc : Int) (sock : Nat) :
    Int × sync_state :=
  if st.constructed ≠ 0 then (0, st)
  else
    let st1 : sync_state := { st with constructed := 1 }
    let st2 : sync_state :=
      { st1 with
        NL_SOCKET := if create_rc < 0 then none else some sock,
        calls := st1.calls ++ [sync_call.create_listening_netlink_socket create_rc] }
    if create_rc ≥ 0 then
      let st3 : sync_state := { st2 with stop := 0 }
      (0, { st3 with
            calls := st3.calls ++
              [sync_call.queue_delayed_work (CICPOS_SCAN_INTERVAL HZ)] })
    else (create_rc, st2)

/-- The destructor `cicpos_sync_dtor`.  `cancel_sync` says whether
`EFX_USE_CANCEL_DELAYED_WORK_SYNC` is defined. -/
def cicpos_sync_dtor ( cancel_sync : Bool) (st : sync_state) : sync_state :=
  if st.constructed = 0 then st
  else
    let st1 : sync_state := { st with stop := 1 }
    let st2 : sync_state :=
      if cancel_sync = true then
        { st1 with calls := st1.calls ++ [sync_call.cancel_delayed_work_sync] }
      else
        { st1 with
          calls := st1.calls ++
            [sync_call.cancel_delayed_work, sync_call.flush_workqueue,
             sync_call.cancel_delayed_work] }
    { st2 with calls := st2.calls ++ [sync_call.sock_release st2.NL_SOCKET] }

/-! ## Deferred packet transmission and neighbour refresh (`linux_cplane.c`) -/

/-- `ENOMEM` of the Linux errno table. -/
def ENOMEM : Int := 12

/-- `ENOBUFS` of the Linux errno table. -/
def ENOBUFS : Int := 105

/-- A call on the deferred-packet pool `cicppl_pktpool`, whose code is not
among the sources: an allocation with the buffer id it returned (negative when
no buffer is free) or the freeing of a buffer. -/
inductive bufpool_call where
  | cicppl_pktbuf_alloc (id : Int)
  | cicppl_pktbuf_free (id : Int)
  deriving DecidableEq, Repr

/-- The work record `struct cicp_raw_sock_work_parcel`, without its
`work_struct` and its control-plane pointer. -/
structure cicp_raw_sock_work_parcel where
  pktid : Int
  ifindex : Int
  deriving DecidableEq, Repr

/-- What the deferred-transmission functions act on: the calls made on the
packet pool, the work records queued on the global work queue, the packets
handed to `cicp_raw_ip_send` (buffer id and interface) and the dropped-packet
statistic, all oldest first. -/
structure defer_state where
  cicppl_pktpool : List bufpool_call
  workqueue : List cicp_raw_sock_work_parcel
  raw_sent : List (Int × Int)
  dropped_ip : Nat
  deriving DecidableEq, Repr

/-- The copy step `cicppl_ip_pkt_handover`: the returned buffer id or error
and the state afterwards.  `dst_pktid` is what `cicppl_pktbuf_alloc` returns
and `copy_rc` what `cicppl_ip_pkt_flatten_copy` returns. -/
def cicppl_ip_pkt_handover (st : defer_state) (dst_pktid : Int) (copy_rc : Int) :
    Int × defer_state :=
  let st1 : defer_state :=
    { st with
      cicppl_pktpool := st.cicppl_pktpool ++
        [bufpool_call.cicppl_pktbuf_alloc dst_pktid] }
  if dst_pktid < 0 then (- ENOBUFS, st1)
  else if copy_rc < 0 then
    (copy_rc,
      { st1 with
        cicppl_pktpool := st1.cicppl_pktpool ++
          [bufpool_call.cicppl_pktbuf_free dst_pktid] })
  else (dst_pktid, st1)

/-- The scheduling step `cicpplos_pktbuf_defer_send`.  `wp_alloc` says whether
`ci_atomic_alloc` returned a work record. -/
def cicpplos_pktbuf_defer_send (st : defer_state) (wp_alloc : Bool)
    (pendable_pktid : Int) (ifindex : Int) : Int × defer_state :=
  if wp_alloc = true then
    (0, { st with
          workqueue := st.workqueue ++
            [{ pktid := pendable_pktid, ifindex := ifindex }] })
  else (- ENOMEM, st)

/-- The deferral `cicppl_mac_defer_send`: the returned truth value (1 or 0),
the value stored in `*ref_os_rc` and the state afterwards.  `ip_pktid` is
`none` for a packet id on which `OO_PP_IS_NULL` holds; the other arguments are
those of the two steps above. -/
def cicppl_mac_defer_send (st : defer_state) (ip_pktid : Option Nat)
    (dst_pktid : Int) (copy_rc : Int) (wp_alloc : Bool) (ifindex : Int) :
    Int × Int × defer_state :=
  match ip_pktid with
  | none => (0, - EINVAL, st)
  | some _ =>
    let h := cicppl_ip_pkt_handover st dst_pktid copy_rc
    let pendable_pktid := h.1
    if pendable_pktid < 0 then (0, pendable_pktid, h.2)
    else
      let d := cicpplos_pktbuf_defer_send h.2 wp_alloc pendable_pktid ifindex
      ((if d.1 = 0 then 1 else 0), d.1, d.2)

/-- The work item `cicppl_arp_pkt_tx_queue`, run for the work record `wp`.
`pkt_ok` says whether `cicppl_pktbuf_pkt` returned a packet and `send_rc` is
what `cicp_raw_ip_send` returns. -/
def cicppl_arp_pkt_tx_queue (st : defer_state) (wp : cicp_raw_sock_work_parcel)
    (pkt_ok : Bool) (send_rc : Int) : defer_state :=
  if wp.pktid < 0 then st
  else if pkt_ok = false then st
  else
    let st1 : defer_state :=
      { st with raw_sent := st.raw_sent ++ [(wp.pktid, wp.ifindex)] }
    let st2 : defer_state :=
      if send_rc < 0 then { st1 with dropped_ip := st1.dropped_ip + 1 } else st1
    { st2 with
      cicppl_pktpool := st2.cicppl_pktpool ++
        [bufpool_call.cicppl_pktbuf_free wp.pktid] }

/-- `NUD_REACHABLE`. -/
def NUD_REACHABLE : Nat := 0x02

/-- `NUD_STALE`. -/
def NUD_STALE : Nat := 0x04

/-- `NUD_DELAY`. -/
def NUD_DELAY : Nat := 0x08

/-- `NEIGH_UPDATE_F_ADMIN`. -/
def NEIGH_UPDATE_F_ADMIN : Nat := 0x80000000

/-- `ARPOP_REQUEST`. -/
def ARPOP_REQUEST : Nat := 1

/-- `ETH_P_ARP`. -/
def ETH_P_ARP : Nat := 0x0806

/-- `RT_SCOPE_LINK`. -/
def RT_SCOPE_LINK : Nat := 253

/-- The fields of the kernel's `struct neighbour` that
`cicpos_arp_stale_update` reads or writes. -/
structure neighbour where
  nud_state : Nat
  confirmed : Nat
  ha : ci_mac_addr_t
  deriving DecidableEq, Repr

/-- The field of the kernel's `struct net_device` that
`cicpos_arp_stale_update` reads. -/
structure net_device where
  dev_addr : ci_mac_addr_t
  deriving DecidableEq, Repr

/-- A kernel call made by `cicpos_arp_stale_update`.  `neigh_update` is always
called with a null link-layer address; `arp_send` with a null target hardware
address. -/
inductive kernel_call where
  | dev_get_by_index (ifindex : Int)
  | neigh_lookup (dst : Nat)
  | neigh_update (new : Nat) (flags : Nat)
  | inet_select_addr (dst : Nat) (scope : Nat)
  | arp_send (type : Nat) (ptype : Nat) (dest_ip : Nat) (src_ip : Nat)
      (dest_hw : ci_mac_addr_t) (src_hw : ci_mac_addr_t)
  | neigh_release
  | dev_put
  deriving DecidableEq, Repr

/-- The refresh `cicpos_arp_stale_update`: the neighbour entry as the function
itself leaves it and the kernel calls it makes, in order.  `dev` is what
`dev_get_by_index` returns, `neigh` what `neigh_lookup` returns (`none` for
`NULL`), `src_ip` what `inet_select_addr` returns; `neigh_confirm` stores
`jiffies` in `confirmed`. -/
def cicpos_arp_stale_update (jiffies : Nat) (dev : Option net_device)
    (neigh : Option neighbour) (src_ip : Nat) (dst : Nat) (ifindex : Int)
    (confirm : Int) : Option neighbour × List kernel_call :=
  let calls0 := [kernel_call.dev_get_by_index ifindex]
  match dev with
  | none => (neigh, calls0)
  | some d =>
    let calls1 := calls0 ++ [kernel_call.neigh_lookup dst]
    match neigh with
    | none => (none, calls1 ++ [kernel_call.dev_put])
    | some n =>
      let r : neighbour × List kernel_call :=
        if confirm ≠ 0 then
          if n.nud_state = NUD_STALE then
            (n, calls1 ++
              [kernel_call.neigh_update NUD_REACHABLE NEIGH_UPDATE_F_ADMIN])
          else ({ n with confirmed := jiffies }, calls1)
        else if confirm = 0 ∧ n.nud_state = NUD_STALE then
          (n, calls1 ++
            [kernel_call.inet_select_addr dst RT_SCOPE_LINK,
             kernel_call.arp_send ARPOP_REQUEST ETH_P_ARP dst src_ip n.ha
               d.dev_addr,
             kernel_call.neigh_update NUD_DELAY NEIGH_UPDATE_F_ADMIN])
        else (n, calls1)
      (some r.1, r.2 ++ [kernel_call.neigh_release, kernel_call.dev_put])

/-! ## Statements about the reader, in the words of the specification -/

/-- The messages passed to the handler among the calls of the reader, in
order. -/
def handled_msgs (calls : List rtnl_call) : List nlmsghdr :=
  calls.filterMap (fun c =>
    match c with
    | .handler h => some h
    | .post_handling => none)

/-- A message that ends the reading: it carries the outstanding request's
sequence number and is of type DONE or ERROR. -/
def is_end_marker (seq : Nat) (m : nlmsghdr) : Bool :=
  decide (m.nlmsg_seq = seq ∧
    (m.nlmsg_type = NLMSG_DONE ∨ m.nlmsg_type = NLMSG_ERROR))

/-- A message for the handler: it carries the outstanding request's sequence
number and its type is not DONE, NOOP or ERROR. -/
def is_for_handler (seq : Nat) (m : nlmsghdr) : Bool :=
  decide (m.nlmsg_seq = seq ∧ m.nlmsg_type ≠ NLMSG_DONE ∧
    m.nlmsg_type ≠ NLMSG_NOOP ∧ m.nlmsg_type ≠ NLMSG_ERROR)

/-- The stream of messages the socket delivers: the messages of the reads that
deliver data, in order, up to the first read that fails or hits end-of-file. -/
def messages_read (sock : List nl_read) : List nlmsghdr :=
  ((sock.takeWhile (fun d => decide (0 < d.bytes))).map nl_read.msgs).flatten

/-- The handler invocations the specification asks for: of the stream taken up
to the first end marker, the in-order sub-sequence of messages for the
handler. -/
def expected_handled (seq : Nat) (msgs : List nlmsghdr) : List nlmsghdr :=
  (msgs.takeWhile (fun m => ! is_end_marker seq m)).filter (is_for_handler seq)

/-! ## Statements about the handlers, in the words of the specification -/

/-- The table a call deletes a row from, for the three delete operations. -/
def cp_call.deletes : cp_call → Option cicp_table
  | .route_delete _ _ _ => some cicp_table.route
  | .llap_delete _ => some cicp_table.llap
  | .ipif_delete _ _ _ => some cicp_table.ipif
  | _ => none

/-- The row deletions performed on a control plane so far, oldest first. -/
def deletes_run (cp : cicp_handle_t) : List cicp_table :=
  cp.filterMap cp_call.deletes

/-- Whether a call is `cicpos_route_import`. -/
def cp_call.is_route_import : cp_call → Bool
  | .route_import _ _ _ _ _ _ _ _ _ _ _ => true
  | _ => false

/-- The MTU argument of a `cicpos_llap_import` call. -/
def cp_call.llap_mtu : cp_call → Option Nat
  | .llap_import _ mtu _ _ _ _ => some mtu
  | _ => none

/-- A route delete message that passes the filters of
`cicpos_handle_route_msg`: IPv4, main or local table, no input-interface
attribute, not a local clone, of type unicast or local. -/
def route_delete_msg (m : nlmsghdr) : Prop :=
  m.nlmsg_type = RTM_DELROUTE ∧
  m.nlmsg_data.rtm.rtm_family = PF_INET ∧
  (m.nlmsg_data.rtm.rtm_table = RT_TABLE_MAIN ∨
    m.nlmsg_data.rtm.rtm_table = RT_TABLE_LOCAL) ∧
  (∀ a ∈ m.nlmsg_data.rtm_rta, a.rta_type ≠ RTA_IIF) ∧
  ¬ (m.nlmsg_data.rtm.rtm_type = RTN_LOCAL ∧
      m.nlmsg_data.rtm.rtm_flags &&& RTM_F_CLONED ≠ 0) ∧
  (m.nlmsg_data.rtm.rtm_type = RTN_UNICAST ∨
    m.nlmsg_data.rtm.rtm_type = RTN_LOCAL)

/-- A link delete message that passes the filter of `cicpos_handle_llap_msg`:
Ethernet or loopback. -/
def llap_delete_msg (m : nlmsghdr) : Prop :=
  m.nlmsg_type = RTM_DELLINK ∧
  (m.nlmsg_data.ifi.ifi_type = ARPHRD_ETHER ∨
    m.nlmsg_data.ifi.ifi_type = ARPHRD_LOOPBACK)

/-- An address delete message that passes the filter of
`cicpos_handle_ipif_msg`: IPv4. -/
def ipif_delete_msg (m : nlmsghdr) : Prop :=
  m.nlmsg_type = RTM_DELADDR ∧ m.nlmsg_data.ifa.ifa_family = AF_INET

/-- The last `IFLA_MTU` attribute of a link message, if it has one. -/
def last_mtu_attr (m : nlmsghdr) : Option rtattr :=
  (m.nlmsg_data.ifla_rta.filter (fun a => decide (a.rta_type = IFLA_MTU))).getLast?

/-- The locals of `cicpos_handle_route_msg` after its attribute walk over the
message. -/
def route_msg_locals (E : cp_env) (m : nlmsghdr) : route_locals :=
  m.nlmsg_data.rtm_rta.foldl (route_attr_step E)
    { dest_ip := 0, next_hop_ip := 0, pref_source := 0,
      ifindex := E.CI_IFID_BAD, mtu := 0, ignore := false }

/-- The interface that `cicpos_handle_route_msg` works with: the loopback
interface for a route of the local table, else the `RTA_OIF` attribute. -/
def route_msg_ifindex (E : cp_env) (m : nlmsghdr) : Int :=
  if m.nlmsg_data.rtm.rtm_table = RT_TABLE_LOCAL then LOOPBACK_IFINDEX
  else (route_msg_locals E m).ifindex

/-- A route-cache clone that passes the filters of `cicpos_handle_route_msg`:
IPv4, main or local table, no input-interface attribute, of type unicast. -/
def route_clone_passes (m : nlmsghdr) : Prop :=
  m.nlmsg_data.rtm.rtm_family = PF_INET ∧
  (m.nlmsg_data.rtm.rtm_table = RT_TABLE_MAIN ∨
    m.nlmsg_data.rtm.rtm_table = RT_TABLE_LOCAL) ∧
  (∀ a ∈ m.nlmsg_data.rtm_rta, a.rta_type ≠ RTA_IIF) ∧
  m.nlmsg_data.rtm.rtm_type = RTN_UNICAST

/-! ## Statements about the dump cycle, in the words of the specification -/

/-- What tells requests apart: message type, netlink flags and route flags. -/
def nl_request.kind (q : nl_request) : Nat × Nat × Nat :=
  (q.nlmsg_type, q.nlmsg_flags, q.rtm_flags)

/-- The kind of a whole-table dump request. -/
def table_request (nlmsg_type rtm_flags : Nat) : Nat × Nat × Nat :=
  (nlmsg_type, NLM_F_ROOT ||| NLM_F_REQUEST, rtm_flags)

/-- The kind of the request for a single path-MTU row. -/
def pmtu_row_request : Nat × Nat × Nat :=
  (RTM_GETROUTE, NLM_F_REQUEST, RTM_F_CLONED)

/-- The kinds of the requests sent on a socket so far, oldest first. -/
def requests_sent (nlsock : cicp_nlsock_t) : List (Nat × Nat × Nat) :=
  nlsock.sent.map nl_request.kind

/-! ## Statements about the deferred-packet pool and the pending queue, in the words of the specification -/

/-- The buffers of the deferred-packet pool that are allocated after a series
of calls on it: those a successful allocation returned and no later call
freed. -/
def pool_allocated (calls : List bufpool_call) : List Int :=
  calls.foldl
    (fun acc c =>
      match c with
      | .cicppl_pktbuf_alloc id => if id < 0 then acc else acc ++ [id]
      | .cicppl_pktbuf_free id => acc.erase id)
    []

/-- The address reached from address `a` by following `next` links `k`
times, if there is one. -/
def swf_follow (h : List (Nat × oof_cb_sw_filter_op)) : Nat → Nat → Option Nat
  | 0, a => some a
  | k + 1, a =>
    match heap_get h a with
    | none => none
    | some o =>
      match o.next with
      | none => none
      | some b => swf_follow h k b

/-- The well-formedness of the pending queue: `swf_update_first` is `NULL` if
and only if `swf_update_last` is `NULL`; otherwise following `next` links from
`swf_update_first` reaches `swf_update_last` after finitely many steps and the
`next` of `swf_update_last` is `NULL`. -/
def swf_well_formed (ni : ci_netif) : Prop :=
  (ni.swf_update_first = none ↔ ni.swf_update_last = none) ∧
  ∀ f l, ni.swf_update_first = some f → ni.swf_update_last = some l →
    (∃ k, swf_follow ni.ops k f = some l) ∧
    ∃ o, heap_get ni.ops l = some o ∧ o.next = none

/-! ## Sample inputs -/

/-- An O/S-sourced sync record in state REACHABLE, as the constructor builds it
from a neighbour entry. -/
def os_reachable_sync : cicpos_mac_row_t :=
  cicpos_mac_kmib_row_ctor (some ⟨0, 0, 0, 1, 0x02, 2, 0⟩)

/-- A protocol-sourced sync record, as the constructor builds it. -/
def prot_sync : cicpos_mac_row_t := cicpos_mac_kmib_row_ctor none

/-- A row for 10.0.0.5 on interface 2 with MAC aa:bb:cc:dd:ee:ff. -/
def sample_row : cicp_mac_row_t :=
  { ifindex := 2, ip_addr := 0x0a000005,
    mac_addr := (0xaa, 0xbb, 0xcc, 0xdd, 0xee, 0xff),
    need_update := 0, version := 1, rc := 0 }

/-- An O/S-sourced sync record in state FAILED, as the constructor builds it
from a neighbour entry. -/
def os_failed_sync : cicpos_mac_row_t :=
  cicpos_mac_kmib_row_ctor (some ⟨0, 0, 0, 1, 0x20, 2, 0⟩)

/-- A neighbour entry in state REACHABLE, confirmed 5 ticks ago. -/
def reachable_os : cicpos_mac_row_sync_t := ⟨5, 0, 0, 1, 0x02, 2, 0⟩

/-- A neighbour entry in state STALE. -/
def stale_os : cicpos_mac_row_sync_t := ⟨5, 0, 0, 1, 0x04, 2, 0⟩

/-- A session type for examples: the handler counts the messages it is given. -/
def count_handler (n : Nat) (_ : nlmsghdr) : Int × Nat := (0, n + 1)

/-- A route message (`RTM_NEWROUTE`, type 24) answering request 7. -/
def sample_msg : nlmsghdr := ⟨28, 24, 2, 7, 0, nl_payload.zero⟩

/-- The `NLMSG_DONE` message answering request 7. -/
def sample_done : nlmsghdr := ⟨20, 3, 2, 7, 0, nl_payload.zero⟩

/-- One admissible environment: 16-bit `ci_mtu_t`, `NUD_VALID` for
`CICPOS_IPMAC_VALID`, an empty path-MTU table, and control-plane operations
that always succeed (every destination has path-MTU row 0). -/
def sample_env : cp_env where
  CI_IFID_BAD := -1
  CICP_FLAG_ROUTE_MTU := 1
  CICP_LLAP_TYPE_NONE := 0
  CICP_LLAP_TYPE_LOOP := 1
  CICPOS_IPMAC_VALID := 0xde
  CICP_MAC_ROWID_BAD := -1
  mtu_bits := 16
  clock_t_to_jiffies := fun t => t
  cicpos_pmtu_check := fun _ => 0
  cicpos_route_import := fun _ => (0, 3)
  cicpos_llap_import := fun _ => (0, 1)
  cicpos_ipif_import := fun _ => (0, 2)
  cicpos_mac_set := fun _ => 4
  cicpos_mact_open := fun _ => true
  pmtu_table := fun _ => []
  pmtu_rows_max := 16

/-- A fresh session on a control plane on which nothing has been done. -/
def fresh_session : cicpos_parse_state_t :=
  { control_plane := [], nosort := false, imported_route := 0,
    imported_llap := 0, imported_ipif := 0, imported_pmtu := 0 }

/-- An attribute that carries one 32-bit word. -/
def word_attr (rta_type u32 : Nat) : rtattr :=
  { rta_type := rta_type, u32 := u32, mac := (0, 0, 0, 0, 0, 0), name := [],
    cacheinfo := (0, 0, 0, 0), nested := [] }

/-- A route-cache clone for 10.0.0.5/32 on interface 2 in the main table:
`RTM_NEWROUTE`, unicast, flagged `RTM_F_CLONED`. -/
def clone_msg : nlmsghdr :=
  { nlmsg_len := 60, nlmsg_type := 24, nlmsg_flags := 2, nlmsg_seq := 7,
    nlmsg_pid := 0,
    nlmsg_data :=
      { nl_payload.zero with
        rtm := ⟨2, 32, 0, 0, 254, 0, 0, 1, 0x200⟩,
        rtm_rta := [word_attr 1 0x0a000005, word_attr 4 2] } }

/-- A route message of the IPv6 family (`AF_INET6` is 10). -/
def inet6_route_msg : nlmsghdr :=
  { nlmsg_len := 60, nlmsg_type := 24, nlmsg_flags := 2, nlmsg_seq := 7,
    nlmsg_pid := 0,
    nlmsg_data := { nl_payload.zero with rtm := ⟨10, 64, 0, 0, 254, 0, 0, 1, 0⟩ } }

/-- A delete of the route 10.0.0.0/24 via interface 2 in the main table. -/
def route_del_msg : nlmsghdr :=
  { nlmsg_len := 60, nlmsg_type := 25, nlmsg_flags := 0, nlmsg_seq := 7,
    nlmsg_pid := 0,
    nlmsg_data :=
      { nl_payload.zero with
        rtm := ⟨2, 24, 0, 0, 254, 0, 0, 1, 0⟩,
        rtm_rta := [word_attr 1 0x0a000000, word_attr 4 2] } }

/-- A delete of the Ethernet interface 2. -/
def link_del_msg : nlmsghdr :=
  { nlmsg_len := 32, nlmsg_type := 17, nlmsg_flags := 0, nlmsg_seq := 7,
    nlmsg_pid := 0,
    nlmsg_data := { nl_payload.zero with ifi := ⟨0, 1, 2, 0, 0⟩ } }

/-- A delete of the address 10.0.0.1/24 of interface 2. -/
def addr_del_msg : nlmsghdr :=
  { nlmsg_len := 32, nlmsg_type := 21, nlmsg_flags := 0, nlmsg_seq := 7,
    nlmsg_pid := 0,
    nlmsg_data :=
      { nl_payload.zero with
        ifa := ⟨2, 24, 0, 0, 2⟩, ifa_rta := [word_attr 2 0x0a000001] } }

/-- A link-add message for the Ethernet interface 2 without any attribute. -/
def link_add_bare_msg : nlmsghdr :=
  { nlmsg_len := 32, nlmsg_type := 16, nlmsg_flags := 0, nlmsg_seq := 7,
    nlmsg_pid := 0,
    nlmsg_data := { nl_payload.zero with ifi := ⟨0, 1, 2, 1, 0⟩ } }

/-- A link-add message for the Ethernet interface 2 with MTU 1500. -/
def link_add_msg : nlmsghdr :=
  { nlmsg_len := 40, nlmsg_type := 16, nlmsg_flags := 0, nlmsg_seq := 7,
    nlmsg_pid := 0,
    nlmsg_data :=
      { nl_payload.zero with
        ifi := ⟨0, 1, 2, 1, 0⟩, ifla_rta := [word_attr 4 1500] } }

/-- A socket on which nothing is queued: every send goes through and every
read fails with `-EAGAIN`. -/
def empty_sock : cicp_nlsock_t := ⟨[], [], [], 0⟩

/-- The kinds of the requests a cycle sent, oldest first. -/
def dump_tables_result.requests (r : dump_tables_result) : List (Nat × Nat × Nat) :=
  requests_sent r.nlsock

/-- A stack with an empty pending queue, no record allocated and no call made
yet. -/
def idle_netif : ci_netif :=
  { swf_update_first := none, swf_update_last := none, ops := [], calls := [] }

/-- Three postponed operations: an add, a remove and another add, at the
addresses 1, 2 and 3; the lock attempt of the second one succeeded. -/
def sample_postponed : List postponed :=
  [ { addr := 1, ep_id := 5, laddr := 167772161, lport := 80, raddr := 0,
      rport := 0, protocol := 6,
      op_op := sw_filter_op_kind.OOF_CB_SW_FILTER_OP_ADD, locked := false },
    { addr := 2, ep_id := 6, laddr := 167772161, lport := 53, raddr := 167772162,
      rport := 4000, protocol := 17,
      op_op := sw_filter_op_kind.OOF_CB_SW_FILTER_OP_REMOVE, locked := true },
    { addr := 3, ep_id := 5, laddr := 167772161, lport := 443, raddr := 0,
      rport := 0, protocol := 6,
      op_op := sw_filter_op_kind.OOF_CB_SW_FILTER_OP_ADD, locked := false } ]

/-- The synchroniser before its first construction. -/
def unconstructed_sync : sync_state :=
  { constructed := 0, NL_SOCKET := none, stop := 0, calls := [] }

/-- A deferred-transmission state in which nothing has happened yet. -/
def idle_defer : defer_state :=
  { cicppl_pktpool := [], workqueue := [], raw_sent := [], dropped_ip := 0 }

/-- A stale neighbour entry. -/
def stale_neigh : neighbour :=
  { nud_state := 0x04, confirmed := 100, ha := (0, 1, 2, 3, 4, 5) }

/-- A network device. -/
def sample_dev : net_device := { dev_addr := (0, 10, 11, 12, 13, 14) }

/-- A stack whose pending queue holds one ADD record, at address 1. -/
def busy_netif : ci_netif :=
  postponed.run idle_netif
    { addr := 1, ep_id := 5, laddr := 167772161, lport := 80, raddr := 0,
      rport := 0, protocol := 6,
      op_op := sw_filter_op_kind.OOF_CB_SW_FILTER_OP_ADD, locked := false }

/-! ## Theorems: address-resolution row update -/

/-- The sync record after an accepted O/S-sourced update. -/
theorem row_update_os_sync_row (K : cicp_defs) (jiffies reachable_time : Nat)
    (sync_row : cicpos_mac_row_t) (row : cicp_mac_row_t)
    (o : cicpos_mac_row_sync_t) (mac : ci_mac_addr_t) (alteration : Int)
    (h1 : ¬ (o.state = K.CICPOS_IPMAC_INCOMPLETE ∨ o.state = K.CICPOS_IPMAC_NONE)) :
    (cicpos_mac_kmib_row_update K jiffies reachable_time sync_row row (some o) mac
        alteration).sync_row =
      { os := o, source_sync := true, source_prot := sync_row.source_prot,
        recent_sync := sync_row.recent_sync,
        mapping_set :=
          if alteration ≠ 0 ∨ (o.state &&& K.CICPOS_IPMAC_REACHABLE ≠ 0 ∧
              o.state ≠ sync_row.os.state) then jiffies
          else sync_row.mapping_set } := by
  simp only [cicpos_mac_kmib_row_update, Option.isNone_some]
  rw [if_neg (by simpa using h1), if_neg (by simp), if_neg (by simp)]
  by_cases halt : alteration = 0 <;>
    by_cases hr : o.state &&& K.CICPOS_IPMAC_REACHABLE ≠ 0 ∧
        o.state ≠ sync_row.os.state <;> simp [halt, hr]

/-- The row after an accepted O/S-sourced update. -/
theorem row_update_os_row (K : cicp_defs) (jiffies reachable_time : Nat)
    (sync_row : cicpos_mac_row_t) (row : cicp_mac_row_t)
    (o : cicpos_mac_row_sync_t) (mac : ci_mac_addr_t) (alteration : Int)
    (h1 : ¬ (o.state = K.CICPOS_IPMAC_INCOMPLETE ∨ o.state = K.CICPOS_IPMAC_NONE)) :
    (cicpos_mac_kmib_row_update K jiffies reachable_time sync_row row (some o) mac
        alteration).row =
      { row with
        rc := if o.state &&& K.CICPOS_IPMAC_FAILED ≠ 0 then -EHOSTUNREACH else 0,
        need_update :=
          if o.state &&& K.CICPOS_IPMAC_STALE ≠ 0 then
            K.CICP_MAC_ROW_NEED_UPDATE_STALE
          else if o.state = K.CICPOS_IPMAC_REACHABLE ∧
              o.confirmed > reachable_time / 3 then
            K.CICP_MAC_ROW_NEED_UPDATE_SOON
          else 0 } := by
  obtain ⟨ifindex, ip_addr, mac_addr, need_update, version, rc⟩ := row
  simp only [cicpos_mac_kmib_row_update, Option.isNone_some]
  rw [if_neg (by simpa using h1), if_neg (by simp), if_neg (by simp)]
  by_cases hf : o.state &&& K.CICPOS_IPMAC_FAILED = 0 <;>
  by_cases hn : o.state &&& K.CICPOS_IPMAC_NOARP = 0 <;>
  by_cases hs : o.state &&& K.CICPOS_IPMAC_STALE = 0 <;>
  by_cases hu : need_update = K.CICP_MAC_ROW_NEED_UPDATE_STALE <;>
  by_cases hv : need_update = K.CICP_MAC_ROW_NEED_UPDATE_SOON <;>
  simp only [hf, hn, hs, hu, hv, ne_eq, not_true_eq_false, not_false_eq_true,
    if_true, if_false] <;>
  split_ifs <;> simp_all

/-- The value returned by an accepted O/S-sourced update. -/
theorem row_update_os_ret (K : cicp_defs) (jiffies reachable_time : Nat)
    (sync_row : cicpos_mac_row_t) (row : cicp_mac_row_t)
    (o : cicpos_mac_row_sync_t) (mac : ci_mac_addr_t) (alteration : Int)
    (h1 : ¬ (o.state = K.CICPOS_IPMAC_INCOMPLETE ∨ o.state = K.CICPOS_IPMAC_NONE)) :
    (cicpos_mac_kmib_row_update K jiffies reachable_time sync_row row (some o) mac
        alteration).ret =
      if o.state &&& K.CICPOS_IPMAC_STALE ≠ 0 then
        if row.need_update ≠ K.CICP_MAC_ROW_NEED_UPDATE_STALE then 1
        else alteration
      else if o.state = K.CICPOS_IPMAC_REACHABLE ∧
          o.confirmed > reachable_time / 3 then
        if row.need_update ≠ K.CICP_MAC_ROW_NEED_UPDATE_SOON then 1
        else alteration
      else alteration := by
  obtain ⟨ifindex, ip_addr, mac_addr, need_update, version, rc⟩ := row
  simp only [cicpos_mac_kmib_row_update, Option.isNone_some]
  rw [if_neg (by simpa using h1), if_neg (by simp), if_neg (by simp)]
  by_cases hf : o.state &&& K.CICPOS_IPMAC_FAILED = 0 <;>
  by_cases hn : o.state &&& K.CICPOS_IPMAC_NOARP = 0 <;>
  by_cases hs : o.state &&& K.CICPOS_IPMAC_STALE = 0 <;>
  by_cases hu : need_update = K.CICP_MAC_ROW_NEED_UPDATE_STALE <;>
  by_cases hv : need_update = K.CICP_MAC_ROW_NEED_UPDATE_SOON <;>
  simp only [hf, hn, hs, hu, hv, ne_eq, not_true_eq_false, not_false_eq_true,
    if_true, if_false] <;>
  split_ifs <;> simp_all

/-- C1 (origin precedence): on a row whose sync record is O/S-sourced and whose
O/S state is not FAILED, a protocol-originated update (`os == NULL`) returns 0
and leaves the sync record and the row exactly as they were, for every MAC and
every alteration flag. -/
theorem row_update_protocol_on_os_row_is_noop (K : cicp_defs)
    (jiffies reachable_time : Nat) (sync_row : cicpos_mac_row_t)
    (row : cicp_mac_row_t) (mac : ci_mac_addr_t) (alteration : Int)
    (hsync : sync_row.source_sync = true)
    (hstate : sync_row.os.state ≠ K.CICPOS_IPMAC_FAILED) :
    cicpos_mac_kmib_row_update K jiffies reachable_time sync_row row none mac
      alteration = ⟨0, sync_row, row, 0⟩ := by
  simp [cicpos_mac_kmib_row_update, hsync, hstate]

/-- C1 witness: a protocol update with another MAC on an O/S-reachable row. -/
theorem row_update_protocol_on_os_row_is_noop_witness :
    cicpos_mac_kmib_row_update linux_defs 1000 30000 os_reachable_sync sample_row
      none (0x02, 0, 0, 0, 0, 0x01) 1 = ⟨0, os_reachable_sync, sample_row, 0⟩ :=
  row_update_protocol_on_os_row_is_noop linux_defs 1000 30000 os_reachable_sync
    sample_row (0x02, 0, 0, 0, 0, 0x01) 1 (by decide) (by decide)

/-- C2: an O/S-sourced update whose neighbour state is exactly INCOMPLETE or
exactly NONE returns 0 and changes nothing in the sync record or the row,
whatever the row and the alteration flag. -/
theorem row_update_incomplete_or_none_is_noop (K : cicp_defs)
    (jiffies reachable_time : Nat) (sync_row : cicpos_mac_row_t)
    (row : cicp_mac_row_t) (o : cicpos_mac_row_sync_t) (mac : ci_mac_addr_t)
    (alteration : Int)
    (hstate : o.state = K.CICPOS_IPMAC_INCOMPLETE ∨ o.state = K.CICPOS_IPMAC_NONE) :
    cicpos_mac_kmib_row_update K jiffies reachable_time sync_row row (some o) mac
      alteration = ⟨0, sync_row, row, 0⟩ := by
  simp [cicpos_mac_kmib_row_update, hstate]

/-- C2 witness: an INCOMPLETE neighbour entry offered to a protocol row. -/
theorem row_update_incomplete_or_none_is_noop_witness :
    cicpos_mac_kmib_row_update linux_defs 1000 30000 prot_sync sample_row
      (some ⟨0, 0, 0, 1, 0x01, 2, 0⟩) (0, 0, 0, 0, 0, 0) 1
      = ⟨0, prot_sync, sample_row, 0⟩ :=
  row_update_incomplete_or_none_is_noop linux_defs 1000 30000 prot_sync sample_row
    ⟨0, 0, 0, 1, 0x01, 2, 0⟩ (0, 0, 0, 0, 0, 0) 1 (Or.inl (by decide))

/-- C3, as stated, fails: on a protocol-sourced row holding MAC
aa:bb:cc:dd:ee:ff, a protocol-originated update with another MAC and the
alteration flag false is applied (the sync record changes), and the same update
with the alteration flag true is the one that is rejected. -/
theorem row_update_mac_clash_counterexample :
    (cicpos_mac_kmib_row_update linux_defs 1000 30000 prot_sync sample_row none
        (0x02, 0, 0, 0, 0, 0x01) 0).sync_row ≠ prot_sync ∧
    cicpos_mac_kmib_row_update linux_defs 1000 30000 prot_sync sample_row none
        (0x02, 0, 0, 0, 0, 0x01) 1 = ⟨0, prot_sync, sample_row, 0⟩ := by
  decide

/-- C3, amended: on a row that is not O/S-sourced, a protocol-originated update
whose MAC differs from the row's MAC is rejected (returns 0, row and sync record
unchanged) when the alteration flag is true, and is accepted when the alteration
flag is false: the record is then marked protocol-sourced, its state set to
REACHABLE and the row's error code cleared. -/
theorem row_update_mac_clash (K : cicp_defs) (jiffies reachable_time : Nat)
    (sync_row : cicpos_mac_row_t) (row : cicp_mac_row_t) (mac : ci_mac_addr_t)
    (alteration : Int) (hsync : sync_row.source_sync = false)
    (hmac : row.mac_addr ≠ mac) :
    (alteration ≠ 0 →
      cicpos_mac_kmib_row_update K jiffies reachable_time sync_row row none mac
        alteration = ⟨0, sync_row, row, 0⟩) ∧
    (alteration = 0 →
      cicpos_mac_kmib_row_update K jiffies reachable_time sync_row row none mac
        alteration =
        ⟨0, { sync_row with
                source_prot := true,
                os := { sync_row.os with state := K.CICPOS_IPMAC_REACHABLE } },
          { row with rc := 0 }, 0⟩) := by
  constructor
  · intro halt
    simp [cicpos_mac_kmib_row_update, hsync, hmac, halt]
  · intro halt
    simp [cicpos_mac_kmib_row_update, hsync, halt]

/-- C3 witness: the clashing update passed as an alteration is rejected. -/
theorem row_update_mac_clash_witness :
    cicpos_mac_kmib_row_update linux_defs 1000 30000 prot_sync sample_row none
        (0x02, 0, 0, 0, 0, 0x01) 1 = ⟨0, prot_sync, sample_row, 0⟩ :=
  (row_update_mac_clash linux_defs 1000 30000 prot_sync sample_row
    (0x02, 0, 0, 0, 0, 0x01) 1 (by decide) (by decide)).1 (by decide)

/-- C4 at the failing input: an accepted O/S-sourced update whose new state is
NOARP (and not FAILED) leaves the row's error code 0, not `-EINVAL`: the
`-EINVAL` store is overwritten by the `else` of the FAILED test. -/
theorem row_update_noarp_rc_is_zero :
    linux_defs.CICPOS_IPMAC_NOARP &&& 0x40 ≠ 0 ∧
    (cicpos_mac_kmib_row_update linux_defs 1000 30000 prot_sync sample_row
        (some ⟨0, 0, 0, 1, 0x40, 2, 0⟩) (0xaa, 0xbb, 0xcc, 0xdd, 0xee, 0xff)
        0).row.rc = 0 ∧
    (cicpos_mac_kmib_row_update linux_defs 1000 30000 prot_sync sample_row
        (some ⟨0, 0, 0, 1, 0x40, 2, 0⟩) (0xaa, 0xbb, 0xcc, 0xdd, 0xee, 0xff)
        0).sync_row.os.state = 0x40 := by
  decide

/-- C5, as stated, fails: a protocol-originated update with the alteration flag
false is accepted on an O/S-sourced row in state FAILED and makes its state
REACHABLE, which it was not before, yet the `mapping_set` timestamp keeps its
old value 0 instead of the current time 1000. -/
theorem row_update_mapping_set_counterexample :
    row_update_rejects linux_defs os_failed_sync sample_row none
      sample_row.mac_addr 0 = false ∧
    os_failed_sync.os.state ≠ linux_defs.CICPOS_IPMAC_REACHABLE ∧
    (cicpos_mac_kmib_row_update linux_defs 1000 30000 os_failed_sync sample_row
      none sample_row.mac_addr 0).sync_row.os.state
        = linux_defs.CICPOS_IPMAC_REACHABLE ∧
    (cicpos_mac_kmib_row_update linux_defs 1000 30000 os_failed_sync sample_row
      none sample_row.mac_addr 0).sync_row.mapping_set = 0 := by
  decide

/-- C5, amended: in every accepted O/S-sourced update `mapping_set` is refreshed
to the current time exactly when the new state has the REACHABLE bit and differs
from the state the record held before, or the update was passed as an
alteration; in every accepted protocol-originated update it is refreshed exactly
when the update was passed as an alteration; in every other accepted update
`mapping_set` is unchanged. -/
theorem row_update_mapping_set (K : cicp_defs) (jiffies reachable_time : Nat)
    (sync_row : cicpos_mac_row_t) (row : cicp_mac_row_t)
    (os : Option cicpos_mac_row_sync_t) (mac : ci_mac_addr_t) (alteration : Int)
    (hacc : row_update_rejects K sync_row row os mac alteration = false) :
    (cicpos_mac_kmib_row_update K jiffies reachable_time sync_row row os mac
        alteration).sync_row.mapping_set =
      match os with
      | some o =>
        if alteration ≠ 0 ∨ (o.state &&& K.CICPOS_IPMAC_REACHABLE ≠ 0 ∧
            o.state ≠ sync_row.os.state) then jiffies
        else sync_row.mapping_set
      | none => if alteration ≠ 0 then jiffies else sync_row.mapping_set := by
  cases os with
  | none =>
    simp only [row_update_rejects, Option.isNone_none, Bool.false_or,
      Bool.or_eq_false_iff, decide_eq_false_iff_not] at hacc
    obtain ⟨h2, h3⟩ := hacc
    simp only [cicpos_mac_kmib_row_update, Option.isNone_none]
    rw [if_neg (by simp), if_neg h2, if_neg h3]
    by_cases halt : alteration = 0 <;> simp [halt]
  | some o =>
    simp only [row_update_rejects, Option.isNone_some, Bool.or_eq_false_iff,
      decide_eq_false_iff_not] at hacc
    obtain ⟨⟨h1, -⟩, -⟩ := hacc
    simp only [cicpos_mac_kmib_row_update, Option.isNone_some]
    rw [if_neg (by simpa using h1), if_neg (by simp), if_neg (by simp)]
    by_cases halt : alteration = 0
    · by_cases hr : o.state &&& K.CICPOS_IPMAC_REACHABLE ≠ 0 ∧
          o.state ≠ sync_row.os.state
      · simp [halt, hr]
      · simp only [halt, ne_eq, not_true_eq_false, false_or, if_neg hr]
        simp
    · by_cases hr : o.state &&& K.CICPOS_IPMAC_REACHABLE ≠ 0 ∧
          o.state ≠ sync_row.os.state
      · simp [halt, hr]
      · simp [halt, hr]

/-- C5 witness: an accepted REACHABLE update on a protocol row stamps the
current time. -/
theorem row_update_mapping_set_witness :
    (cicpos_mac_kmib_row_update linux_defs 1000 30000 prot_sync sample_row
        (some reachable_os) sample_row.mac_addr 0).sync_row.mapping_set = 1000 :=
  row_update_mapping_set linux_defs 1000 30000 prot_sync sample_row
    (some reachable_os) sample_row.mac_addr 0 (by decide)

/-- C6: after every accepted O/S-sourced update the row's refresh hint
`need_update` is non-zero if and only if the new state has the STALE bit, or the
new state is exactly REACHABLE and its confirmation age is strictly greater than
the integer quotient `reachable_time / 3`; otherwise the hint is 0.  The two
hint codes `CICP_MAC_ROW_NEED_UPDATE_STALE` and `CICP_MAC_ROW_NEED_UPDATE_SOON`
are taken to be non-zero. -/
theorem row_update_need_update (K : cicp_defs) (jiffies reachable_time : Nat)
    (sync_row : cicpos_mac_row_t) (row : cicp_mac_row_t)
    (o : cicpos_mac_row_sync_t) (mac : ci_mac_addr_t) (alteration : Int)
    (hstale : K.CICP_MAC_ROW_NEED_UPDATE_STALE ≠ 0)
    (hsoon : K.CICP_MAC_ROW_NEED_UPDATE_SOON ≠ 0)
    (hacc : row_update_rejects K sync_row row (some o) mac alteration = false) :
    ((cicpos_mac_kmib_row_update K jiffies reachable_time sync_row row (some o)
        mac alteration).row.need_update ≠ 0 ↔
      (o.state &&& K.CICPOS_IPMAC_STALE ≠ 0 ∨
        (o.state = K.CICPOS_IPMAC_REACHABLE ∧
          o.confirmed > reachable_time / 3))) ∧
    (cicpos_mac_kmib_row_update K jiffies reachable_time sync_row row (some o)
        mac alteration).sync_row.os = o := by
  simp only [row_update_rejects, Option.isNone_some, Bool.or_eq_false_iff,
    decide_eq_false_iff_not] at hacc
  obtain ⟨⟨h1, -⟩, -⟩ := hacc
  simp only [cicpos_mac_kmib_row_update, Option.isNone_some]
  rw [if_neg (by simpa using h1), if_neg (by simp), if_neg (by simp)]
  refine ⟨?_, ?_⟩
  · by_cases hs : o.state &&& K.CICPOS_IPMAC_STALE ≠ 0
    · simp only [hs, if_true, ne_eq, not_false_eq_true, true_or, iff_true]
      split_ifs <;> simp_all
    · by_cases hr : o.state = K.CICPOS_IPMAC_REACHABLE ∧
          o.confirmed > reachable_time / 3
      · simp only [if_neg hs, if_pos hr, hs, hr, and_self, or_true, iff_true]
        split_ifs <;> simp_all
      · simp only [if_neg hs, if_neg hr, hs, hr, or_self, iff_false]
        simp
  · split_ifs <;> rfl

/-- C6 witness: a REACHABLE entry confirmed 20000 ticks ago, with a reachable
time of 30000, gets the "soon" hint. -/
theorem row_update_need_update_witness :
    (cicpos_mac_kmib_row_update linux_defs 1000 30000 prot_sync sample_row
        (some ⟨20000, 0, 0, 1, 0x02, 2, 0⟩) sample_row.mac_addr
        0).row.need_update ≠ 0 :=
  ((row_update_need_update linux_defs 1000 30000 prot_sync sample_row
    ⟨20000, 0, 0, 1, 0x02, 2, 0⟩ sample_row.mac_addr 0 (by decide) (by decide)
    (by decide)).1).2 (Or.inr (by decide))

/-- C7, as stated, fails: a protocol-originated update passed with the
alteration flag true and applied a second time at the same instant still
returns 1 (an alteration is reported), and applied a second time at a later
instant it re-stamps `mapping_set`, so the sync record differs from what the
first application left. -/
theorem row_update_idempotent_counterexample :
    (cicpos_mac_kmib_row_update linux_defs 1000 30000
      (cicpos_mac_kmib_row_update linux_defs 1000 30000 prot_sync sample_row none
        sample_row.mac_addr 1).sync_row
      (cicpos_mac_kmib_row_update linux_defs 1000 30000 prot_sync sample_row none
        sample_row.mac_addr 1).row
      none sample_row.mac_addr 1).ret = 1 ∧
    (cicpos_mac_kmib_row_update linux_defs 2000 30000
      (cicpos_mac_kmib_row_update linux_defs 1000 30000 prot_sync sample_row none
        sample_row.mac_addr 1).sync_row
      (cicpos_mac_kmib_row_update linux_defs 1000 30000 prot_sync sample_row none
        sample_row.mac_addr 1).row
      none sample_row.mac_addr 1).sync_row ≠
    (cicpos_mac_kmib_row_update linux_defs 1000 30000 prot_sync sample_row none
        sample_row.mac_addr 1).sync_row := by
  decide

/-- C7, amended: for every row and every update record (os, mac) passed with the
alteration flag false, applying the record a second time after the first, at
any later instant `j2` and with the same `reachable_time`, returns 0 (no
alteration reported) and leaves the sync record and the row exactly as the
first application left them. -/
theorem row_update_idempotent (K : cicp_defs) (j1 j2 reachable_time : Nat)
    (sync_row : cicpos_mac_row_t) (row : cicp_mac_row_t)
    (os : Option cicpos_mac_row_sync_t) (mac : ci_mac_addr_t) :
    (cicpos_mac_kmib_row_update K j2 reachable_time
        (cicpos_mac_kmib_row_update K j1 reachable_time sync_row row os mac 0).sync_row
        (cicpos_mac_kmib_row_update K j1 reachable_time sync_row row os mac 0).row
        os mac 0).ret = 0 ∧
    (cicpos_mac_kmib_row_update K j2 reachable_time
        (cicpos_mac_kmib_row_update K j1 reachable_time sync_row row os mac 0).sync_row
        (cicpos_mac_kmib_row_update K j1 reachable_time sync_row row os mac 0).row
        os mac 0).sync_row =
      (cicpos_mac_kmib_row_update K j1 reachable_time sync_row row os mac 0).sync_row ∧
    (cicpos_mac_kmib_row_update K j2 reachable_time
        (cicpos_mac_kmib_row_update K j1 reachable_time sync_row row os mac 0).sync_row
        (cicpos_mac_kmib_row_update K j1 reachable_time sync_row row os mac 0).row
        os mac 0).row =
      (cicpos_mac_kmib_row_update K j1 reachable_time sync_row row os mac 0).row := by
  cases os with
  | none =>
    by_cases h2 : sync_row.source_sync = true ∧
        sync_row.os.state ≠ K.CICPOS_IPMAC_FAILED
    · have e : ∀ j, cicpos_mac_kmib_row_update K j reachable_time sync_row row none mac 0
          = ⟨0, sync_row, row, 0⟩ := by
        intro j
        simp [cicpos_mac_kmib_row_update, h2]
      simp [e]
    · have e : cicpos_mac_kmib_row_update K j1 reachable_time sync_row row none mac 0
          = ⟨0, { sync_row with
                source_prot := true,
                os := { sync_row.os with state := K.CICPOS_IPMAC_REACHABLE } },
              { row with rc := 0 }, 0⟩ := by
        simp only [cicpos_mac_kmib_row_update, Option.isNone_none]
        rw [if_neg (by simp), if_neg (by simpa using h2), if_neg (by simp)]
        simp
      simp only [e]
      simp only [cicpos_mac_kmib_row_update, Option.isNone_none]
      split_ifs <;> simp_all
  | some o =>
    by_cases h1 : o.state = K.CICPOS_IPMAC_INCOMPLETE ∨ o.state = K.CICPOS_IPMAC_NONE
    · have e : ∀ j, cicpos_mac_kmib_row_update K j reachable_time sync_row row (some o) mac 0
          = ⟨0, sync_row, row, 0⟩ := by
        intro j
        simp [cicpos_mac_kmib_row_update, h1]
      simp [e]
    · simp only [row_update_os_sync_row _ _ _ _ _ _ _ _ h1,
        row_update_os_row _ _ _ _ _ _ _ _ h1, row_update_os_ret _ _ _ _ _ _ _ _ h1]
      refine ⟨?_, ?_, ?_⟩
      · split_ifs <;> simp_all
      · simp
      · simp

/-! ## Theorems: purge check of a row -/

/-- An update never touches the `recent_sync` flag. -/
theorem row_update_recent_sync (K : cicp_defs) (jiffies reachable_time : Nat)
    (sync_row : cicpos_mac_row_t) (row : cicp_mac_row_t)
    (os : Option cicpos_mac_row_sync_t) (mac : ci_mac_addr_t) (alteration : Int) :
    (cicpos_mac_kmib_row_update K jiffies reachable_time sync_row row os mac
        alteration).sync_row.recent_sync = sync_row.recent_sync := by
  cases os with
  | none =>
    simp only [cicpos_mac_kmib_row_update, Option.isNone_none]
    split_ifs <;> rfl
  | some o =>
    by_cases h1 : o.state = K.CICPOS_IPMAC_INCOMPLETE ∨ o.state = K.CICPOS_IPMAC_NONE
    · simp [cicpos_mac_kmib_row_update, h1]
    · rw [row_update_os_sync_row _ _ _ _ _ _ _ _ h1]

/-- After a sequence of calls the `recent_sync` flag is set exactly when it was
set before or one of the calls was `cicpos_mac_row_synced`. -/
theorem mac_row_calls_recent_sync (K : cicp_defs) (cs : List mac_row_call)
    (st : cicpos_mac_row_t × cicp_mac_row_t) :
    (mac_row_calls K cs st).1.recent_sync =
      (st.1.recent_sync || decide (mac_row_call.synced ∈ cs)) := by
  induction cs generalizing st with
  | nil => simp [mac_row_calls]
  | cons c cs ih =>
    have step : mac_row_calls K (c :: cs) st = mac_row_calls K cs (c.apply K st) := by
      simp [mac_row_calls]
    rw [step, ih]
    cases c with
    | synced => simp [mac_row_call.apply, cicpos_mac_row_synced]
    | update j rt os mac alt =>
      simp [mac_row_call.apply, row_update_recent_sync]

/-- C8, as stated, fails: a protocol-sourced record that is marked recently
synced after the previous check is still reported as not live (0). -/
theorem mac_row_recent_counterexample :
    mac_row_call.synced ∈ [mac_row_call.synced] ∧
    (cicpos_mac_row_recent
      (mac_row_calls linux_defs [mac_row_call.synced]
        ((cicpos_mac_row_recent prot_sync).2, sample_row)).1).1 = 0 := by
  decide

/-- C8, amended: for every sync record and every sequence of calls on it since
the previous call of `cicpos_mac_row_recent`, the next `cicpos_mac_row_recent`
returns non-zero if and only if `cicpos_mac_row_synced` was among those calls
and the record is O/S-sourced (`source_sync` set) at the time of the check. -/
theorem mac_row_recent_iff (K : cicp_defs) (sync : cicpos_mac_row_t)
    (row : cicp_mac_row_t) (cs : List mac_row_call) :
    (cicpos_mac_row_recent
        (mac_row_calls K cs ((cicpos_mac_row_recent sync).2, row)).1).1 ≠ 0 ↔
      (mac_row_call.synced ∈ cs ∧
        (mac_row_calls K cs
          ((cicpos_mac_row_recent sync).2, row)).1.source_sync = true) := by
  have hclear : (cicpos_mac_row_recent sync).2.recent_sync = false := by
    unfold cicpos_mac_row_recent
    split_ifs <;> first | assumption | rfl
  have hflag := mac_row_calls_recent_sync K cs ((cicpos_mac_row_recent sync).2, row)
  simp only [hclear, Bool.false_or] at hflag
  generalize mac_row_calls K cs ((cicpos_mac_row_recent sync).2, row) = st at hflag ⊢
  unfold cicpos_mac_row_recent
  by_cases hm : mac_row_call.synced ∈ cs
  · have hr : st.1.recent_sync = true := by simp [hflag, hm]
    by_cases hs : st.1.source_sync = true <;> simp [hr, hs, hm]
  · have hr : st.1.recent_sync = false := by simp [hflag, hm]
    simp [hr, hm]

/-- C9: the check consumes its flag.  After any call of `cicpos_mac_row_recent`
the record is the one before with `recent_sync` cleared (every other field
unchanged), and a second call right after the first returns 0. -/
theorem mac_row_recent_consumes (sync : cicpos_mac_row_t) :
    (cicpos_mac_row_recent sync).2 = { sync with recent_sync := false } ∧
    (cicpos_mac_row_recent (cicpos_mac_row_recent sync).2).1 = 0 := by
  obtain ⟨os, ss, sp, rs, ms⟩ := sync
  cases rs <;> simp [cicpos_mac_row_recent]

/-! ## Theorems: rtnetlink response reader -/

/-- The inner loop makes no call of the post-handling function. -/
theorem rtnl_walk_post_handling_calls {σ : Type} (hf : σ → nlmsghdr → Int × σ)
    (seq : Nat) (msgs : List nlmsghdr) (session : σ) :
    post_handling_calls (rtnl_walk hf seq msgs session).2.2 = 0 := by
  induction msgs generalizing session with
  | nil => simp [rtnl_walk, post_handling_calls]
  | cons m ms ih =>
    simp only [rtnl_walk]
    split_ifs
    · exact ih session
    · simp [post_handling_calls]
    · exact ih session
    · simp [post_handling_calls]
    · have h := ih (hf session m).2
      simp only [post_handling_calls] at h ⊢
      rw [List.count_cons_of_ne (by simp)]
      exact h

/-- Over a datagram without an end marker the inner loop runs off the end. -/
theorem rtnl_walk_next {σ : Type} (hf : σ → nlmsghdr → Int × σ)
    (seq : Nat) (msgs : List nlmsghdr) (session : σ)
    (h : no_end_marker seq msgs) :
    (rtnl_walk hf seq msgs session).1 = rtnl_walk_exit.next := by
  induction msgs generalizing session with
  | nil => simp [rtnl_walk]
  | cons m ms ih =>
    have hm := h m (List.mem_cons_self m ms)
    have hms : no_end_marker seq ms := fun x hx => h x (List.mem_cons_of_mem m hx)
    simp only [rtnl_walk]
    split_ifs with h1 h2 h3 h4
    · exact ih session hms
    · exact absurd h2 (hm (not_not.mp h1)).1
    · exact ih session hms
    · exact absurd h4 (hm (not_not.mp h1)).2
    · exact ih _ hms

/-- The first end marker of a datagram decides how the inner loop is left. -/
theorem rtnl_walk_end_marker {σ : Type} (hf : σ → nlmsghdr → Int × σ)
    (seq : Nat) (ms1 : List nlmsghdr) (m : nlmsghdr) (ms2 : List nlmsghdr)
    (session : σ) (h : no_end_marker seq ms1) (hseq : m.nlmsg_seq = seq) :
    (m.nlmsg_type = NLMSG_DONE →
      (rtnl_walk hf seq (ms1 ++ m :: ms2) session).1 = rtnl_walk_exit.done) ∧
    (m.nlmsg_type = NLMSG_ERROR →
      (rtnl_walk hf seq (ms1 ++ m :: ms2) session).1 = rtnl_walk_exit.error) := by
  induction ms1 generalizing session with
  | nil =>
    constructor
    · intro ht
      simp [rtnl_walk, hseq, ht]
    · intro ht
      simp [rtnl_walk, hseq, ht, NLMSG_ERROR, NLMSG_DONE, NLMSG_NOOP]
  | cons x xs ih =>
    have hx := h x (List.mem_cons_self x xs)
    have hxs : no_end_marker seq xs := fun y hy => h y (List.mem_cons_of_mem x hy)
    simp only [List.cons_append, rtnl_walk]
    split_ifs with h1 h2 h3 h4
    · exact ih session hxs
    · exact absurd h2 (hx (not_not.mp h1)).1
    · exact ih session hxs
    · exact absurd h4 (hx (not_not.mp h1)).2
    · exact ih _ hxs

/-- Reads that pass are consumed without ending the outer loop: the result and
the number of post-handling calls are those of the reader started on the rest
of the socket, in some later session state. -/
theorem read_rtnl_response_skip {σ : Type} (hf : σ → nlmsghdr → Int × σ)
    (post_handling_fn : Option (σ → σ)) (seq : Nat) (pre rest : List nl_read)
    (session : σ) (hpre : ∀ p ∈ pre, read_passes seq p) :
    ∃ s1 : σ,
      (read_rtnl_response hf post_handling_fn seq (pre ++ rest) session).rc =
        (read_rtnl_response hf post_handling_fn seq rest s1).rc ∧
      post_handling_calls
          (read_rtnl_response hf post_handling_fn seq (pre ++ rest) session).calls =
        post_handling_calls
          (read_rtnl_response hf post_handling_fn seq rest s1).calls := by
  induction pre generalizing session with
  | nil => exact ⟨session, rfl, rfl⟩
  | cons d ds ih =>
    have hd := hpre d (List.mem_cons_self d ds)
    have hds : ∀ p ∈ ds, read_passes seq p :=
      fun p hp => hpre p (List.mem_cons_of_mem d hp)
    obtain ⟨s1, hrc, hcalls⟩ := ih (rtnl_walk hf seq d.msgs session).2.1 hds
    refine ⟨s1, ?_, ?_⟩
    · simp only [List.cons_append, read_rtnl_response, netlink_read, read_nl_msg]
      have hb : ¬ d.bytes < 0 := not_lt.mpr (le_of_lt hd.1)
      have hz : d.bytes ≠ 0 := ne_of_gt hd.1
      simp only [hb, hz, if_false, rtnl_walk_next hf seq d.msgs session hd.2]
      exact hrc
    · simp only [List.cons_append, read_rtnl_response, netlink_read, read_nl_msg]
      have hb : ¬ d.bytes < 0 := not_lt.mpr (le_of_lt hd.1)
      have hz : d.bytes ≠ 0 := ne_of_gt hd.1
      simp only [hb, hz, if_false, rtnl_walk_next hf seq d.msgs session hd.2]
      have hw := rtnl_walk_post_handling_calls hf seq d.msgs session
      simp only [post_handling_calls] at hw hcalls ⊢
      rw [List.count_append, hw, Nat.zero_add]
      exact hcalls

/-- C10 (purge safety of `read_rtnl_response`, with a post-handling callback
given).  Let the reads of `pre` all pass (data, no end marker).  If the socket
then runs dry the reader returns the negative `-EAGAIN` without calling the
callback.  If the next read `d` fails (`d.bytes < 0`) the reader returns that
negative value, and at end-of-file (`d.bytes = 0`) it returns the negative
`-EIO`, in both cases without calling the callback.  If `d` delivers data whose
first end marker with the request's sequence number is `NLMSG_DONE`, the reader
returns 0 and has called the callback exactly once; if it is `NLMSG_ERROR`, the
reader returns the negative `-EIO` and has not called the callback. -/
theorem read_rtnl_response_post_handling {σ : Type}
    (hf : σ → nlmsghdr → Int × σ) (f : σ → σ) (seq : Nat)
    (pre : List nl_read) (session : σ)
    (hpre : ∀ p ∈ pre, read_passes seq p) :
    ((read_rtnl_response hf (some f) seq pre session).rc = - EAGAIN ∧
      (read_rtnl_response hf (some f) seq pre session).rc < 0 ∧
      post_handling_calls
        (read_rtnl_response hf (some f) seq pre session).calls = 0) ∧
    ∀ (d : nl_read) (rest : List nl_read),
      (d.bytes < 0 →
        (read_rtnl_response hf (some f) seq (pre ++ d :: rest) session).rc
          = d.bytes ∧
        post_handling_calls
          (read_rtnl_response hf (some f) seq (pre ++ d :: rest) session).calls
          = 0) ∧
      (d.bytes = 0 →
        (read_rtnl_response hf (some f) seq (pre ++ d :: rest) session).rc
          = - EIO ∧
        (read_rtnl_response hf (some f) seq (pre ++ d :: rest) session).rc < 0 ∧
        post_handling_calls
          (read_rtnl_response hf (some f) seq (pre ++ d :: rest) session).calls
          = 0) ∧
      (0 < d.bytes →
        ∀ (ms1 : List nlmsghdr) (m : nlmsghdr) (ms2 : List nlmsghdr),
          d.msgs = ms1 ++ m :: ms2 → no_end_marker seq ms1 →
          m.nlmsg_seq = seq →
          (m.nlmsg_type = NLMSG_DONE →
            (read_rtnl_response hf (some f) seq (pre ++ d :: rest) session).rc
              = 0 ∧
            post_handling_calls
              (read_rtnl_response hf (some f) seq (pre ++ d :: rest)
                session).calls = 1) ∧
          (m.nlmsg_type = NLMSG_ERROR →
            (read_rtnl_response hf (some f) seq (pre ++ d :: rest) session).rc
              = - EIO ∧
            (read_rtnl_response hf (some f) seq (pre ++ d :: rest) session).rc
              < 0 ∧
            post_handling_calls
              (read_rtnl_response hf (some f) seq (pre ++ d :: rest)
                session).calls = 0)) := by
  refine ⟨?_, ?_⟩
  · obtain ⟨s1, hrc, hcalls⟩ :=
      read_rtnl_response_skip hf (some f) seq pre [] session hpre
    rw [List.append_nil] at hrc hcalls
    rw [hrc, hcalls]
    simp [read_rtnl_response, netlink_read, read_nl_msg, EAGAIN,
      post_handling_calls]
  · intro d rest
    obtain ⟨s1, hrc, hcalls⟩ :=
      read_rtnl_response_skip hf (some f) seq pre (d :: rest) session hpre
    rw [hrc, hcalls]
    refine ⟨?_, ?_, ?_⟩
    · intro hneg
      simp [read_rtnl_response, netlink_read, read_nl_msg, hneg,
        post_handling_calls]
    · intro hzero
      simp [read_rtnl_response, netlink_read, read_nl_msg, hzero, EIO,
        post_handling_calls]
    · intro hpos ms1 m ms2 hmsgs hclean hseq
      have hb : ¬ d.bytes < 0 := not_lt.mpr (le_of_lt hpos)
      have hz : d.bytes ≠ 0 := ne_of_gt hpos
      have hw := rtnl_walk_post_handling_calls hf seq d.msgs s1
      have hend := rtnl_walk_end_marker hf seq ms1 m ms2 s1 hclean hseq
      rw [← hmsgs] at hend
      simp only [post_handling_calls] at hw
      refine ⟨?_, ?_⟩
      · intro ht
        simp only [read_rtnl_response, netlink_read, read_nl_msg, hb, hz,
          if_false, hend.1 ht, post_handling_calls]
        refine ⟨trivial, ?_⟩
        rw [List.count_append, hw]
        simp
      · intro ht
        simp only [read_rtnl_response, netlink_read, read_nl_msg, hb, hz,
          if_false, hend.2 ht, post_handling_calls]
        refine ⟨trivial, by simp [ EIO], hw⟩

/-- C10 witness: a datagram with one route message and the matching
`NLMSG_DONE` ends the read with 0 and one post-handling call. -/
theorem read_rtnl_response_post_handling_witness :
    (read_rtnl_response count_handler (some id) 7
        ([] ++ (⟨48, [sample_msg, sample_done]⟩ : nl_read) :: []) 0).rc = 0 ∧
    post_handling_calls
      (read_rtnl_response count_handler (some id) 7
        ([] ++ (⟨48, [sample_msg, sample_done]⟩ : nl_read) :: []) 0).calls = 1 :=
  ((((read_rtnl_response_post_handling count_handler id 7 [] 0
      (by simp)).2 ⟨48, [sample_msg, sample_done]⟩ []).2.2 (by decide))
    [sample_msg] sample_done [] rfl
    (by simp [no_end_marker, sample_msg, NLMSG_DONE, NLMSG_ERROR]) rfl).1 rfl

/-- The handler calls of the inner loop over one datagram are the expected
ones for that datagram. -/
theorem rtnl_walk_handled {σ : Type} (hf : σ → nlmsghdr → Int × σ) (seq : Nat)
    (msgs : List nlmsghdr) (session : σ) :
    handled_msgs (rtnl_walk hf seq msgs session).2.2 = expected_handled seq msgs := by
  induction msgs generalizing session with
  | nil => simp [rtnl_walk, handled_msgs, expected_handled]
  | cons m ms ih =>
    simp only [rtnl_walk]
    split_ifs with h1 h2 h3 h4
    · rw [ih session]
      simp [expected_handled, is_end_marker, is_for_handler, h1]
    · simp [expected_handled, is_end_marker, handled_msgs, not_not.mp h1, h2]
    · rw [ih session]
      simp [expected_handled, is_end_marker, is_for_handler, not_not.mp h1, h3,
        NLMSG_NOOP, NLMSG_DONE, NLMSG_ERROR]
    · simp [expected_handled, is_end_marker, handled_msgs, not_not.mp h1, h4]
    · have h := ih (hf session m).2
      simp only [handled_msgs, expected_handled] at h ⊢
      simp [is_end_marker, is_for_handler, not_not.mp h1, h2, h3, h4, h]

/-- How the inner loop is left decides whether the datagram holds an end
marker, which cuts the expected stream. -/
theorem rtnl_walk_exit_cases {σ : Type} (hf : σ → nlmsghdr → Int × σ) (seq : Nat)
    (msgs : List nlmsghdr) (session : σ) :
    ((rtnl_walk hf seq msgs session).1 = rtnl_walk_exit.next ∧
      ∀ m ∈ msgs, (! is_end_marker seq m) = true) ∨
    ((rtnl_walk hf seq msgs session).1 ≠ rtnl_walk_exit.next ∧
      ∀ more : List nlmsghdr,
        (msgs ++ more).takeWhile (fun m => ! is_end_marker seq m) =
          msgs.takeWhile (fun m => ! is_end_marker seq m)) := by
  induction msgs generalizing session with
  | nil => left; simp [rtnl_walk]
  | cons m ms ih =>
    simp only [rtnl_walk]
    split_ifs with h1 h2 h3 h4
    · have hm : (! is_end_marker seq m) = true := by simp [is_end_marker, h1]
      rcases ih session with ⟨hn, hall⟩ | ⟨hn, hcut⟩
      · left
        exact ⟨hn, by
          intro x hx
          rcases List.mem_cons.mp hx with rfl | hx
          · exact hm
          · exact hall x hx⟩
      · right
        refine ⟨hn, fun more => ?_⟩
        simp only [List.cons_append, List.takeWhile_cons, hm, if_true]
        rw [hcut more]
    · right
      refine ⟨by simp, fun more => ?_⟩
      simp [List.takeWhile_cons, is_end_marker, not_not.mp h1, h2]
    · have hm : (! is_end_marker seq m) = true := by
        simp [is_end_marker, h3, NLMSG_NOOP, NLMSG_DONE, NLMSG_ERROR]
      rcases ih session with ⟨hn, hall⟩ | ⟨hn, hcut⟩
      · left
        exact ⟨hn, by
          intro x hx
          rcases List.mem_cons.mp hx with rfl | hx
          · exact hm
          · exact hall x hx⟩
      · right
        refine ⟨hn, fun more => ?_⟩
        simp only [List.cons_append, List.takeWhile_cons, hm, if_true]
        rw [hcut more]
    · right
      refine ⟨by simp, fun more => ?_⟩
      simp [List.takeWhile_cons, is_end_marker, not_not.mp h1, h4]
    · have hm : (! is_end_marker seq m) = true := by
        simp [is_end_marker, h2, h4]
      rcases ih (hf session m).2 with ⟨hn, hall⟩ | ⟨hn, hcut⟩
      · left
        exact ⟨hn, by
          intro x hx
          rcases List.mem_cons.mp hx with rfl | hx
          · exact hm
          · exact hall x hx⟩
      · right
        refine ⟨hn, fun more => ?_⟩
        simp only [List.cons_append, List.takeWhile_cons, hm, if_true]
        rw [hcut more]

/-- C12: for every stream of netlink messages read by `read_rtnl_response`, with
any handler and any post-handling function, the sequence of handler
invocations is exactly the in-order sub-sequence of the messages that carry the
outstanding request's sequence number and whose type is not DONE, NOOP or
ERROR, taken up to the first DONE or ERROR with that sequence number.  The
statement holds whatever the handler returns, so a handler error neither stops
the loop nor keeps later messages from the handler, and a message with another
sequence number is never handled. -/
theorem read_rtnl_response_handled {σ : Type} (hf : σ → nlmsghdr → Int × σ)
    (post_handling_fn : Option (σ → σ)) (seq : Nat) (sock : List nl_read)
    (session : σ) :
    handled_msgs (read_rtnl_response hf post_handling_fn seq sock session).calls =
      expected_handled seq (messages_read sock) := by
  induction sock generalizing session with
  | nil => simp [read_rtnl_response, handled_msgs, expected_handled, messages_read]
  | cons d rest ih =>
    by_cases hpos : 0 < d.bytes
    · have hb : ¬ d.bytes < 0 := not_lt.mpr (le_of_lt hpos)
      have hz : d.bytes ≠ 0 := ne_of_gt hpos
      have hread : messages_read (d :: rest) = d.msgs ++ messages_read rest := by
        simp [messages_read, List.takeWhile_cons, hpos]
      have hw := rtnl_walk_handled hf seq d.msgs session
      rw [hread]
      simp only [read_rtnl_response, netlink_read, read_nl_msg, hb, hz, if_false]
      rcases rtnl_walk_exit_cases hf seq d.msgs session with ⟨hn, hall⟩ | ⟨hn, hcut⟩
      · simp only [hn]
        have hrec := ih (rtnl_walk hf seq d.msgs session).2.1
        simp only [handled_msgs, expected_handled] at hw hrec ⊢
        rw [List.filterMap_append, hw, hrec, List.takeWhile_append_of_pos hall,
          List.filter_append, List.takeWhile_eq_self_iff.mpr hall]
      · have hexp : expected_handled seq (d.msgs ++ messages_read rest) =
            expected_handled seq d.msgs := by
          simp only [expected_handled, hcut]
        rw [hexp, ← hw]
        cases hx : (rtnl_walk hf seq d.msgs session).1 with
        | next => exact absurd hx hn
        | done =>
          cases post_handling_fn with
          | none => rfl
          | some f => simp [handled_msgs]
        | error => rfl
    · have hread : messages_read (d :: rest) = [] := by
        simp [messages_read, List.takeWhile_cons, hpos]
      rw [hread]
      have hneg : read_nl_msg d.bytes < 0 := by
        unfold read_nl_msg
        split_ifs with h1 h2
        · exact h1
        · simp [ EIO]
        · exact absurd (lt_of_le_of_ne (not_lt.mp h1) (Ne.symm h2)) hpos
      simp [read_rtnl_response, netlink_read, hneg, handled_msgs, expected_handled]

/-! ## Theorems: message handlers -/

/-- C15: a route message whose address family is not IPv4, or whose routing
table is neither main nor local, makes `cicpos_handle_route_msg` return 0 and
leave the session exactly as it was: nothing is done on the control plane (no
import, delete or path-MTU update) and the seen bit-sets and the no-sort flag
keep their values. -/
theorem handle_route_msg_ignores (E : cp_env) (session : cicpos_parse_state_t)
    (nlhdr : nlmsghdr)
    (h : nlhdr.nlmsg_data.rtm.rtm_family ≠ PF_INET ∨
      (nlhdr.nlmsg_data.rtm.rtm_table ≠ RT_TABLE_MAIN ∧
        nlhdr.nlmsg_data.rtm.rtm_table ≠ RT_TABLE_LOCAL)) :
    cicpos_handle_route_msg E session nlhdr = (0, session) := by
  unfold cicpos_handle_route_msg
  rcases h with h | h
  · simp [h]
  · by_cases hf : nlhdr.nlmsg_data.rtm.rtm_family ≠ PF_INET
    · simp [hf]
    · simp [hf, h]

/-- C15 witness: an IPv6 route message is ignored. -/
theorem handle_route_msg_ignores_witness :
    cicpos_handle_route_msg sample_env fresh_session inet6_route_msg
      = (0, fresh_session) :=
  handle_route_msg_ignores sample_env fresh_session inet6_route_msg
    (Or.inl (by decide))

/-- The attribute walk of the route handler raises `ignore` only on an
input-interface attribute. -/
theorem route_attr_fold_ignore (E : cp_env) (attrs : List rtattr)
    (l : route_locals) (hl : l.ignore = false)
    (h : ∀ a ∈ attrs, a.rta_type ≠ RTA_IIF) :
    (attrs.foldl (route_attr_step E) l).ignore = false := by
  induction attrs generalizing l with
  | nil => simpa using hl
  | cons a as ih =>
    simp only [List.foldl_cons]
    apply ih
    · unfold route_attr_step
      split_ifs with h1 h2 h3 h4 h5 h6
      · exact hl
      · exact hl
      · exact hl
      · exact hl
      · exact hl
      · exact absurd h6 (h a (List.mem_cons_self a as))
      · exact hl
    · exact fun x hx => h x (List.mem_cons_of_mem a hx)

/-- A route delete message that passes the filters is applied at once: one
`cicpos_route_delete` call is added and the no-sort flag is false afterwards. -/
theorem handle_route_msg_delete (E : cp_env) (session : cicpos_parse_state_t)
    (m : nlmsghdr) (hm : route_delete_msg m) :
    (cicpos_handle_route_msg E session m).2.nosort = false ∧
    deletes_run (cicpos_handle_route_msg E session m).2.control_plane =
      deletes_run session.control_plane ++ [cicp_table.route] := by
  obtain ⟨htype, hfam, htab, hiif, hloc, hty⟩ := hm
  have hign := route_attr_fold_ignore E m.nlmsg_data.rtm_rta
    { dest_ip := 0, next_hop_ip := 0, pref_source := 0,
      ifindex := E.CI_IFID_BAD, mtu := 0, ignore := false } rfl hiif
  have hnew : ¬ (RTM_DELROUTE = RTM_NEWROUTE) := by decide
  have htab2 : ¬ (m.nlmsg_data.rtm.rtm_table ≠ RT_TABLE_MAIN ∧
      m.nlmsg_data.rtm.rtm_table ≠ RT_TABLE_LOCAL) := by
    rcases htab with h | h <;> simp [h]
  have hty2 : ¬ (m.nlmsg_data.rtm.rtm_type ≠ RTN_UNICAST ∧
      m.nlmsg_data.rtm.rtm_type ≠ RTN_LOCAL) := by
    rcases hty with h | h <;> simp [h]
  have hfirst : ¬ ((m.nlmsg_data.rtm_rta.foldl (route_attr_step E)
      { dest_ip := 0, next_hop_ip := 0, pref_source := 0,
        ifindex := E.CI_IFID_BAD, mtu := 0, ignore := false }).ignore = true ∨
      (m.nlmsg_data.rtm.rtm_type = RTN_LOCAL ∧
        m.nlmsg_data.rtm.rtm_flags &&& RTM_F_CLONED ≠ 0)) := by
    rw [hign]
    simpa using hloc
  unfold cicpos_handle_route_msg
  simp only [hfam, ne_eq, not_true_eq_false, if_false, if_neg htab2, if_neg hfirst,
    if_neg hty2, htype, hnew, false_and, if_true]
  by_cases hcl : m.nlmsg_data.rtm.rtm_flags &&& RTM_F_CLONED = 0
  · simp only [hcl, not_true_eq_false, if_false]
    by_cases hns : session.nosort = true <;>
      simp [hns, deletes_run, cp_call.deletes]
  · simp only [hcl, not_false_eq_true, if_true]
    split_ifs <;> simp_all [deletes_run, cp_call.deletes]

/-- A link delete message that passes the filter is applied at once: one
`cicpos_llap_delete` call is added and the no-sort flag is false afterwards. -/
theorem handle_llap_msg_delete (E : cp_env) (session : cicpos_parse_state_t)
    (m : nlmsghdr) (hm : llap_delete_msg m) :
    (cicpos_handle_llap_msg E session m).2.nosort = false ∧
    deletes_run (cicpos_handle_llap_msg E session m).2.control_plane =
      deletes_run session.control_plane ++ [cicp_table.llap] := by
  obtain ⟨htype, hty⟩ := hm
  have hty2 : ¬ (m.nlmsg_data.ifi.ifi_type ≠ ARPHRD_ETHER ∧
      m.nlmsg_data.ifi.ifi_type ≠ ARPHRD_LOOPBACK) := by
    rcases hty with h | h <;> simp [h]
  have hadd : ¬ (RTM_DELLINK = RTM_NEWLINK) := by decide
  unfold cicpos_handle_llap_msg
  simp only [if_neg hty2, htype, hadd, decide_False, Bool.false_eq_true, if_false]
  by_cases hns : session.nosort = true <;>
    simp [hns, deletes_run, cp_call.deletes]

/-- An address delete message that passes the filter is applied at once: one
`cicpos_ipif_delete` call is added and the no-sort flag is false afterwards. -/
theorem handle_ipif_msg_delete (E : cp_env) (session : cicpos_parse_state_t)
    (m : nlmsghdr) (hm : ipif_delete_msg m) :
    (cicpos_handle_ipif_msg E session m).2.nosort = false ∧
    deletes_run (cicpos_handle_ipif_msg E session m).2.control_plane =
      deletes_run session.control_plane ++ [cicp_table.ipif] := by
  obtain ⟨htype, hfam⟩ := hm
  have hadd : ¬ (RTM_DELADDR = RTM_NEWADDR) := by decide
  unfold cicpos_handle_ipif_msg
  simp only [hfam, ne_eq, not_true_eq_false, if_false, htype, hadd, decide_False,
    Bool.false_eq_true]
  by_cases hns : session.nosort = true <;>
    simp [hns, deletes_run, cp_call.deletes]

/-- C16: in each of the route, interface (LLAP) and IP-interface handlers a
delete message that passes the handler's filters causes exactly one call of
that table's delete operation within the handler call itself, and the session's
no-sort flag is false afterwards whatever it was before; a second delete
handled right after the first is applied in the same way (two delete calls in
all) and leaves the flag false. -/
theorem handlers_delete_at_once (E : cp_env) (session : cicpos_parse_state_t) :
    (∀ m, route_delete_msg m →
      (cicpos_handle_route_msg E session m).2.nosort = false ∧
      deletes_run (cicpos_handle_route_msg E session m).2.control_plane =
        deletes_run session.control_plane ++ [cicp_table.route]) ∧
    (∀ m, llap_delete_msg m →
      (cicpos_handle_llap_msg E session m).2.nosort = false ∧
      deletes_run (cicpos_handle_llap_msg E session m).2.control_plane =
        deletes_run session.control_plane ++ [cicp_table.llap]) ∧
    (∀ m, ipif_delete_msg m →
      (cicpos_handle_ipif_msg E session m).2.nosort = false ∧
      deletes_run (cicpos_handle_ipif_msg E session m).2.control_plane =
        deletes_run session.control_plane ++ [cicp_table.ipif]) ∧
    (∀ m1 m2, route_delete_msg m1 → route_delete_msg m2 →
      (cicpos_handle_route_msg E
        (cicpos_handle_route_msg E session m1).2 m2).2.nosort = false ∧
      deletes_run (cicpos_handle_route_msg E
        (cicpos_handle_route_msg E session m1).2 m2).2.control_plane =
        deletes_run session.control_plane ++
          [cicp_table.route, cicp_table.route]) ∧
    (∀ m1 m2, llap_delete_msg m1 → llap_delete_msg m2 →
      (cicpos_handle_llap_msg E
        (cicpos_handle_llap_msg E session m1).2 m2).2.nosort = false ∧
      deletes_run (cicpos_handle_llap_msg E
        (cicpos_handle_llap_msg E session m1).2 m2).2.control_plane =
        deletes_run session.control_plane ++
          [cicp_table.llap, cicp_table.llap]) ∧
    (∀ m1 m2, ipif_delete_msg m1 → ipif_delete_msg m2 →
      (cicpos_handle_ipif_msg E
        (cicpos_handle_ipif_msg E session m1).2 m2).2.nosort = false ∧
      deletes_run (cicpos_handle_ipif_msg E
        (cicpos_handle_ipif_msg E session m1).2 m2).2.control_plane =
        deletes_run session.control_plane ++
          [cicp_table.ipif, cicp_table.ipif]) := by
  refine ⟨fun m hm => handle_route_msg_delete E session m hm,
    fun m hm => handle_llap_msg_delete E session m hm,
    fun m hm => handle_ipif_msg_delete E session m hm, ?_, ?_, ?_⟩
  · intro m1 m2 h1 h2
    have a := handle_route_msg_delete E session m1 h1
    have b := handle_route_msg_delete E (cicpos_handle_route_msg E session m1).2 m2 h2
    exact ⟨b.1, by rw [b.2, a.2]; simp⟩
  · intro m1 m2 h1 h2
    have a := handle_llap_msg_delete E session m1 h1
    have b := handle_llap_msg_delete E (cicpos_handle_llap_msg E session m1).2 m2 h2
    exact ⟨b.1, by rw [b.2, a.2]; simp⟩
  · intro m1 m2 h1 h2
    have a := handle_ipif_msg_delete E session m1 h1
    have b := handle_ipif_msg_delete E (cicpos_handle_ipif_msg E session m1).2 m2 h2
    exact ⟨b.1, by rw [b.2, a.2]; simp⟩

/-- C16 witness: a route delete arriving in no-sort mode is applied and turns
the mode off. -/
theorem handlers_delete_at_once_witness :
    (cicpos_handle_route_msg sample_env { fresh_session with nosort := true }
        route_del_msg).2.nosort = false ∧
    deletes_run (cicpos_handle_route_msg sample_env
        { fresh_session with nosort := true } route_del_msg).2.control_plane =
      deletes_run ({ fresh_session with nosort := true } :
        cicpos_parse_state_t).control_plane ++ [cicp_table.route] :=
  (handlers_delete_at_once sample_env { fresh_session with nosort := true }).1
    route_del_msg (by
      refine ⟨rfl, rfl, Or.inl rfl, ?_, ?_, Or.inl rfl⟩
      · decide
      · decide)

/-- C14, as stated, fails: a route-cache clone (`RTM_NEWROUTE`, unicast, main
table) whose destination has a path-MTU row is passed to `cicpos_pmtu_check`
and then also to `cicpos_route_import`. -/
theorem handle_route_msg_clone_counterexample :
    clone_msg.nlmsg_data.rtm.rtm_flags &&& RTM_F_CLONED ≠ 0 ∧
    (cicpos_handle_route_msg sample_env fresh_session clone_msg).2.control_plane =
      [cp_call.pmtu_check 0x0a000005 2 0,
       cp_call.route_import 0x0a000005 32 false 0 0 1 0 2 0 0 false] := by
  decide

/-- One turn of the attribute walk of the route handler raises `ignore` on an
input-interface attribute and never clears it. -/
theorem route_attr_step_ignore (E : cp_env) (l : route_locals) (a : rtattr) :
    (route_attr_step E l a).ignore = true ↔
      l.ignore = true ∨ a.rta_type = RTA_IIF := by
  unfold route_attr_step
  split_ifs with h1 h2 h3 h4 h5 h6 <;>
    simp_all [RTA_DST, RTA_OIF, RTA_GATEWAY, RTA_PREFSRC, RTA_METRICS, RTA_IIF]

/-- The attribute walk of the route handler ends with `ignore` raised exactly
when it started raised or met an input-interface attribute. -/
theorem route_attr_fold_ignore_iff (E : cp_env) (attrs : List rtattr)
    (l : route_locals) :
    (attrs.foldl (route_attr_step E) l).ignore = true ↔
      l.ignore = true ∨ ∃ a ∈ attrs, a.rta_type = RTA_IIF := by
  induction attrs generalizing l with
  | nil => simp
  | cons a as ih =>
    rw [List.foldl_cons, ih, route_attr_step_ignore]
    simp only [List.mem_cons, exists_eq_or_imp, or_assoc]

/-- C14, amended: for every route message flagged `RTM_F_CLONED`.  A clone that
does not pass the handler's filters (IPv4, main or local table, no
input-interface attribute, unicast type) makes `cicpos_handle_route_msg` return
0 without any call.  For a clone that passes them the first call is
`cicpos_pmtu_check` with the destination, interface and MTU of the message;
`cicpos_route_import` is called, once and right after it (without the
route-MTU flag), exactly when the message is `RTM_NEWROUTE` and the check
returned a row id other than -1; the only other call is the
`cicpos_route_delete` of a `RTM_DELROUTE` message. -/
theorem handle_route_msg_clone (E : cp_env) (session : cicpos_parse_state_t)
    (m : nlmsghdr) (hcl : m.nlmsg_data.rtm.rtm_flags &&& RTM_F_CLONED ≠ 0) :
    (¬ route_clone_passes m → cicpos_handle_route_msg E session m = (0, session)) ∧
    (route_clone_passes m →
      (cicpos_handle_route_msg E session m).2.control_plane =
        session.control_plane ++
          [cp_call.pmtu_check (route_msg_locals E m).dest_ip (route_msg_ifindex E m)
            (route_msg_locals E m).mtu] ++
          (if m.nlmsg_type = RTM_NEWROUTE ∧
              E.cicpos_pmtu_check
                (session.control_plane ++
                  [cp_call.pmtu_check (route_msg_locals E m).dest_ip
                    (route_msg_ifindex E m) (route_msg_locals E m).mtu]) ≠ -1 then
            [cp_call.route_import (route_msg_locals E m).dest_ip
              m.nlmsg_data.rtm.rtm_dst_len
              (decide (m.nlmsg_data.rtm.rtm_scope = RT_SCOPE_HOST))
              (route_msg_locals E m).next_hop_ip m.nlmsg_data.rtm.rtm_tos 1
              (route_msg_locals E m).pref_source (route_msg_ifindex E m)
              (route_msg_locals E m).mtu 0 session.nosort]
           else []) ++
          (if m.nlmsg_type = RTM_DELROUTE then
            [cp_call.route_delete (route_msg_locals E m).dest_ip
              m.nlmsg_data.rtm.rtm_dst_len (route_msg_ifindex E m)]
           else [])) := by
  have hign := route_attr_fold_ignore_iff E m.nlmsg_data.rtm_rta
    { dest_ip := 0, next_hop_ip := 0, pref_source := 0,
      ifindex := E.CI_IFID_BAD, mtu := 0, ignore := false }
  unfold cicpos_handle_route_msg route_clone_passes route_msg_ifindex
    route_msg_locals
  generalize List.foldl (route_attr_step E) _ m.nlmsg_data.rtm_rta = l at hign ⊢
  simp only [Bool.false_eq_true, false_or] at hign
  by_cases h1 : m.nlmsg_data.rtm.rtm_family ≠ PF_INET
  · exact ⟨fun _ => by simp [h1], fun hp => absurd hp.1 h1⟩
  by_cases h2 : m.nlmsg_data.rtm.rtm_table ≠ RT_TABLE_MAIN ∧
      m.nlmsg_data.rtm.rtm_table ≠ RT_TABLE_LOCAL
  · refine ⟨fun _ => by simp [h1, h2], fun hp => ?_⟩
    rcases hp.2.1 with h | h
    · exact absurd h h2.1
    · exact absurd h h2.2
  by_cases h3 : l.ignore = true ∨
      (m.nlmsg_data.rtm.rtm_type = RTN_LOCAL ∧
        m.nlmsg_data.rtm.rtm_flags &&& RTM_F_CLONED ≠ 0)
  · refine ⟨fun _ => by simp only [if_neg h1, if_neg h2, if_pos h3], fun hp => ?_⟩
    rcases h3 with h | h
    · obtain ⟨a, ha, hty⟩ := hign.mp h
      exact absurd hty (hp.2.2.1 a ha)
    · have hu := hp.2.2.2
      rw [h.1] at hu
      exact absurd hu (by decide)
  by_cases h4 : m.nlmsg_data.rtm.rtm_type ≠ RTN_UNICAST ∧
      m.nlmsg_data.rtm.rtm_type ≠ RTN_LOCAL
  · exact ⟨fun _ => by simp only [if_neg h1, if_neg h2, if_neg h3, if_pos h4],
      fun hp => absurd hp.2.2.2 h4.1⟩
  have hig : l.ignore = false := by
    cases hx : l.ignore
    · rfl
    · exact absurd (Or.inl hx) h3
  have hpass : m.nlmsg_data.rtm.rtm_family = PF_INET ∧
      (m.nlmsg_data.rtm.rtm_table = RT_TABLE_MAIN ∨
        m.nlmsg_data.rtm.rtm_table = RT_TABLE_LOCAL) ∧
      (∀ a ∈ m.nlmsg_data.rtm_rta, a.rta_type ≠ RTA_IIF) ∧
      m.nlmsg_data.rtm.rtm_type = RTN_UNICAST := by
    refine ⟨not_not.mp h1, ?_, ?_, ?_⟩
    · by_contra hx
      exact h2 ⟨fun h => hx (Or.inl h), fun h => hx (Or.inr h)⟩
    · intro a ha hty
      have := hign.mpr ⟨a, ha, hty⟩
      rw [hig] at this
      exact Bool.noConfusion this
    · by_contra hx
      have hloc : m.nlmsg_data.rtm.rtm_type = RTN_LOCAL := by
        by_contra hy
        exact h4 ⟨hx, hy⟩
      exact h3 (Or.inr ⟨hloc, hcl⟩)
  refine ⟨fun hn => absurd hpass hn, fun _ => ?_⟩
  simp only [if_neg h1, if_neg h2, if_neg h3, if_neg h4, if_pos hcl]
  generalize hifx : (if m.nlmsg_data.rtm.rtm_table = RT_TABLE_LOCAL then
    LOOPBACK_IFINDEX else l.ifindex) = ifindex
  have hflag : (if l.mtu ≠ 0 ∧ ¬ (m.nlmsg_data.rtm.rtm_flags &&& RTM_F_CLONED ≠ 0) then
      E.CICP_FLAG_ROUTE_MTU else 0) = 0 := by
    rw [if_neg]
    exact fun h => h.2 hcl
  by_cases h5 : E.cicpos_pmtu_check
      (session.control_plane ++ [cp_call.pmtu_check l.dest_ip ifindex l.mtu]) = -1
  · simp only [h5, ne_eq, not_true_eq_false, if_false, Bool.true_eq_false, and_false]
    by_cases h6 : m.nlmsg_type = RTM_DELROUTE
    · simp only [h6, if_true]
      split_ifs <;> simp
    · simp only [h6, if_false]
      simp
  · simp only [ne_eq, h5, not_false_eq_true, if_true, hig, and_true]
    by_cases h7 : m.nlmsg_type = RTM_NEWROUTE
    · have h6 : ¬ (RTM_NEWROUTE = RTM_DELROUTE) := by decide
      simp only [h7, if_true, h6, if_false, hflag]
      split_ifs <;> simp
    · simp only [h7, if_false]
      by_cases h6 : m.nlmsg_type = RTM_DELROUTE
      · simp only [h6, if_true]
        split_ifs <;> simp
      · simp only [h6, if_false]
        simp

/-- C14 witness: the sample clone passes the filters; its calls are the
path-MTU check and then, the check returning row 0, the import. -/
theorem handle_route_msg_clone_witness :
    clone_msg.nlmsg_data.rtm.rtm_flags &&& RTM_F_CLONED ≠ 0 ∧
    route_clone_passes clone_msg ∧
    (cicpos_handle_route_msg sample_env fresh_session clone_msg).2.control_plane =
      fresh_session.control_plane ++
        [cp_call.pmtu_check (route_msg_locals sample_env clone_msg).dest_ip
          (route_msg_ifindex sample_env clone_msg)
          (route_msg_locals sample_env clone_msg).mtu] ++
        (if clone_msg.nlmsg_type = RTM_NEWROUTE ∧
            sample_env.cicpos_pmtu_check
              (fresh_session.control_plane ++
                [cp_call.pmtu_check (route_msg_locals sample_env clone_msg).dest_ip
                  (route_msg_ifindex sample_env clone_msg)
                  (route_msg_locals sample_env clone_msg).mtu]) ≠ -1 then
          [cp_call.route_import (route_msg_locals sample_env clone_msg).dest_ip
            clone_msg.nlmsg_data.rtm.rtm_dst_len
            (decide (clone_msg.nlmsg_data.rtm.rtm_scope = RT_SCOPE_HOST))
            (route_msg_locals sample_env clone_msg).next_hop_ip
            clone_msg.nlmsg_data.rtm.rtm_tos 1
            (route_msg_locals sample_env clone_msg).pref_source
            (route_msg_ifindex sample_env clone_msg)
            (route_msg_locals sample_env clone_msg).mtu 0 fresh_session.nosort]
         else []) ++
        (if clone_msg.nlmsg_type = RTM_DELROUTE then
          [cp_call.route_delete (route_msg_locals sample_env clone_msg).dest_ip
            clone_msg.nlmsg_data.rtm.rtm_dst_len
            (route_msg_ifindex sample_env clone_msg)]
         else []) :=
  have hp : route_clone_passes clone_msg := by
    refine ⟨by decide, by decide, ?_, by decide⟩
    decide
  ⟨by decide, hp,
    (handle_route_msg_clone sample_env fresh_session clone_msg (by decide)).2 hp⟩

/-- The MTU that the attribute walk of the link handler ends with is decided
by the last `IFLA_MTU` attribute. -/
theorem llap_attr_fold_mtu (E : cp_env) (attrs : List rtattr) (l : llap_locals) :
    (attrs.foldl (llap_attr_step E) l).mtu =
      match (attrs.filter (fun a => decide (a.rta_type = IFLA_MTU))).getLast? with
      | none => l.mtu
      | some a =>
        if to_ci_mtu_t E a.u32 = 0 then ci_mtu_all_ones E else to_ci_mtu_t E a.u32 := by
  induction attrs using List.reverseRecOn with
  | nil => simp
  | append_singleton xs a ih =>
    rw [List.foldl_append, List.filter_append]
    simp only [List.foldl_cons, List.foldl_nil]
    by_cases hm : a.rta_type = IFLA_MTU
    · have hf : List.filter (fun a => decide (a.rta_type = IFLA_MTU)) [a] = [a] := by
        simp [hm]
      rw [hf, List.getLast?_append, List.getLast?_singleton]
      simp [llap_attr_step, hm, IFLA_MTU, IFLA_ADDRESS, IFLA_IFNAME]
    · have hf : List.filter (fun a => decide (a.rta_type = IFLA_MTU)) [a] = [] := by
        simp [hm]
      rw [hf, List.append_nil, ← ih]
      unfold llap_attr_step
      split_ifs <;> rfl

/-- C17, as stated, fails: a link-add message for an Ethernet interface that
carries no `IFLA_MTU` attribute is imported with MTU 0. -/
theorem handle_llap_msg_mtu_counterexample :
    link_add_bare_msg.nlmsg_type = RTM_NEWLINK ∧
    link_add_bare_msg.nlmsg_data.ifi.ifi_type = ARPHRD_ETHER ∧
    (cicpos_handle_llap_msg sample_env fresh_session
        link_add_bare_msg).2.control_plane =
      [cp_call.llap_import 2 0 true 0 [] (0, 0, 0, 0, 0, 0)] := by
  decide

/-- C17, amended: for every link-add message of Ethernet or loopback type
`cicpos_handle_llap_msg` makes exactly one `cicpos_llap_import` call, whose MTU
is decided by the last `IFLA_MTU` attribute of the message: its value stored
in a `ci_mtu_t`, replaced by all ones when that is 0.  So when the message
carries an `IFLA_MTU` attribute the MTU passed is never 0, and a non-zero
attribute value that fits a `ci_mtu_t` is passed unchanged; when it carries
none, the MTU passed is 0. -/
theorem handle_llap_msg_mtu (E : cp_env) (session : cicpos_parse_state_t)
    (m : nlmsghdr) (hadd : m.nlmsg_type = RTM_NEWLINK)
    (hty : m.nlmsg_data.ifi.ifi_type = ARPHRD_ETHER ∨
      m.nlmsg_data.ifi.ifi_type = ARPHRD_LOOPBACK) :
    ∃ c : cp_call,
      (cicpos_handle_llap_msg E session m).2.control_plane =
        session.control_plane ++ [c] ∧
      c.llap_mtu = some
        (match last_mtu_attr m with
         | none => 0
         | some a =>
           if to_ci_mtu_t E a.u32 = 0 then ci_mtu_all_ones E
           else to_ci_mtu_t E a.u32) ∧
      (0 < E.mtu_bits → (last_mtu_attr m).isSome = true → c.llap_mtu ≠ some 0) ∧
      (∀ a, last_mtu_attr m = some a → a.u32 ≠ 0 → a.u32 < 2 ^ E.mtu_bits →
        c.llap_mtu = some a.u32) := by
  have hty2 : ¬ (m.nlmsg_data.ifi.ifi_type ≠ ARPHRD_ETHER ∧
      m.nlmsg_data.ifi.ifi_type ≠ ARPHRD_LOOPBACK) := by
    rcases hty with h | h <;> simp [h]
  have hfold := llap_attr_fold_mtu E m.nlmsg_data.ifla_rta
    { mtu := 0, name := [], mac := (0, 0, 0, 0, 0, 0) }
  have hmtu : ∀ c : cp_call,
      c.llap_mtu = some ((m.nlmsg_data.ifla_rta.foldl (llap_attr_step E)
        { mtu := 0, name := [], mac := (0, 0, 0, 0, 0, 0) }).mtu) →
      c.llap_mtu = some
        (match last_mtu_attr m with
         | none => 0
         | some a =>
           if to_ci_mtu_t E a.u32 = 0 then ci_mtu_all_ones E
           else to_ci_mtu_t E a.u32) ∧
      (0 < E.mtu_bits → (last_mtu_attr m).isSome = true → c.llap_mtu ≠ some 0) ∧
      (∀ a, last_mtu_attr m = some a → a.u32 ≠ 0 → a.u32 < 2 ^ E.mtu_bits →
        c.llap_mtu = some a.u32) := by
    intro c hc
    rw [hc, hfold]
    unfold last_mtu_attr
    generalize (m.nlmsg_data.ifla_rta.filter
        (fun a => decide (a.rta_type = IFLA_MTU))).getLast? = last
    cases last with
    | none => simp
    | some a =>
      refine ⟨rfl, ?_, ?_⟩
      · intro hbits _
        have hpow : 2 ≤ 2 ^ E.mtu_bits := by
          calc 2 = 2 ^ 1 := by norm_num
            _ ≤ 2 ^ E.mtu_bits := Nat.pow_le_pow_right (by norm_num) hbits
        simp only [ne_eq, Option.some.injEq]
        split_ifs with h0
        · unfold ci_mtu_all_ones
          exact Nat.sub_ne_zero_of_lt hpow
        · exact h0
      · intro b hb hne hlt
        cases hb
        have hmod : to_ci_mtu_t E a.u32 = a.u32 := by
          unfold to_ci_mtu_t
          exact Nat.mod_eq_of_lt hlt
        simp [hmod, hne]
  unfold cicpos_handle_llap_msg
  simp only [if_neg hty2, hadd, decide_True, if_true]
  split_ifs <;> exact ⟨_, rfl, hmtu _ rfl⟩

/-- C17 witness: an Ethernet link-add message with MTU 1500 is imported with
MTU 1500. -/
theorem handle_llap_msg_mtu_witness :
    ∃ c : cp_call,
      (cicpos_handle_llap_msg sample_env fresh_session link_add_msg).2.control_plane =
        fresh_session.control_plane ++ [c] ∧
      c.llap_mtu = some
        (match last_mtu_attr link_add_msg with
         | none => 0
         | some a =>
           if to_ci_mtu_t sample_env a.u32 = 0 then ci_mtu_all_ones sample_env
           else to_ci_mtu_t sample_env a.u32) ∧
      (0 < sample_env.mtu_bits → (last_mtu_attr link_add_msg).isSome = true →
        c.llap_mtu ≠ some 0) ∧
      (∀ a, last_mtu_attr link_add_msg = some a → a.u32 ≠ 0 →
        a.u32 < 2 ^ sample_env.mtu_bits → c.llap_mtu = some a.u32) :=
  handle_llap_msg_mtu sample_env fresh_session link_add_msg (by decide)
    (Or.inl (by decide))

/-! ## Theorems: filter manager callbacks -/

/-- C18: `oof_onload_on_cplane_ipadd` makes exactly one call,
`oof_manager_addr_add` with (net_ip, ifindex), if and only if `net_ip` is
non-zero, and no call at all if and only if `net_ip` is zero, whatever the
prefix length, broadcast address and interface id; likewise
`oof_onload_on_cplane_ipdel` with `oof_manager_addr_del`. -/
theorem oof_onload_on_cplane_ip_calls (net_ip net_ipset net_bcast : Nat)
    (ifindex : Int) (arg : efab_tcp_driver_t) :
    (oof_onload_on_cplane_ipadd net_ip net_ipset net_bcast ifindex arg =
        [oof_manager_call.addr_add arg.filter_manager net_ip ifindex] ↔
      net_ip ≠ 0) ∧
    (oof_onload_on_cplane_ipadd net_ip net_ipset net_bcast ifindex arg = [] ↔
      net_ip = 0) ∧
    (oof_onload_on_cplane_ipdel net_ip net_ipset net_bcast ifindex arg =
        [oof_manager_call.addr_del arg.filter_manager net_ip ifindex] ↔
      net_ip ≠ 0) ∧
    (oof_onload_on_cplane_ipdel net_ip net_ipset net_bcast ifindex arg = [] ↔
      net_ip = 0) := by
  unfold oof_onload_on_cplane_ipadd oof_onload_on_cplane_ipdel
  by_cases h : net_ip = 0 <;> simp [h]

/-! ## Theorems: dump cycle -/

/-- A quantity of the session that no handler call changes is the same after
the inner loop of the reader. -/
theorem rtnl_walk_inv {σ α : Type} (I : σ → α) (hf : σ → nlmsghdr → Int × σ)
    (hI : ∀ s m, I (hf s m).2 = I s) (seq : Nat) (msgs : List nlmsghdr)
    (session : σ) :
    I (rtnl_walk hf seq msgs session).2.1 = I session := by
  induction msgs generalizing session with
  | nil => simp [rtnl_walk]
  | cons m ms ih =>
    simp only [rtnl_walk]
    split_ifs
    · exact ih session
    · rfl
    · exact ih session
    · rfl
    · exact (ih (hf session m).2).trans (hI session m)

/-- The reader either ends on the completion marker, returning 0 after running
the post-handling function on a session in which the handler-invariant quantity
is untouched, or returns a negative value with that quantity untouched. -/
theorem read_rtnl_response_inv {σ α : Type} (I : σ → α)
    (hf : σ → nlmsghdr → Int × σ) (hI : ∀ s m, I (hf s m).2 = I s)
    (post_handling_fn : Option (σ → σ)) (seq : Nat) (sock : List nl_read)
    (session : σ) :
    ((read_rtnl_response hf post_handling_fn seq sock session).rc = 0 ∧
      ∃ s1, I s1 = I session ∧
        (read_rtnl_response hf post_handling_fn seq sock session).session =
          match post_handling_fn with
          | some f => f s1
          | none => s1) ∨
    ((read_rtnl_response hf post_handling_fn seq sock session).rc < 0 ∧
      I (read_rtnl_response hf post_handling_fn seq sock session).session =
        I session) := by
  induction sock generalizing session with
  | nil =>
    right
    simp [read_rtnl_response, netlink_read, read_nl_msg, EAGAIN]
  | cons d rest ih =>
    have hw := rtnl_walk_inv I hf hI seq d.msgs session
    by_cases hneg : read_nl_msg d.bytes < 0
    · right
      simp [read_rtnl_response, netlink_read, hneg]
    · simp only [read_rtnl_response, netlink_read, hneg, if_false]
      cases hx : (rtnl_walk hf seq d.msgs session).1 with
      | done =>
        left
        cases post_handling_fn with
        | none => exact ⟨rfl, _, hw, rfl⟩
        | some f => exact ⟨rfl, _, hw, rfl⟩
      | error =>
        right
        exact ⟨by simp [ EIO], hw⟩
      | next =>
        rcases ih (rtnl_walk hf seq d.msgs session).2.1 with
          ⟨h0, s1, hs1, hsess⟩ | ⟨hlt, hinv⟩
        · left
          exact ⟨h0, s1, hs1.trans hw, hsess⟩
        · right
          exact ⟨hlt, hinv.trans hw⟩

/-- The route handler runs no purge. -/
theorem handle_route_msg_purges (E : cp_env) (session : cicpos_parse_state_t)
    (m : nlmsghdr) :
    purges_run (cicpos_handle_route_msg E session m).2.control_plane =
      purges_run session.control_plane := by
  unfold cicpos_handle_route_msg
  generalize List.foldl (route_attr_step E) _ m.nlmsg_data.rtm_rta = l
  by_cases h1 : m.nlmsg_data.rtm.rtm_family ≠ PF_INET
  · simp only [if_pos h1]
  by_cases h2 : m.nlmsg_data.rtm.rtm_table ≠ RT_TABLE_MAIN ∧
      m.nlmsg_data.rtm.rtm_table ≠ RT_TABLE_LOCAL
  · simp only [if_neg h1, if_pos h2]
  by_cases h3 : l.ignore = true ∨
      (m.nlmsg_data.rtm.rtm_type = RTN_LOCAL ∧
        m.nlmsg_data.rtm.rtm_flags &&& RTM_F_CLONED ≠ 0)
  · simp only [if_neg h1, if_neg h2, if_pos h3]
  by_cases h4 : m.nlmsg_data.rtm.rtm_type ≠ RTN_UNICAST ∧
      m.nlmsg_data.rtm.rtm_type ≠ RTN_LOCAL
  · simp only [if_neg h1, if_neg h2, if_neg h3, if_pos h4]
  have hig : l.ignore = false := by
    cases hx : l.ignore
    · rfl
    · exact absurd (Or.inl hx) h3
  have hnd : ¬ (RTM_NEWROUTE = RTM_DELROUTE) := by decide
  simp only [if_neg h1, if_neg h2, if_neg h3, if_neg h4]
  generalize (if m.nlmsg_data.rtm.rtm_table = RT_TABLE_LOCAL then
    LOOPBACK_IFINDEX else l.ifindex) = ifindex
  generalize (if l.mtu ≠ 0 ∧ ¬ (m.nlmsg_data.rtm.rtm_flags &&& RTM_F_CLONED ≠ 0) then
    E.CICP_FLAG_ROUTE_MTU else 0) = flag
  by_cases hcl : m.nlmsg_data.rtm.rtm_flags &&& RTM_F_CLONED ≠ 0
  · simp only [if_pos hcl]
    by_cases h5 : E.cicpos_pmtu_check
        (session.control_plane ++ [cp_call.pmtu_check l.dest_ip ifindex l.mtu]) = -1
    · simp only [h5, ne_eq, not_true_eq_false, if_false, Bool.true_eq_false,
        and_false]
      by_cases h6 : m.nlmsg_type = RTM_DELROUTE <;>
        by_cases hns : session.nosort = true <;>
        simp [h6, hns, purges_run, cp_call.purges]
    · simp only [ne_eq, h5, not_false_eq_true, if_true, hig, and_true]
      by_cases h7 : m.nlmsg_type = RTM_NEWROUTE
      · simp only [h7, if_true, hnd, if_false]
        generalize E.cicpos_route_import _ = ri
        by_cases hrc : ri.1 = 0 <;> simp [hrc, purges_run, cp_call.purges]
      · simp only [h7, if_false]
        by_cases h6 : m.nlmsg_type = RTM_DELROUTE <;>
          by_cases hns : session.nosort = true <;>
          simp [h6, hns, purges_run, cp_call.purges]
  · simp only [if_neg hcl, hig, and_true]
    by_cases h7 : m.nlmsg_type = RTM_NEWROUTE
    · simp only [h7, if_true, hnd, if_false]
      generalize E.cicpos_route_import _ = ri
      by_cases hrc : ri.1 = 0 <;> simp [hrc, purges_run, cp_call.purges]
    · simp only [h7, if_false]
      by_cases h6 : m.nlmsg_type = RTM_DELROUTE <;>
        by_cases hns : session.nosort = true <;>
        simp [h6, hns, purges_run, cp_call.purges]

/-- The link handler runs no purge. -/
theorem handle_llap_msg_purges (E : cp_env) (session : cicpos_parse_state_t)
    (m : nlmsghdr) :
    purges_run (cicpos_handle_llap_msg E session m).2.control_plane =
      purges_run session.control_plane := by
  unfold cicpos_handle_llap_msg
  generalize List.foldl (llap_attr_step E) _ m.nlmsg_data.ifla_rta = l
  simp only []
  split_ifs <;> simp [purges_run, cp_call.purges]

/-- The address handler runs no purge. -/
theorem handle_ipif_msg_purges (E : cp_env) (session : cicpos_parse_state_t)
    (m : nlmsghdr) :
    purges_run (cicpos_handle_ipif_msg E session m).2.control_plane =
      purges_run session.control_plane := by
  unfold cicpos_handle_ipif_msg
  generalize List.foldl ipif_attr_step _ m.nlmsg_data.ifa_rta = l
  simp only []
  split_ifs <;> simp [purges_run, cp_call.purges]

/-- The neighbour handler runs no purge. -/
theorem handle_mac_msg_purges (E : cp_env) (session : cicpos_parse_state_t)
    (m : nlmsghdr) :
    purges_run (cicpos_handle_mac_msg E session m).2.control_plane =
      purges_run session.control_plane := by
  unfold cicpos_handle_mac_msg
  generalize List.foldl (mac_attr_step E) _ m.nlmsg_data.nda_rta = l
  simp only []
  split_ifs <;> simp [purges_run, cp_call.purges]

/-- A table request adds one request of its kind to the socket. -/
theorem request_table_sent (nlsock : cicp_nlsock_t) (nlmsg_type rtm_flags : Nat) :
    requests_sent (request_table nlsock nlmsg_type rtm_flags).2 =
      requests_sent nlsock ++ [table_request nlmsg_type rtm_flags] := by
  unfold request_table kernel_sendmsg
  cases nlsock.sends <;>
    (simp only []; split_ifs <;>
      simp [requests_sent, nl_request.kind, table_request])

/-- Reading a response sends nothing. -/
theorem read_response_sent
    (hf : cicpos_parse_state_t → nlmsghdr → Int × cicpos_parse_state_t)
    (post_handling_fn : Option (cicpos_parse_state_t → cicpos_parse_state_t))
    (nlsock : cicp_nlsock_t) (session : cicpos_parse_state_t) :
    requests_sent (read_response hf post_handling_fn nlsock session).nlsock =
      requests_sent nlsock := rfl

/-- Reading a response with a purging post-handling function runs that purge
exactly when the read returns 0, and no other purge. -/
theorem read_response_purges_post
    (hf : cicpos_parse_state_t → nlmsghdr → Int × cicpos_parse_state_t)
    (hI : ∀ s m, purges_run (hf s m).2.control_plane = purges_run s.control_plane)
    (f : cicpos_parse_state_t → cicpos_parse_state_t) (t : cicp_table)
    (hpost : ∀ s, purges_run (f s).control_plane =
      purges_run s.control_plane ++ [t])
    (nlsock : cicp_nlsock_t) (session : cicpos_parse_state_t) :
    purges_run (read_response hf (some f) nlsock session).session.control_plane =
      purges_run session.control_plane ++
        (if (read_response hf (some f) nlsock session).rc = 0 then [t] else []) := by
  unfold read_response
  rcases read_rtnl_response_inv (fun s => purges_run s.control_plane) hf hI (some f)
      nlsock.seq nlsock.reads session with ⟨h0, s1, hs1, hsess⟩ | ⟨hlt, hinv⟩
  · simp only [h0, if_true, hsess, hpost, hs1]
  · simp only [ne_of_lt hlt, if_false, List.append_nil]
    exact hinv

/-- Reading a response without post-handling function runs no purge. -/
theorem read_response_purges_none
    (hf : cicpos_parse_state_t → nlmsghdr → Int × cicpos_parse_state_t)
    (hI : ∀ s m, purges_run (hf s m).2.control_plane = purges_run s.control_plane)
    (nlsock : cicp_nlsock_t) (session : cicpos_parse_state_t) :
    purges_run (read_response hf none nlsock session).session.control_plane =
      purges_run session.control_plane := by
  unfold read_response
  rcases read_rtnl_response_inv (fun s => purges_run s.control_plane) hf hI none
      nlsock.seq nlsock.reads session with ⟨_, s1, hs1, hsess⟩ | ⟨_, hinv⟩
  · simp only [hsess, hs1]
  · exact hinv

/-- The IP-interface dump: one request, and the purge exactly when it
returns 0. -/
theorem dump_ipift_effect (E : cp_env) (nlsock : cicp_nlsock_t)
    (session : cicpos_parse_state_t) :
    requests_sent (cicpos_dump_ipift E nlsock session).nlsock =
      requests_sent nlsock ++ [table_request RTM_GETADDR 0] ∧
    purges_run (cicpos_dump_ipift E nlsock session).session.control_plane =
      purges_run session.control_plane ++
        (if (cicpos_dump_ipift E nlsock session).rc = 0 then [cicp_table.ipif]
         else []) := by
  unfold cicpos_dump_ipift
  by_cases hreq : (request_table nlsock RTM_GETADDR 0).1 < 0
  · simp only [hreq, if_true]
    exact ⟨request_table_sent nlsock RTM_GETADDR 0, by simp [ne_of_lt hreq]⟩
  · simp only [hreq, if_false]
    exact ⟨(read_response_sent _ _ _ _).trans (request_table_sent nlsock RTM_GETADDR 0),
      read_response_purges_post _ (handle_ipif_msg_purges E) _ cicp_table.ipif
        (fun s => by simp [cicpos_ipif_post_poll, purges_run, cp_call.purges]) _ _⟩

/-- The interface dump: one request, and the purge exactly when it returns 0. -/
theorem dump_llapt_effect (E : cp_env) (nlsock : cicp_nlsock_t)
    (session : cicpos_parse_state_t) :
    requests_sent (cicpos_dump_llapt E nlsock session).nlsock =
      requests_sent nlsock ++ [table_request RTM_GETLINK 0] ∧
    purges_run (cicpos_dump_llapt E nlsock session).session.control_plane =
      purges_run session.control_plane ++
        (if (cicpos_dump_llapt E nlsock session).rc = 0 then [cicp_table.llap]
         else []) := by
  unfold cicpos_dump_llapt
  by_cases hreq : (request_table nlsock RTM_GETLINK 0).1 < 0
  · simp only [hreq, if_true]
    exact ⟨request_table_sent nlsock RTM_GETLINK 0, by simp [ne_of_lt hreq]⟩
  · simp only [hreq, if_false]
    exact ⟨(read_response_sent _ _ _ _).trans (request_table_sent nlsock RTM_GETLINK 0),
      read_response_purges_post _ (handle_llap_msg_purges E) _ cicp_table.llap
        (fun s => by simp [cicpos_llap_post_poll, purges_run, cp_call.purges]) _ _⟩

/-- The route dump: one request and no purge. -/
theorem dump_routet_effect (E : cp_env) (nlsock : cicp_nlsock_t)
    (session : cicpos_parse_state_t) :
    requests_sent (cicpos_dump_routet E nlsock session).nlsock =
      requests_sent nlsock ++ [table_request RTM_GETROUTE 0] ∧
    purges_run (cicpos_dump_routet E nlsock session).session.control_plane =
      purges_run session.control_plane := by
  unfold cicpos_dump_routet
  by_cases hreq : (request_table nlsock RTM_GETROUTE 0).1 < 0
  · simp only [hreq, if_true]
    exact ⟨request_table_sent nlsock RTM_GETROUTE 0, trivial⟩
  · simp only [hreq, if_false]
    exact ⟨(read_response_sent _ _ _ _).trans (request_table_sent nlsock RTM_GETROUTE 0),
      read_response_purges_none _ (handle_route_msg_purges E) _ _⟩

/-- The route-cache dump: one request and no purge. -/
theorem dump_route_cache_effect (E : cp_env) (nlsock : cicp_nlsock_t)
    (session : cicpos_parse_state_t) :
    requests_sent (cicpos_dump_route_cache E nlsock session).nlsock =
      requests_sent nlsock ++ [table_request RTM_GETROUTE RTM_F_CLONED] ∧
    purges_run (cicpos_dump_route_cache E nlsock session).session.control_plane =
      purges_run session.control_plane := by
  unfold cicpos_dump_route_cache
  by_cases hreq : (request_table nlsock RTM_GETROUTE RTM_F_CLONED).1 < 0
  · simp only [hreq, if_true]
    exact ⟨request_table_sent nlsock RTM_GETROUTE RTM_F_CLONED, trivial⟩
  · simp only [hreq, if_false]
    exact ⟨(read_response_sent _ _ _ _).trans
        (request_table_sent nlsock RTM_GETROUTE RTM_F_CLONED),
      read_response_purges_none _ (handle_route_msg_purges E) _ _⟩

/-- The request of one path-MTU row: at most one request, of the row kind,
and no purge. -/
theorem dump_pmtu_row_effect (E : cp_env) (nlsock : cicp_nlsock_t) (rowid : Nat)
    (session : cicpos_parse_state_t) :
    (∃ pm, (∀ k ∈ pm, k = pmtu_row_request) ∧
      requests_sent (cicpos_dump_pmtu_row E nlsock rowid session).1 =
        requests_sent nlsock ++ pm) ∧
    purges_run (cicpos_dump_pmtu_row E nlsock rowid session).2.control_plane =
      purges_run session.control_plane := by
  unfold cicpos_dump_pmtu_row
  cases (E.pmtu_table session.control_plane).get? rowid with
  | none => exact ⟨⟨[], by simp, by simp⟩, rfl⟩
  | some row =>
    simp only []
    by_cases hany : row.2 = INADDR_ANY
    · simp only [hany, if_true]
      exact ⟨⟨[], by simp, by simp⟩, trivial⟩
    · simp only [hany, if_false]
      have hsent : ∀ (ns : cicp_nlsock_t) (sq len dl : Nat) (dst : Option Nat),
          requests_sent (kernel_sendmsg ns
            { nlmsg_type := RTM_GETROUTE, nlmsg_flags := NLM_F_REQUEST,
              nlmsg_seq := sq, nlmsg_len := len, rtm_flags := RTM_F_CLONED,
              rtm_dst_len := dl, dst := dst }).2 =
            requests_sent ns ++ [pmtu_row_request] := by
        intro ns sq len dl dst
        unfold kernel_sendmsg
        cases ns.sends <;> simp [requests_sent, nl_request.kind, pmtu_row_request]
      split_ifs
      · refine ⟨⟨[pmtu_row_request], by simp, ?_⟩, rfl⟩
        rw [hsent]
        rfl
      · refine ⟨⟨[pmtu_row_request], by simp, ?_⟩, ?_⟩
        · rw [read_response_sent, hsent]
          rfl
        · exact read_response_purges_none _ (handle_route_msg_purges E) _ _

/-- The path-MTU loop sends only row requests and runs no purge. -/
theorem pmtu_cache_loop_effect (E : cp_env) (fuel i : Nat) (nlsock : cicp_nlsock_t)
    (session : cicpos_parse_state_t) :
    (∃ pm, (∀ k ∈ pm, k = pmtu_row_request) ∧
      requests_sent (pmtu_cache_loop E fuel i nlsock session).1 =
        requests_sent nlsock ++ pm) ∧
    purges_run (pmtu_cache_loop E fuel i nlsock session).2.control_plane =
      purges_run session.control_plane := by
  induction fuel generalizing i nlsock session with
  | zero => exact ⟨⟨[], by simp, by simp [pmtu_cache_loop]⟩, rfl⟩
  | succ n ih =>
    simp only [pmtu_cache_loop]
    cases (E.pmtu_table session.control_plane).get? i with
    | none => exact ⟨⟨[], by simp, by simp⟩, rfl⟩
    | some row =>
      simp only []
      by_cases hal : row.1 = true
      · simp only [hal, if_true]
        obtain ⟨⟨pm1, hpm1, hs1⟩, hp1⟩ := dump_pmtu_row_effect E nlsock i session
        obtain ⟨⟨pm2, hpm2, hs2⟩, hp2⟩ := ih (i + 1)
          (cicpos_dump_pmtu_row E nlsock i session).1
          (cicpos_dump_pmtu_row E nlsock i session).2
        refine ⟨⟨pm1 ++ pm2, ?_, ?_⟩, hp2.trans hp1⟩
        · intro k hk
          rcases List.mem_append.mp hk with h | h
          · exact hpm1 k h
          · exact hpm2 k h
        · rw [hs2, hs1, List.append_assoc]
      · simp only [hal, if_false]
        exact ih (i + 1) nlsock session

/-- The path-MTU dump sends only row requests and runs no purge. -/
theorem dump_pmtu_cache_effect (E : cp_env) (nlsock : cicp_nlsock_t)
    (session : cicpos_parse_state_t) :
    (∃ pm, (∀ k ∈ pm, k = pmtu_row_request) ∧
      requests_sent (cicpos_dump_pmtu_cache E nlsock session).1 =
        requests_sent nlsock ++ pm) ∧
    purges_run (cicpos_dump_pmtu_cache E nlsock session).2.control_plane =
      purges_run session.control_plane :=
  pmtu_cache_loop_effect E E.pmtu_rows_max 0 nlsock session

/-- The address-resolution dump: one request exactly when the MAC table can be
opened, and the purge exactly when the dump returns 0. -/
theorem dump_mact_effect (E : cp_env) (nlsock : cicp_nlsock_t)
    (session : cicpos_parse_state_t) :
    requests_sent (cicpos_dump_mact E nlsock session).nlsock =
      requests_sent nlsock ++
        (if E.cicpos_mact_open session.control_plane = true then
          [table_request RTM_GETNEIGH 0] else []) ∧
    purges_run (cicpos_dump_mact E nlsock session).session.control_plane =
      purges_run session.control_plane ++
        (if (cicpos_dump_mact E nlsock session).rc = 0 then [cicp_table.mac]
         else []) := by
  unfold cicpos_dump_mact
  by_cases hopen : E.cicpos_mact_open session.control_plane = true
  · simp only [hopen, if_true]
    by_cases hreq : (request_table nlsock RTM_GETNEIGH 0).1 < 0
    · simp only [hreq, if_true]
      refine ⟨request_table_sent nlsock RTM_GETNEIGH 0, ?_⟩
      simp [ne_of_lt hreq, purges_run, cp_call.purges]
    · simp only [hreq, if_false]
      refine ⟨(read_response_sent _ _ _ _).trans
        (request_table_sent nlsock RTM_GETNEIGH 0), ?_⟩
      have h := read_response_purges_post _ (handle_mac_msg_purges E)
        cicpos_mac_post_poll cicp_table.mac
        (fun s => by simp [cicpos_mac_post_poll, purges_run, cp_call.purges])
        (request_table nlsock RTM_GETNEIGH 0).2
        { session with
          control_plane := session.control_plane ++ [cp_call.mact_open true] }
      simp only [purges_run, List.filterMap_append] at h ⊢
      rw [h]
      simp [cp_call.purges]
  · simp only [hopen, if_false]
    refine ⟨by simp, ?_⟩
    simp [ EALREADY, purges_run, cp_call.purges]

/-- C13, as stated, fails: a full cycle requests the IP-interface table
(`RTM_GETADDR`) first and the interface table (`RTM_GETLINK`) second. -/
theorem dump_tables_requests_counterexample :
    (cicpos_dump_tables sample_env (some fresh_session) 0 empty_sock 0).map
        dump_tables_result.requests =
      some [table_request RTM_GETADDR 0, table_request RTM_GETLINK 0,
        table_request RTM_GETROUTE 0, table_request RTM_GETROUTE RTM_F_CLONED,
        table_request RTM_GETNEIGH 0] := by
  decide

/-- C13, amended: every full cycle of `cicpos_dump_tables` (`mac_only` false)
that obtains its session and its socket requests the tables in the order:
IP-interfaces, then interfaces (LLAP), then routes, then the single path-MTU
rows, then the route cache, then address-resolution.  The address-resolution
request is made exactly when the MAC table can be opened (`cicpos_mact_open`
succeeds on the session handed to `cicpos_dump_mact`), and it is then the last
request of the cycle; otherwise the route-cache request is the last one. -/
theorem dump_tables_requests (E : cp_env) (session0 : cicpos_parse_state_t)
    (create_rc : Int) (sock : cicp_nlsock_t) (hc : 0 ≤ create_rc) :
    ∃ r pm,
      cicpos_dump_tables E (some session0) create_rc sock 0 = some r ∧
      (∀ k ∈ pm, k = pmtu_row_request) ∧
      requests_sent r.nlsock =
        requests_sent sock ++
          [table_request RTM_GETADDR 0, table_request RTM_GETLINK 0,
            table_request RTM_GETROUTE 0] ++ pm ++
          [table_request RTM_GETROUTE RTM_F_CLONED] ++
          (if E.cicpos_mact_open
              (dump_tables_mact_session E session0 sock 0).control_plane = true then
            [table_request RTM_GETNEIGH 0] else []) := by
  unfold cicpos_dump_tables dump_tables_mact_session
  simp only [not_lt.mpr hc, if_false, if_true]
  have h1 := (dump_ipift_effect E { sock with seq := 1 }
    { session0 with nosort := true }).1
  generalize cicpos_dump_ipift E { sock with seq := 1 }
    { session0 with nosort := true } = r1 at h1 ⊢
  have h2 := (dump_llapt_effect E r1.nlsock r1.session).1
  generalize cicpos_dump_llapt E r1.nlsock r1.session = r2 at h2 ⊢
  have h3 := (dump_routet_effect E r2.nlsock r2.session).1
  generalize cicpos_dump_routet E r2.nlsock r2.session = r3 at h3 ⊢
  obtain ⟨pm, hpm, h4⟩ := (dump_pmtu_cache_effect E r3.nlsock r3.session).1
  generalize cicpos_dump_pmtu_cache E r3.nlsock r3.session = p at h4 ⊢
  have h5 := (dump_route_cache_effect E p.1 p.2).1
  generalize cicpos_dump_route_cache E p.1 p.2 = r5 at h5 ⊢
  have h7 := (dump_mact_effect E r5.nlsock (cicpos_route_post_poll r5.session)).1
  refine ⟨_, pm, rfl, hpm, ?_⟩
  simp only []
  rw [h7, h5, h4, h3, h2, h1]
  simp [requests_sent]

/-- C13 witness: in a full cycle on a socket without data, in an environment
whose MAC table can be opened, the address-resolution request is made, and is
the last one. -/
theorem dump_tables_requests_witness :
    ∃ r pm,
      cicpos_dump_tables sample_env (some fresh_session) 0 empty_sock 0 = some r ∧
      (∀ k ∈ pm, k = pmtu_row_request) ∧
      requests_sent r.nlsock =
        requests_sent empty_sock ++
          [table_request RTM_GETADDR 0, table_request RTM_GETLINK 0,
            table_request RTM_GETROUTE 0] ++ pm ++
          [table_request RTM_GETROUTE RTM_F_CLONED] ++
          (if sample_env.cicpos_mact_open
              (dump_tables_mact_session sample_env fresh_session empty_sock
                0).control_plane = true then
            [table_request RTM_GETNEIGH 0] else []) :=
  dump_tables_requests sample_env fresh_session 0 empty_sock (by decide)

/-! ## Theorems: pending software-filter queue -/

/-- Freeing an address leaves the other records readable. -/
theorem heap_get_free_ne (h : List (Nat × oof_cb_sw_filter_op)) (p b : Nat)
    (hne : b ≠ p) : heap_get (heap_free h p) b = heap_get h b := by
  induction h with
  | nil => rfl
  | cons e t ih =>
    obtain ⟨a, v⟩ := e
    by_cases ha : a = p
    · have hab : ¬ (a = b) := fun hx => hne (hx ▸ ha)
      simp only [heap_free, ha, if_true, heap_get]
      rw [ih, if_neg (ha ▸ hab)]
    · simp only [heap_free, ha, if_false, heap_get]
      rw [ih]

/-- A freed address holds no record. -/
theorem heap_get_free_self (h : List (Nat × oof_cb_sw_filter_op)) (p : Nat) :
    heap_get (heap_free h p) p = none := by
  induction h with
  | nil => rfl
  | cons e t ih =>
    obtain ⟨a, v⟩ := e
    by_cases ha : a = p
    · simp [heap_free, ha, ih]
    · simp [heap_free, ha, heap_get, ih]

/-- A written record is read back. -/
theorem heap_get_set_self (h : List (Nat × oof_cb_sw_filter_op)) (p : Nat)
    (v : oof_cb_sw_filter_op) : heap_get (heap_set h p v) p = some v := by
  simp [heap_set, heap_get]

/-- Writing at an address leaves the other records as they are. -/
theorem heap_get_set_ne (h : List (Nat × oof_cb_sw_filter_op)) (p b : Nat)
    (v : oof_cb_sw_filter_op) (hne : b ≠ p) :
    heap_get (heap_set h p v) b = heap_get h b := by
  simp only [heap_set, heap_get, if_neg (Ne.symm hne)]
  exact heap_get_free_ne h p b hne

/-- Freeing never makes the heap larger. -/
theorem heap_free_length_le (h : List (Nat × oof_cb_sw_filter_op)) (p : Nat) :
    (heap_free h p).length ≤ h.length := by
  induction h with
  | nil => simp [heap_free]
  | cons e t ih =>
    obtain ⟨a, w⟩ := e
    by_cases ha : a = p
    · simp only [heap_free, ha, if_true, List.length_cons]
      exact Nat.le_succ_of_le ih
    · simp only [heap_free, ha, if_false, List.length_cons]
      exact Nat.succ_le_succ ih

/-- Freeing an allocated record makes the heap smaller. -/
theorem heap_free_length_lt (h : List (Nat × oof_cb_sw_filter_op)) (p : Nat)
    (v : oof_cb_sw_filter_op) (hv : heap_get h p = some v) :
    (heap_free h p).length < h.length := by
  induction h with
  | nil => simp [heap_get] at hv
  | cons e t ih =>
    obtain ⟨a, w⟩ := e
    by_cases ha : a = p
    · simp only [heap_free, ha, if_true, List.length_cons]
      exact Nat.lt_succ_of_le (heap_free_length_le t p)
    · simp only [heap_get, ha, if_false] at hv
      simp only [heap_free, ha, if_false, List.length_cons]
      exact Nat.succ_lt_succ (ih hv)

/-- A chain only depends on the records at its own addresses. -/
theorem swf_chain_congr (h h2 : List (Nat × oof_cb_sw_filter_op))
    (nodes : List (Nat × oof_cb_sw_filter_op)) (p : Option Nat)
    (hsame : ∀ a ∈ nodes.map Prod.fst, heap_get h2 a = heap_get h a)
    (hc : swf_chain h p nodes) : swf_chain h2 p nodes := by
  induction nodes generalizing p with
  | nil => exact hc
  | cons n rest ih =>
    obtain ⟨a, q⟩ := n
    obtain ⟨hp, o, ho, hq, hrest⟩ := hc
    refine ⟨hp, o, ?_, hq, ih o.next (fun b hb => hsame b ?_) hrest⟩
    · rw [hsame a (by simp)]
      exact ho
    · simp only [List.map_cons, List.mem_cons]
      exact Or.inr hb

/-- Every address of a chain holds a record. -/
theorem swf_chain_allocated (h : List (Nat × oof_cb_sw_filter_op))
    (nodes : List (Nat × oof_cb_sw_filter_op)) (p : Option Nat)
    (hc : swf_chain h p nodes) :
    ∀ a ∈ nodes.map Prod.fst, heap_get h a ≠ none := by
  induction nodes generalizing p with
  | nil => simp
  | cons n rest ih =>
    obtain ⟨a, q⟩ := n
    obtain ⟨_, o, ho, _, hrest⟩ := hc
    intro b hb
    simp only [List.map_cons, List.mem_cons] at hb
    rcases hb with rfl | hb
    · rw [ho]; simp
    · exact ih o.next hrest b hb

/-- Linking a new record behind the last record of a non-empty chain gives the
chain with the new record appended. -/
theorem swf_chain_link (h : List (Nat × oof_cb_sw_filter_op))
    (xs : List (Nat × oof_cb_sw_filter_op)) (p : Option Nat) (l a : Nat)
    (lo r : oof_cb_sw_filter_op) (hc : swf_chain h p xs)
    (hnd : (xs.map Prod.fst).Nodup) (hl : (xs.getLast?).map Prod.fst = some l)
    (hlo : heap_get h l = some lo) (ha : a ∉ xs.map Prod.fst) (hal : a ≠ l)
    (hr : r.next = none) :
    swf_chain (heap_set (heap_set h a r) l { lo with next := some a }) p
      (xs ++ [(a, r)]) := by
  induction xs generalizing p with
  | nil => simp at hl
  | cons n rest ih =>
    obtain ⟨b, q⟩ := n
    obtain ⟨hp, o, ho, hq, hrest⟩ := hc
    have hba : b ≠ a := fun hx => ha (by simp [hx])
    cases rest with
    | nil =>
      have hbl : b = l := by simpa using hl
      subst hbl
      have hol : o = lo := Option.some.inj (ho.symm.trans hlo)
      subst hol
      have hnext : o.next = none := hrest
      refine ⟨hp, { o with next := some a }, heap_get_set_self _ _ _, hq, ?_⟩
      refine ⟨rfl, r, ?_, ?_, hr⟩
      · rw [heap_get_set_ne _ _ _ _ hal, heap_get_set_self]
      · cases r
        simp only at hr
        simp [hr]
    | cons y t =>
      have hl2 : ((y :: t).getLast?).map Prod.fst = some l := by
        simpa [List.getLast?_cons_cons] using hl
      have hlmem : l ∈ (y :: t).map Prod.fst := by
        rcases hx : (y :: t).getLast? with _ | z
        · simp [hx] at hl2
        · rw [hx] at hl2
          have hz : z.1 = l := by simpa using hl2
          exact List.mem_map.mpr ⟨z, List.mem_of_mem_getLast? hx, hz⟩
      have hnd2 : ((y :: t).map Prod.fst).Nodup := (List.nodup_cons.mp hnd).2
      have hbnot : b ∉ (y :: t).map Prod.fst := (List.nodup_cons.mp hnd).1
      have hbl : b ≠ l := fun hx => hbnot (hx ▸ hlmem)
      have ha2 : a ∉ (y :: t).map Prod.fst := fun hx => ha (by
        simp only [List.map_cons, List.mem_cons] at hx ⊢
        exact Or.inr hx)
      refine ⟨hp, o, ?_, hq, ih o.next hrest hnd2 hl2 ha2⟩
      rw [heap_get_set_ne _ _ _ _ hbl, heap_get_set_ne _ _ _ _ hba]
      exact ho

/-- The filter-table call of a record does not depend on its link. -/
theorem op_call_next (o : oof_cb_sw_filter_op) :
    ({ o with next := none } : oof_cb_sw_filter_op).call = o.call := rfl

/-- Draining a queue: with fuel above the number of allocated records the loop
makes the filter-table calls of the queued records in order and leaves both
ends of the queue `NULL`. -/
theorem sw_filter_apply_loop_queue (xs : List (Nat × oof_cb_sw_filter_op))
    (fuel : Nat) (ni : ci_netif) (hq : swf_queue ni xs)
    (hfuel : ni.ops.length < fuel) :
    (sw_filter_apply_loop fuel ni).calls =
      ni.calls ++ xs.map (fun n => n.2.call) ∧
    (sw_filter_apply_loop fuel ni).swf_update_first = none ∧
    (sw_filter_apply_loop fuel ni).swf_update_last = none := by
  induction xs generalizing fuel ni with
  | nil =>
    obtain ⟨hc, hlast, _⟩ := hq
    have hfirst : ni.swf_update_first = none := hc
    cases fuel with
    | zero => exact absurd hfuel (Nat.not_lt_zero _)
    | succ n =>
      have hl : ni.swf_update_last = none := by simpa using hlast
      simp [sw_filter_apply_loop, hfirst, hl]
  | cons n rest ih =>
    obtain ⟨a, q⟩ := n
    obtain ⟨⟨hp, o, ho, hoq, hrest⟩, hlast, hnd⟩ := hq
    cases fuel with
    | zero => exact absurd hfuel (Nat.not_lt_zero _)
    | succ k =>
      have hanot : a ∉ rest.map Prod.fst := (List.nodup_cons.mp hnd).1
      have hnd2 : (rest.map Prod.fst).Nodup := (List.nodup_cons.mp hnd).2
      have hchain : swf_chain (heap_free ni.ops a) o.next rest :=
        swf_chain_congr ni.ops (heap_free ni.ops a) rest o.next
          (fun b hb => heap_get_free_ne ni.ops a b (fun hx => hanot (hx ▸ hb))) hrest
      have hlen : (heap_free ni.ops a).length < k :=
        lt_of_lt_of_le (heap_free_length_lt ni.ops a o ho) (Nat.le_of_lt_succ hfuel)
      have hcall : q.call = o.call := by rw [← hoq]; rfl
      simp only [sw_filter_apply_loop, hp, ho]
      cases rest with
      | nil =>
        have hnext : o.next = none := hrest
        have hq2 : swf_queue
            { swf_update_first := o.next,
              swf_update_last := if o.next = none then none else ni.swf_update_last,
              ops := heap_free ni.ops a, calls := ni.calls ++ [o.call] } [] :=
          ⟨hnext, by simp [hnext], by simp⟩
        have h := ih k _ hq2 hlen
        simpa [hcall] using h
      | cons y t =>
        have hnext : o.next ≠ none := by
          obtain ⟨hy, _⟩ := hrest
          rw [hy]; simp
        have hq2 : swf_queue
            { swf_update_first := o.next,
              swf_update_last := if o.next = none then none else ni.swf_update_last,
              ops := heap_free ni.ops a, calls := ni.calls ++ [o.call] } (y :: t) :=
          ⟨hchain, by simpa [hnext, List.getLast?_cons_cons] using hlast, hnd2⟩
        have h := ih k _ hq2 hlen
        simpa [hcall] using h

/-- The calls of a postpone: only stack-lock calls are added. -/
theorem postpone_calls (ni : ci_netif) (ep_id : Int) (laddr : Nat) (lport : Int)
    (raddr : Nat) (rport : Int) (protocol : Int) (op_op : sw_filter_op_kind)
    (alloc : Option Nat) (locked : Bool) :
    filter_ops (oof_cb_sw_filter_postpone ni ep_id laddr lport raddr rport protocol
      op_op alloc locked).calls = filter_ops ni.calls := by
  cases alloc with
  | none => rfl
  | some a =>
    unfold oof_cb_sw_filter_postpone
    cases locked <;> cases ni.swf_update_last <;>
      simp [filter_ops, netif_call.is_filter_op] <;>
      split <;> simp

/-- A postpone whose allocation returned a fresh address appends its record at
the tail of the pending queue. -/
theorem postpone_queue (ni : ci_netif) (xs : List (Nat × oof_cb_sw_filter_op))
    (ep_id : Int) (laddr : Nat) (lport : Int) (raddr : Nat) (rport : Int)
    (protocol : Int) (op_op : sw_filter_op_kind) (a : Nat) (locked : Bool)
    (hq : swf_queue ni xs) (hfresh : heap_get ni.ops a = none) :
    swf_queue
      (oof_cb_sw_filter_postpone ni ep_id laddr lport raddr rport protocol op_op
        (some a) locked)
      (xs ++ [(a, new_op ep_id laddr lport raddr rport protocol op_op)]) := by
  obtain ⟨hc, hlast, hnd⟩ := hq
  have hanot : a ∉ xs.map Prod.fst := fun hx =>
    swf_chain_allocated ni.ops xs _ hc a hx hfresh
  have hnd2 : ((xs ++ [(a, new_op ep_id laddr lport raddr rport protocol op_op)]).map
      Prod.fst).Nodup := by
    rw [List.map_append, List.nodup_append]
    refine ⟨hnd, by simp, ?_⟩
    intro b hb hb2
    have : b = a := by simpa using hb2
    exact hanot (this ▸ hb)
  rcases hx : xs.getLast? with _ | z
  · have hnil : xs = [] := List.getLast?_eq_none_iff.mp hx
    subst hnil
    have hl : ni.swf_update_last = none := by simpa using hlast
    have hf : ni.swf_update_first = none := hc
    unfold oof_cb_sw_filter_postpone
    cases locked <;>
    · simp only [hl]
      refine ⟨⟨rfl, new_op ep_id laddr lport raddr rport protocol op_op,
        heap_get_set_self _ _ _, rfl, rfl⟩, by simp, by simp⟩
  · have hl : ni.swf_update_last = some z.1 := by rw [hlast, hx]; rfl
    have hzmem : z.1 ∈ xs.map Prod.fst :=
      List.mem_map.mpr ⟨z, List.mem_of_mem_getLast? hx, rfl⟩
    have hza : a ≠ z.1 := fun h => hanot (h ▸ hzmem)
    have hzalloc := swf_chain_allocated ni.ops xs _ hc z.1 hzmem
    rcases hlo : heap_get ni.ops z.1 with _ | lo
    · exact absurd hlo hzalloc
    · have hlo1 : heap_get (heap_set ni.ops a
          (new_op ep_id laddr lport raddr rport protocol op_op)) z.1 = some lo := by
        rw [heap_get_set_ne _ _ _ _ (Ne.symm hza)]
        exact hlo
      have hlink := swf_chain_link ni.ops xs ni.swf_update_first z.1 a lo
        (new_op ep_id laddr lport raddr rport protocol op_op) hc hnd
        (by rw [hx]; rfl) hlo hanot hza rfl
      have hlast2 : ((xs ++ [(a, new_op ep_id laddr lport raddr rport protocol
          op_op)]).getLast?).map Prod.fst = some a := by simp
      unfold oof_cb_sw_filter_postpone
      unfold new_op at hlo1 hlink hlast2 hnd2 ⊢
      cases locked <;>
      · simp only [hl, hlo1]
        exact ⟨hlink, hlast2.symm, hnd2⟩

/-- A postpone leaves every other unallocated address unallocated. -/
theorem postpone_fresh (ni : ci_netif) (ep_id : Int) (laddr : Nat) (lport : Int)
    (raddr : Nat) (rport : Int) (protocol : Int) (op_op : sw_filter_op_kind)
    (a : Nat) (locked : Bool) (b : Nat) (hba : b ≠ a)
    (hb : heap_get ni.ops b = none) :
    heap_get (oof_cb_sw_filter_postpone ni ep_id laddr lport raddr rport protocol
      op_op (some a) locked).ops b = none := by
  have hops1 : ∀ r, heap_get (heap_set ni.ops a r) b = none := fun r => by
    rw [heap_get_set_ne _ _ _ _ hba]
    exact hb
  rcases hl : ni.swf_update_last with _ | l
  · unfold oof_cb_sw_filter_postpone
    cases locked <;>
    · simp only [hl]
      exact hops1 _
  · rcases hg : heap_get (heap_set ni.ops a
        ⟨none, ep_id, laddr, raddr, lport, rport, protocol, op_op⟩) l with _ | last
    · unfold oof_cb_sw_filter_postpone
      cases locked <;>
      · simp only [hl, hg]
        exact hops1 _
    · have hbl : b ≠ l := fun h => by
        rw [← h, hops1] at hg
        exact Option.noConfusion hg
      unfold oof_cb_sw_filter_postpone
      cases locked <;>
      · simp only [hl, hg]
        exact (heap_get_set_ne _ _ _ _ hbl).trans (hops1 _)

/-- The filter-table call of the record built for a postponed operation. -/
theorem new_op_call (p : postponed) :
    (new_op p.ep_id p.laddr p.lport p.raddr p.rport p.protocol p.op_op).call =
      p.call := by
  unfold new_op oof_cb_sw_filter_op.call postponed.call
  cases p.op_op <;> simp

/-- A run of postpones with fresh, pairwise different addresses appends its
records to the pending queue in the order of the calls, and makes no
filter-table call. -/
theorem postponed_run_queue (ps : List postponed) (ni : ci_netif)
    (xs : List (Nat × oof_cb_sw_filter_op)) (hq : swf_queue ni xs)
    (hfresh : ∀ p ∈ ps, heap_get ni.ops p.addr = none)
    (hnd : (ps.map postponed.addr).Nodup) :
    swf_queue (ps.foldl postponed.run ni)
      (xs ++ ps.map (fun p =>
        (p.addr, new_op p.ep_id p.laddr p.lport p.raddr p.rport p.protocol p.op_op))) ∧
    filter_ops (ps.foldl postponed.run ni).calls = filter_ops ni.calls := by
  induction ps generalizing ni xs with
  | nil => exact ⟨by simpa using hq, rfl⟩
  | cons p rest ih =>
    have hp : heap_get ni.ops p.addr = none := hfresh p (by simp)
    have hnot : p.addr ∉ rest.map postponed.addr := (List.nodup_cons.mp hnd).1
    have hq1 := postpone_queue ni xs p.ep_id p.laddr p.lport p.raddr p.rport
      p.protocol p.op_op p.addr p.locked hq hp
    have hfresh1 : ∀ r ∈ rest, heap_get (postponed.run ni p).ops r.addr = none := by
      intro r hr
      have hne : r.addr ≠ p.addr := fun h =>
        hnot (h ▸ List.mem_map.mpr ⟨r, hr, rfl⟩)
      exact postpone_fresh ni p.ep_id p.laddr p.lport p.raddr p.rport p.protocol
        p.op_op p.addr p.locked r.addr hne (hfresh r (by simp [hr]))
    have h := ih (postponed.run ni p) _ hq1 hfresh1 (List.nodup_cons.mp hnd).2
    refine ⟨by simpa [List.foldl_cons, List.append_assoc] using h.1, ?_⟩
    rw [List.foldl_cons, h.2]
    exact postpone_calls ni p.ep_id p.laddr p.lport p.raddr p.rport p.protocol
      p.op_op (some p.addr) p.locked

/-- A drain of a stack whose queue is empty changes nothing. -/
theorem sw_filter_apply_idle (ni : ci_netif) (h : ni.swf_update_first = none) :
    oof_cb_sw_filter_apply ni = ni := by
  unfold oof_cb_sw_filter_apply
  simp only [sw_filter_apply_loop, h]

/-- C19: FIFO drain.  On a stack whose pending queue is empty, let the
operations `ps` be postponed one after the other, each allocation returning a
fresh address, and let `oof_cb_sw_filter_apply` run then.  The postpones make
no filter-table call; the calls made by the drain are exactly the filter
insert/remove calls of `ps`, each once, in the order they were postponed, each
with its own socket id, addresses, ports, protocol and kind; afterwards
`swf_update_first` and `swf_update_last` are both `NULL` and a further drain
changes nothing (so makes no call). -/
theorem sw_filter_fifo_drain (ni : ci_netif) (ps : List postponed)
    (hfirst : ni.swf_update_first = none) (hlast : ni.swf_update_last = none)
    (hfresh : ∀ p ∈ ps, heap_get ni.ops p.addr = none)
    (hnd : (ps.map postponed.addr).Nodup) :
    filter_ops (ps.foldl postponed.run ni).calls = filter_ops ni.calls ∧
    (oof_cb_sw_filter_apply (ps.foldl postponed.run ni)).calls =
      (ps.foldl postponed.run ni).calls ++ ps.map postponed.call ∧
    (oof_cb_sw_filter_apply (ps.foldl postponed.run ni)).swf_update_first = none ∧
    (oof_cb_sw_filter_apply (ps.foldl postponed.run ni)).swf_update_last = none ∧
    oof_cb_sw_filter_apply (oof_cb_sw_filter_apply (ps.foldl postponed.run ni)) =
      oof_cb_sw_filter_apply (ps.foldl postponed.run ni) := by
  have hq0 : swf_queue ni [] := ⟨hfirst, by simpa using hlast, by simp⟩
  obtain ⟨hq, hcalls⟩ := postponed_run_queue ps ni [] hq0 hfresh hnd
  obtain ⟨h1, h2, h3⟩ := sw_filter_apply_loop_queue _
    ((ps.foldl postponed.run ni).ops.length + 1) (ps.foldl postponed.run ni) hq
    (Nat.lt_succ_self _)
  refine ⟨hcalls, ?_, h2, h3, sw_filter_apply_idle _ h2⟩
  unfold oof_cb_sw_filter_apply
  rw [h1]
  simp only [List.nil_append, List.map_map]
  congr 1
  apply List.map_congr_left
  intro p _
  exact new_op_call p

/-- C19 witness: three operations postponed on an idle stack are drained as
insert, remove, insert, in that order. -/
theorem sw_filter_fifo_drain_witness :
    (idle_netif.swf_update_first = none ∧ idle_netif.swf_update_last = none ∧
      (∀ p ∈ sample_postponed, heap_get idle_netif.ops p.addr = none) ∧
      (sample_postponed.map postponed.addr).Nodup) ∧
    (oof_cb_sw_filter_apply (sample_postponed.foldl postponed.run idle_netif)).calls =
      (sample_postponed.foldl postponed.run idle_netif).calls ++
        [netif_call.filter_insert 5 167772161 80 0 0 6,
         netif_call.filter_remove 6 167772161 53 167772162 4000 17,
         netif_call.filter_insert 5 167772161 443 0 0 6] :=
  ⟨⟨rfl, rfl, by decide, by decide⟩,
   (sw_filter_fifo_drain idle_netif sample_postponed rfl rfl (by decide)
     (by decide)).2.1⟩

/-- C20 counterexample: with `stack_locked` false, a failed try-lock and a
failed allocation of the record, `oof_cb_sw_filter_insert` returns 0 having
made no filter-table call, and the pending queue is still empty: no ADD record
was appended. -/
theorem sw_filter_insert_counterexample :
    oof_cb_sw_filter_insert idle_netif 5 167772161 80 0 0 6 0 false 0 none false =
      (0, { idle_netif with calls := [netif_call.try_lock false] }) ∧
    swf_queue
      (oof_cb_sw_filter_insert idle_netif 5 167772161 80 0 0 6 0 false 0 none false).2
      [] ∧
    ¬ ∃ n, swf_queue
      (oof_cb_sw_filter_insert idle_netif 5 167772161 80 0 0 6 0 false 0 none false).2
      [n] := by
  refine ⟨rfl, ⟨rfl, rfl, by simp⟩, ?_⟩
  rintro ⟨⟨a, q⟩, ⟨hp, _⟩, _⟩
  exact Option.noConfusion hp

/-- C20, amended: `oof_cb_sw_filter_insert` on a stack whose pending queue holds
`xs`.  With `stack_locked` false and a successful try-lock the calls made are
the try-lock, the filter insert and the unlock, the result of the insert is
returned and nothing else changes.  With `stack_locked` false and a failed
try-lock no filter-table call is made and 0 is returned; if the allocation of
the record returned a fresh address, the queue afterwards is `xs` followed by
one ADD record with the same socket id, addresses, ports and protocol, and if
the allocation failed only the try-lock call is added and the queue is as
before.  With `stack_locked` true the only call made is the filter insert, the
result of the insert is returned and nothing else changes. -/
theorem sw_filter_insert_behaviour (ni : ci_netif)
    (xs : List (Nat × oof_cb_sw_filter_op)) (ep_id : Int) (laddr : Nat)
    (lport : Int) (raddr : Nat) (rport : Int) (protocol : Int)
    (stack_locked : Int) (try_lock : Bool) (insert_rc : Int)
    (alloc : Option Nat) (locked : Bool) (hq : swf_queue ni xs) :
    (stack_locked = 0 → try_lock = true →
      oof_cb_sw_filter_insert ni ep_id laddr lport raddr rport protocol
          stack_locked try_lock insert_rc alloc locked =
        (insert_rc,
          { ni with
            calls := ni.calls ++
              [netif_call.try_lock true,
               netif_call.filter_insert ep_id laddr lport raddr rport protocol,
               netif_call.unlock] })) ∧
    (stack_locked = 0 → try_lock = false →
      (oof_cb_sw_filter_insert ni ep_id laddr lport raddr rport protocol
          stack_locked try_lock insert_rc alloc locked).1 = 0 ∧
      filter_ops (oof_cb_sw_filter_insert ni ep_id laddr lport raddr rport protocol
          stack_locked try_lock insert_rc alloc locked).2.calls =
        filter_ops ni.calls) ∧
    (stack_locked = 0 → try_lock = false →
      ∀ a, alloc = some a → heap_get ni.ops a = none →
        swf_queue
          (oof_cb_sw_filter_insert ni ep_id laddr lport raddr rport protocol
            stack_locked try_lock insert_rc alloc locked).2
          (xs ++ [(a, new_op ep_id laddr lport raddr rport protocol
            sw_filter_op_kind.OOF_CB_SW_FILTER_OP_ADD)])) ∧
    (stack_locked = 0 → try_lock = false → alloc = none →
      oof_cb_sw_filter_insert ni ep_id laddr lport raddr rport protocol
          stack_locked try_lock insert_rc alloc locked =
        (0, { ni with calls := ni.calls ++ [netif_call.try_lock false] })) ∧
    (stack_locked ≠ 0 →
      oof_cb_sw_filter_insert ni ep_id laddr lport raddr rport protocol
          stack_locked try_lock insert_rc alloc locked =
        (insert_rc,
          { ni with
            calls := ni.calls ++
              [netif_call.filter_insert ep_id laddr lport raddr rport protocol] })) := by
  refine ⟨?_, ?_, ?_, ?_, ?_⟩
  · intro hs ht
    subst hs ht
    simp [oof_cb_sw_filter_insert]
  · intro hs ht
    subst hs ht
    simp only [oof_cb_sw_filter_insert, ne_eq, not_true_eq_false, if_false,
      Bool.false_eq_true, or_self]
    refine ⟨trivial, ?_⟩
    rw [postpone_calls]
    simp [filter_ops, netif_call.is_filter_op]
  · intro hs ht a ha hfresh
    subst hs ht ha
    simp only [oof_cb_sw_filter_insert, ne_eq, not_true_eq_false, if_false,
      Bool.false_eq_true, or_self]
    exact postpone_queue _ xs ep_id laddr lport raddr rport protocol _ a locked
      hq hfresh
  · intro hs ht ha
    subst hs ht ha
    simp [oof_cb_sw_filter_insert, oof_cb_sw_filter_postpone]
  · intro hs
    simp [oof_cb_sw_filter_insert, hs]

/-- C20 witness: on an idle stack, an insert whose try-lock fails and whose
record is allocated at address 1 leaves exactly that ADD record in the queue. -/
theorem sw_filter_insert_behaviour_witness :
    swf_queue idle_netif [] ∧
    swf_queue
      (oof_cb_sw_filter_insert idle_netif 5 167772161 80 0 0 6 0 false 0 (some 1)
        false).2
      [(1, new_op 5 167772161 80 0 0 6 sw_filter_op_kind.OOF_CB_SW_FILTER_OP_ADD)] :=
  ⟨⟨rfl, rfl, by simp⟩,
   (sw_filter_insert_behaviour idle_netif [] 5 167772161 80 0 0 6 0 false 0 (some 1)
     false ⟨rfl, rfl, by simp⟩).2.2.1 rfl rfl 1 rfl rfl⟩

/-! ## Theorems: software-filter remove -/

/-- C21: for a socket whose `sf_flags` has `OOF_SOCKET_SW_FILTER_WAS_REMOVED`
set, `oof_cb_sw_filter_remove` leaves the stack exactly as it was, for every
tuple, either value of `stack_locked` and whatever the lock attempt or the
allocation would have returned: no filter removal, no lock call, no record
appended to the pending queue. -/
theorem sw_filter_remove_was_removed (OOF_SOCKET_SW_FILTER_WAS_REMOVED : Nat)
    (ni : ci_netif) (sf_flags : Nat) (ep_id : Int) (laddr : Nat) (lport : Int)
    (raddr : Nat) (rport : Int) (protocol : Int) (stack_locked : Int)
    (try_lock : Bool) (alloc : Option Nat) (locked : Bool)
    (h : sf_flags &&& OOF_SOCKET_SW_FILTER_WAS_REMOVED ≠ 0) :
    oof_cb_sw_filter_remove OOF_SOCKET_SW_FILTER_WAS_REMOVED ni sf_flags ep_id
      laddr lport raddr rport protocol stack_locked try_lock alloc locked = ni := by
  unfold oof_cb_sw_filter_remove
  rw [if_pos h]

/-- C21 witness: with flag bit 4 set in `sf_flags` 6, a remove on an idle
stack changes nothing. -/
theorem sw_filter_remove_was_removed_witness :
    (6 : Nat) &&& 4 ≠ 0 ∧
    oof_cb_sw_filter_remove 4 idle_netif 6 5 167772161 80 0 0 6 0 true (some 1)
      false = idle_netif :=
  ⟨by decide,
   sw_filter_remove_was_removed 4 idle_netif 6 5 167772161 80 0 0 6 0 true (some 1)
     false (by decide)⟩

/-! ## Theorems: poller -/

/-- C24: `cicpos_worker` as a function of the stop flag, the running flag and
the iteration counter.  With stop set it makes no call and changes nothing.
With stop clear its last call re-schedules it after `CICPOS_SCAN_INTERVAL`;
when not running that is its only call and the counter stays; when running it
first polls the live notifications, then dumps the tables exactly when the
counter is even, the dump being a full one (`mac_only` 0) exactly when the
counter is a multiple of 20 and a MAC-only one otherwise, and the counter goes
up by one (as an `unsigned int`, so from 2^32 - 1 to 0). -/
theorem worker_schedule (HZ : Nat) (st : worker_state) :
    (st.stop ≠ 0 → cicpos_worker HZ st = (st, [])) ∧
    (st.stop = 0 → st.cicpos_running = 0 →
      cicpos_worker HZ st =
        (st, [worker_call.queue_delayed_work (CICPOS_SCAN_INTERVAL HZ)])) ∧
    (st.stop = 0 → st.cicpos_running ≠ 0 →
      (cicpos_worker HZ st).1 = { st with count := (st.count + 1) % 2 ^ 32 } ∧
      (st.count + 1 < 2 ^ 32 → (cicpos_worker HZ st).1.count = st.count + 1) ∧
      (st.count % 2 = 0 →
        (cicpos_worker HZ st).2 =
          [worker_call.efab_netlink_poll_for_updates,
           worker_call.cicpos_dump_tables (st.count % 20),
           worker_call.queue_delayed_work (CICPOS_SCAN_INTERVAL HZ)] ∧
        (st.count % 20 = 0 ↔ 20 ∣ st.count)) ∧
      (st.count % 2 ≠ 0 →
        (cicpos_worker HZ st).2 =
          [worker_call.efab_netlink_poll_for_updates,
           worker_call.queue_delayed_work (CICPOS_SCAN_INTERVAL HZ)])) := by
  refine ⟨?_, ?_, ?_⟩
  · intro h
    simp [cicpos_worker, h]
  · intro h hr
    simp [cicpos_worker, h, hr]
  · intro h hr
    refine ⟨by simp [cicpos_worker, h, hr], ?_, ?_, ?_⟩
    · intro hlt
      have hlt2 : st.count + 1 < 4294967296 := by simpa using hlt
      simpa [cicpos_worker, h, hr] using hlt2
    · intro he
      exact ⟨by simp [cicpos_worker, h, hr, he], (Nat.dvd_iff_mod_eq_zero ..).symm⟩
    · intro ho
      simp [cicpos_worker, h, hr, ho]

/-- C24 witness: iteration 40 of a running poller polls, makes a full dump and
re-schedules itself; the counter becomes 41. -/
theorem worker_schedule_witness :
    cicpos_worker 1000 { stop := 0, cicpos_running := 1, count := 40 } =
      ({ stop := 0, cicpos_running := 1, count := 41 },
       [worker_call.efab_netlink_poll_for_updates,
        worker_call.cicpos_dump_tables 0,
        worker_call.queue_delayed_work 500]) := by
  have h := (worker_schedule 1000 { stop := 0, cicpos_running := 1, count := 40 }).2.2
    rfl (by decide)
  exact Prod.ext h.1 (h.2.2.1 rfl).1

/-! ## Theorems: route row synchronisation -/

/-- C30: `cicpos_route_kmib_row_update` on rows of `sizeof(*sync_row)` bytes.
With a new row it returns true (1) if and only if the stored row differs from
the new row, and false (0) otherwise; afterwards the stored row equals the new
row, so the same update repeated at once returns false.  With a `NULL` new row
it returns false and the stored row is all zero. -/
theorem route_kmib_row_update_changed (size : Nat)
    (sync_row newrow : cicpos_route_row_t) (hrow : sync_row.length = size)
    (hnew : newrow.length = size) :
    ((cicpos_route_kmib_row_update size sync_row (some newrow)).1 = 1 ↔
      sync_row ≠ newrow) ∧
    ((cicpos_route_kmib_row_update size sync_row (some newrow)).1 = 0 ↔
      sync_row = newrow) ∧
    (cicpos_route_kmib_row_update size sync_row (some newrow)).2 = newrow ∧
    (cicpos_route_kmib_row_update size
      (cicpos_route_kmib_row_update size sync_row (some newrow)).2
      (some newrow)).1 = 0 ∧
    cicpos_route_kmib_row_update size sync_row none =
      (0, List.replicate size 0) := by
  have h1 : sync_row.take size = sync_row := List.take_of_length_le (le_of_eq hrow)
  have h2 : newrow.take size = newrow := List.take_of_length_le (le_of_eq hnew)
  have h3 : sync_row.drop size = [] := List.drop_of_length_le (le_of_eq hrow)
  have h4 : newrow.drop size = [] := List.drop_of_length_le (le_of_eq hnew)
  have hst : (cicpos_route_kmib_row_update size sync_row (some newrow)).2 = newrow := by
    simp [cicpos_route_kmib_row_update, memcpy, h2, h3]
  refine ⟨?_, ?_, hst, ?_, ?_⟩
  · by_cases h : sync_row = newrow <;>
      simp [cicpos_route_kmib_row_update, memcmp_ne, h1, h2, h]
  · by_cases h : sync_row = newrow <;>
      simp [cicpos_route_kmib_row_update, memcmp_ne, h1, h2, h]
  · rw [hst]
    simp [cicpos_route_kmib_row_update, memcmp_ne]
  · simp [cicpos_route_kmib_row_update, memset_zero, h3]

/-- C30 witness: a four-byte row updated from (1, 2, 3, 4) to (1, 2, 3, 5)
reports a change and holds the new bytes. -/
theorem route_kmib_row_update_changed_witness :
    cicpos_route_kmib_row_update 4 [1, 2, 3, 4] (some [1, 2, 3, 5]) =
      (1, [1, 2, 3, 5]) := by
  have h := route_kmib_row_update_changed 4 [1, 2, 3, 4] [1, 2, 3, 5] rfl rfl
  exact Prod.ext (h.1.mpr (by decide)) h.2.2.1

/-! ## Theorems: neighbour refresh and deferred transmission -/

/-- C22: `cicpos_arp_stale_update` for an interface `d` and a neighbour entry
`n` that exist.  With `confirm` false and state `NUD_STALE` it sends exactly
one ARP request (for `dst`, to the entry's hardware address) and then asks for
the state `NUD_DELAY` (`neigh_update`); with `confirm` false and any other
state it makes no call besides taking and dropping its references and leaves
the entry as it is; with `confirm` true it sends no ARP request: for a stale
entry it asks for the state `NUD_REACHABLE`, for any other entry it only stores
the current time in `confirmed`.  When the interface does not exist nothing is
done after the interface lookup; when the neighbour entry does not exist the
interface reference is dropped and nothing else is done. -/
theorem arp_stale_update_cases (jiffies : Nat) (d : net_device) (n : neighbour)
    (neigh : Option neighbour) (src_ip dst : Nat) (ifindex : Int) (confirm : Int) :
    (confirm = 0 → n.nud_state = NUD_STALE →
      cicpos_arp_stale_update jiffies (some d) (some n) src_ip dst ifindex confirm =
        (some n,
          [kernel_call.dev_get_by_index ifindex, kernel_call.neigh_lookup dst,
           kernel_call.inet_select_addr dst RT_SCOPE_LINK,
           kernel_call.arp_send ARPOP_REQUEST ETH_P_ARP dst src_ip n.ha d.dev_addr,
           kernel_call.neigh_update NUD_DELAY NEIGH_UPDATE_F_ADMIN,
           kernel_call.neigh_release, kernel_call.dev_put])) ∧
    (confirm = 0 → n.nud_state ≠ NUD_STALE →
      cicpos_arp_stale_update jiffies (some d) (some n) src_ip dst ifindex confirm =
        (some n,
          [kernel_call.dev_get_by_index ifindex, kernel_call.neigh_lookup dst,
           kernel_call.neigh_release, kernel_call.dev_put])) ∧
    (confirm ≠ 0 → n.nud_state = NUD_STALE →
      cicpos_arp_stale_update jiffies (some d) (some n) src_ip dst ifindex confirm =
        (some n,
          [kernel_call.dev_get_by_index ifindex, kernel_call.neigh_lookup dst,
           kernel_call.neigh_update NUD_REACHABLE NEIGH_UPDATE_F_ADMIN,
           kernel_call.neigh_release, kernel_call.dev_put])) ∧
    (confirm ≠ 0 → n.nud_state ≠ NUD_STALE →
      cicpos_arp_stale_update jiffies (some d) (some n) src_ip dst ifindex confirm =
        (some { n with confirmed := jiffies },
          [kernel_call.dev_get_by_index ifindex, kernel_call.neigh_lookup dst,
           kernel_call.neigh_release, kernel_call.dev_put])) ∧
    cicpos_arp_stale_update jiffies none neigh src_ip dst ifindex confirm =
      (neigh, [kernel_call.dev_get_by_index ifindex]) ∧
    cicpos_arp_stale_update jiffies (some d) none src_ip dst ifindex confirm =
      (none,
        [kernel_call.dev_get_by_index ifindex, kernel_call.neigh_lookup dst,
         kernel_call.dev_put]) := by
  refine ⟨?_, ?_, ?_, ?_, rfl, rfl⟩
  · intro hc hs
    simp [cicpos_arp_stale_update, hc, hs]
  · intro hc hs
    simp [cicpos_arp_stale_update, hc, hs]
  · intro hc hs
    simp [cicpos_arp_stale_update, hc, hs]
  · intro hc hs
    simp [cicpos_arp_stale_update, hc, hs]

/-- C22 witness: an unconfirmed check of a stale entry sends one ARP request
and asks for the state `NUD_DELAY`. -/
theorem arp_stale_update_cases_witness :
    cicpos_arp_stale_update 500 (some sample_dev) (some stale_neigh) 0x0a000001
        0x0a000009 2 0 =
      (some stale_neigh,
        [kernel_call.dev_get_by_index 2, kernel_call.neigh_lookup 0x0a000009,
         kernel_call.inet_select_addr 0x0a000009 RT_SCOPE_LINK,
         kernel_call.arp_send ARPOP_REQUEST ETH_P_ARP 0x0a000009 0x0a000001
           stale_neigh.ha sample_dev.dev_addr,
         kernel_call.neigh_update NUD_DELAY NEIGH_UPDATE_F_ADMIN,
         kernel_call.neigh_release, kernel_call.dev_put]) :=
  (arp_stale_update_cases 500 sample_dev stale_neigh none 0x0a000001 0x0a000009 2
    0).1 rfl rfl

/-- C23: `cicppl_mac_defer_send` returns true (1) if and only if it stores 0 in
`*ref_os_rc`, and false (0) otherwise.  On every failure the stored code is
negative and the work queue is as before: the code is `-EINVAL` when no packet
is given, `-ENOBUFS` when the pool returns no buffer, the negative code of the
copy routine when the copy fails, and `-ENOMEM` when no work record can be
allocated; the three fixed codes differ from each other.  When every step
succeeds, 0 is stored and one work record for the new buffer is queued. -/
theorem mac_defer_send_codes (st : defer_state) (ip_pktid : Option Nat)
    (dst_pktid : Int) (copy_rc : Int) (wp_alloc : Bool) (ifindex : Int) :
    ((cicppl_mac_defer_send st ip_pktid dst_pktid copy_rc wp_alloc ifindex).1 = 1 ↔
      (cicppl_mac_defer_send st ip_pktid dst_pktid copy_rc wp_alloc ifindex).2.1 = 0) ∧
    ((cicppl_mac_defer_send st ip_pktid dst_pktid copy_rc wp_alloc ifindex).1 = 0 ↔
      (cicppl_mac_defer_send st ip_pktid dst_pktid copy_rc wp_alloc ifindex).2.1 ≠ 0) ∧
    ((cicppl_mac_defer_send st ip_pktid dst_pktid copy_rc wp_alloc ifindex).1 = 0 →
      (cicppl_mac_defer_send st ip_pktid dst_pktid copy_rc wp_alloc ifindex).2.1 < 0 ∧
      (cicppl_mac_defer_send st ip_pktid dst_pktid copy_rc wp_alloc
        ifindex).2.2.workqueue = st.workqueue) ∧
    (ip_pktid = none →
      (cicppl_mac_defer_send st ip_pktid dst_pktid copy_rc wp_alloc ifindex).2.1 =
        - EINVAL) ∧
    (ip_pktid ≠ none → dst_pktid < 0 →
      (cicppl_mac_defer_send st ip_pktid dst_pktid copy_rc wp_alloc ifindex).2.1 =
        - ENOBUFS) ∧
    (ip_pktid ≠ none → 0 ≤ dst_pktid → copy_rc < 0 →
      (cicppl_mac_defer_send st ip_pktid dst_pktid copy_rc wp_alloc ifindex).2.1 =
        copy_rc) ∧
    (ip_pktid ≠ none → 0 ≤ dst_pktid → 0 ≤ copy_rc → wp_alloc = false →
      (cicppl_mac_defer_send st ip_pktid dst_pktid copy_rc wp_alloc ifindex).2.1 =
        - ENOMEM) ∧
    (ip_pktid ≠ none → 0 ≤ dst_pktid → 0 ≤ copy_rc → wp_alloc = true →
      (cicppl_mac_defer_send st ip_pktid dst_pktid copy_rc wp_alloc ifindex).1 = 1 ∧
      (cicppl_mac_defer_send st ip_pktid dst_pktid copy_rc wp_alloc ifindex).2.1 = 0 ∧
      (cicppl_mac_defer_send st ip_pktid dst_pktid copy_rc wp_alloc
        ifindex).2.2.workqueue =
        st.workqueue ++ [{ pktid := dst_pktid, ifindex := ifindex }]) ∧
    (- EINVAL ≠ - ENOBUFS ∧ - EINVAL ≠ - ENOMEM ∧ - ENOBUFS ≠ - ENOMEM) := by
  have hconst : - EINVAL ≠ - ENOBUFS ∧ - EINVAL ≠ - ENOMEM ∧ - ENOBUFS ≠ - ENOMEM := by
    decide
  have hE1 : - EINVAL < 0 := by decide
  have hE2 : - ENOBUFS < 0 := by decide
  have hE3 : - ENOMEM < 0 := by decide
  cases ip_pktid with
  | none =>
    simp only [cicppl_mac_defer_send]
    refine ⟨?_, ?_, ?_, ?_, ?_, ?_, ?_, ?_, hconst⟩ <;>
      simp [EINVAL]
  | some p =>
    by_cases h1 : dst_pktid < 0
    · have hn : ¬ (0 ≤ dst_pktid) := not_le.mpr h1
      simp only [cicppl_mac_defer_send, cicppl_ip_pkt_handover, h1, if_true, hE2]
      refine ⟨?_, ?_, ?_, ?_, ?_, ?_, ?_, ?_, hconst⟩ <;>
        simp [ENOBUFS, hn]
    · have hp : 0 ≤ dst_pktid := not_lt.mp h1
      by_cases h2 : copy_rc < 0
      · have hn : ¬ (0 ≤ copy_rc) := not_le.mpr h2
        have hne : copy_rc ≠ 0 := ne_of_lt h2
        simp only [cicppl_mac_defer_send, cicppl_ip_pkt_handover, h1, h2, if_true,
          if_false]
        refine ⟨?_, ?_, ?_, ?_, ?_, ?_, ?_, ?_, hconst⟩ <;>
          simp [hn, hne, h2, h1]
      · have hq : 0 ≤ copy_rc := not_lt.mp h2
        cases wp_alloc with
        | false =>
          simp only [cicppl_mac_defer_send, cicppl_ip_pkt_handover,
            cicpplos_pktbuf_defer_send, h1, h2, if_false]
          refine ⟨?_, ?_, ?_, ?_, ?_, ?_, ?_, ?_, hconst⟩ <;>
            simp [ENOMEM, h1, h2]
        | true =>
          simp only [cicppl_mac_defer_send, cicppl_ip_pkt_handover,
            cicpplos_pktbuf_defer_send, h1, h2, if_false]
          refine ⟨?_, ?_, ?_, ?_, ?_, ?_, ?_, ?_, hconst⟩ <;>
            simp [h1, h2]

/-- C23 witness: with a packet, buffer 3 and a work record, the deferral
returns true, stores 0 and queues one work record for buffer 3. -/
theorem mac_defer_send_codes_witness :
    (cicppl_mac_defer_send idle_defer (some 7) 3 0 true 2).1 = 1 ∧
    (cicppl_mac_defer_send idle_defer (some 7) 3 0 true 2).2.1 = 0 ∧
    (cicppl_mac_defer_send idle_defer (some 7) 3 0 true 2).2.2.workqueue =
      idle_defer.workqueue ++ [{ pktid := 3, ifindex := 2 }] :=
  (mac_defer_send_codes idle_defer (some 7) 3 0 true 2).2.2.2.2.2.2.2.1
    (by decide) (by decide) (by decide) rfl

/-- C26: the deferred-packet pool is not balanced on every failure.  With a
packet given, buffer 3 obtained and filled, and no work record available,
`cicppl_mac_defer_send` returns false with `-ENOMEM` and queues no work, but
buffer 3 stays allocated, where the pool held no buffer before; on the
copy-failure path the buffer is freed again. -/
theorem mac_defer_send_leak :
    (cicppl_mac_defer_send idle_defer (some 7) 3 0 false 2).1 = 0 ∧
    (cicppl_mac_defer_send idle_defer (some 7) 3 0 false 2).2.1 = - ENOMEM ∧
    (cicppl_mac_defer_send idle_defer (some 7) 3 0 false 2).2.2.workqueue = [] ∧
    pool_allocated idle_defer.cicppl_pktpool = [] ∧
    pool_allocated
      (cicppl_mac_defer_send idle_defer (some 7) 3 0 false 2).2.2.cicppl_pktpool =
        [3] ∧
    pool_allocated
      (cicppl_mac_defer_send idle_defer (some 7) 3 (-14) true 2).2.2.cicppl_pktpool =
        [] := by
  decide

/-! ## Theorems: overall operation of the synchroniser -/

/-- C27: the `constructed` flag does not follow the socket and the poller.
A construction whose socket creation fails (`-ENOMEM`) leaves `constructed`
set with no socket held and no poller scheduled, and the next construction
returns 0 without trying again.  After a successful construction, a second
destruction after the first is not detected: the socket is released twice. -/
theorem sync_ctor_dtor_flag :
    cicpos_sync_ctor 1000 unconstructed_sync (- ENOMEM) 7 =
      (- ENOMEM,
        { constructed := 1, NL_SOCKET := none, stop := 0,
          calls := [sync_call.create_listening_netlink_socket (- ENOMEM)] }) ∧
    cicpos_sync_ctor 1000
        (cicpos_sync_ctor 1000 unconstructed_sync (- ENOMEM) 7).2 0 7 =
      (0, (cicpos_sync_ctor 1000 unconstructed_sync (- ENOMEM) 7).2) ∧
    (cicpos_sync_dtor true
        (cicpos_sync_dtor true (cicpos_sync_ctor 1000 unconstructed_sync 0 7).2)) =
      { constructed := 1, NL_SOCKET := some 7, stop := 1,
        calls :=
          [sync_call.create_listening_netlink_socket 0,
           sync_call.queue_delayed_work 500,
           sync_call.cancel_delayed_work_sync, sync_call.sock_release (some 7),
           sync_call.cancel_delayed_work_sync, sync_call.sock_release (some 7)] } := by
  decide

/-! ## Theorems: well-formedness of the pending queue -/

/-- The chain that starts at a pointer is determined by the records. -/
theorem swf_chain_unique (h : List (Nat × oof_cb_sw_filter_op))
    (xs ys : List (Nat × oof_cb_sw_filter_op)) (p : Option Nat)
    (hx : swf_chain h p xs) (hy : swf_chain h p ys) : xs = ys := by
  induction xs generalizing p ys with
  | nil =>
    cases ys with
    | nil => rfl
    | cons m t =>
      obtain ⟨b, r⟩ := m
      have h1 : p = none := hx
      have h2 : p = some b := hy.1
      rw [h1] at h2
      exact Option.noConfusion h2
  | cons n rest ih =>
    obtain ⟨a, q⟩ := n
    obtain ⟨hp, o, ho, hq, hrest⟩ := hx
    cases ys with
    | nil =>
      have h2 : p = none := hy
      rw [hp] at h2
      exact Option.noConfusion h2
    | cons m t =>
      obtain ⟨b, r⟩ := m
      obtain ⟨hp2, o2, ho2, hq2, hrest2⟩ := hy
      have hab : a = b := Option.some.inj (hp.symm.trans hp2)
      subst hab
      have hoo : o = o2 := Option.some.inj (ho.symm.trans ho2)
      subst hoo
      have hqr : q = r := hq.symm.trans hq2
      subst hqr
      rw [ih t o.next hrest hrest2]

/-- The part of a chain from one of its addresses on is the chain that starts
at that address. -/
theorem swf_chain_suffix (h : List (Nat × oof_cb_sw_filter_op))
    (nodes : List (Nat × oof_cb_sw_filter_op)) (p : Option Nat) (x : Nat)
    (hc : swf_chain h p nodes) (hx : x ∈ nodes.map Prod.fst) :
    ∃ suf, suf.length ≤ nodes.length ∧ swf_chain h (some x) suf := by
  induction nodes generalizing p with
  | nil => simp at hx
  | cons n rest ih =>
    obtain ⟨a, q⟩ := n
    obtain ⟨hp, o, ho, hq, hrest⟩ := hc
    simp only [List.map_cons, List.mem_cons] at hx
    rcases hx with rfl | hx
    · exact ⟨(x, q) :: rest, le_refl _, rfl, o, ho, hq, hrest⟩
    · obtain ⟨suf, hlen, hsuf⟩ := ih o.next hrest hx
      exact ⟨suf, Nat.le_succ_of_le hlen, hsuf⟩

/-- No address occurs twice in a chain. -/
theorem swf_chain_nodup (h : List (Nat × oof_cb_sw_filter_op))
    (nodes : List (Nat × oof_cb_sw_filter_op)) (p : Option Nat)
    (hc : swf_chain h p nodes) : (nodes.map Prod.fst).Nodup := by
  induction nodes generalizing p with
  | nil => simp
  | cons n rest ih =>
    obtain ⟨a, q⟩ := n
    have hc2 := hc
    obtain ⟨hp, o, ho, hq, hrest⟩ := hc
    rw [List.map_cons, List.nodup_cons]
    refine ⟨?_, ih o.next hrest⟩
    intro hmem
    obtain ⟨suf, hlen, hsuf⟩ := swf_chain_suffix h rest o.next a hrest hmem
    have heq := swf_chain_unique h _ _ (some a) (hp ▸ hc2) hsuf
    rw [← heq] at hlen
    simp at hlen

/-- A walk along `next` links that ends at a record without successor runs
along a chain whose last address is that record. -/
theorem swf_follow_chain (h : List (Nat × oof_cb_sw_filter_op)) (k : Nat)
    (f l : Nat) (o : oof_cb_sw_filter_op) (hf : swf_follow h k f = some l)
    (ho : heap_get h l = some o) (hn : o.next = none) :
    ∃ nodes, swf_chain h (some f) nodes ∧
      (nodes.getLast?).map Prod.fst = some l := by
  induction k generalizing f with
  | zero =>
    have hfl : f = l := Option.some.inj hf
    subst hfl
    exact ⟨[(f, { o with next := none })], ⟨rfl, o, ho, rfl, hn⟩, rfl⟩
  | succ k ih =>
    simp only [swf_follow] at hf
    rcases hg : heap_get h f with _ | r
    · simp [hg] at hf
    · rcases hr : r.next with _ | b
      · simp [hg, hr] at hf
      · simp only [hg, hr] at hf
        obtain ⟨nodes, hc, hlast⟩ := ih b hf
        refine ⟨(f, { r with next := none }) :: nodes, ⟨rfl, r, hg, rfl, hr ▸ hc⟩, ?_⟩
        cases nodes with
        | nil => simp at hlast
        | cons y t => simpa [List.getLast?_cons_cons] using hlast

/-- Along a chain the walk reaches the last address, whose record has no
successor. -/
theorem swf_chain_follow (h : List (Nat × oof_cb_sw_filter_op))
    (nodes : List (Nat × oof_cb_sw_filter_op)) (f l : Nat)
    (hc : swf_chain h (some f) nodes)
    (hl : (nodes.getLast?).map Prod.fst = some l) :
    swf_follow h (nodes.length - 1) f = some l ∧
    ∃ o, heap_get h l = some o ∧ o.next = none := by
  induction nodes generalizing f with
  | nil => simp at hl
  | cons n rest ih =>
    obtain ⟨a, q⟩ := n
    obtain ⟨hp, o, ho, hq, hrest⟩ := hc
    have hfa : f = a := Option.some.inj hp
    subst hfa
    cases rest with
    | nil =>
      have hfl : f = l := by simpa using hl
      subst hfl
      exact ⟨rfl, o, ho, hrest⟩
    | cons y t =>
      have hl2 : ((y :: t).getLast?).map Prod.fst = some l := by
        simpa [List.getLast?_cons_cons] using hl
      have hnext : o.next = some y.1 := hrest.1
      obtain ⟨hfol, hlast⟩ := ih y.1 (hnext ▸ hrest) hl2
      refine ⟨?_, hlast⟩
      simp only [List.length_cons, Nat.add_sub_cancel, swf_follow, ho, hnext]
      simpa using hfol

/-- The well-formedness of the specification says that the queue is a chain of
records. -/
theorem swf_well_formed_iff (ni : ci_netif) :
    swf_well_formed ni ↔ ∃ nodes, swf_queue ni nodes := by
  constructor
  · rintro ⟨hiff, hpath⟩
    rcases hf : ni.swf_update_first with _ | f
    · have hl : ni.swf_update_last = none := hiff.mp hf
      exact ⟨[], hf, by simpa using hl, by simp⟩
    · rcases hl : ni.swf_update_last with _ | l
      · have := hiff.mpr hl
        rw [hf] at this
        exact Option.noConfusion this
      · obtain ⟨⟨k, hk⟩, o, ho, hn⟩ := hpath f l hf hl
        obtain ⟨nodes, hc, hlast⟩ := swf_follow_chain ni.ops k f l o hk ho hn
        exact ⟨nodes, hf ▸ hc, by rw [hl, hlast],
          swf_chain_nodup ni.ops nodes _ hc⟩
  · rintro ⟨nodes, hc, hlast, _⟩
    cases nodes with
    | nil =>
      have hf : ni.swf_update_first = none := hc
      have hl : ni.swf_update_last = none := by simpa using hlast
      refine ⟨by simp [hf, hl], ?_⟩
      intro f l h1
      rw [hf] at h1
      exact Option.noConfusion h1
    | cons n rest =>
      have hf : ni.swf_update_first = some n.1 := hc.1
      refine ⟨?_, ?_⟩
      · constructor
        · intro h
          rw [hf] at h
          exact Option.noConfusion h
        · intro h
          rw [hlast] at h
          rcases hx : (n :: rest).getLast? with _ | z
          · simp at hx
          · simp [hx] at h
      · intro f l h1 h2
        have hfn : n.1 = f := Option.some.inj (hf.symm.trans h1)
        have hl2 : ((n :: rest).getLast?).map Prod.fst = some l := by
          rw [← hlast, h2]
        have hc2 : swf_chain ni.ops (some f) (n :: rest) := by
          rw [← h1]
          exact hc
        obtain ⟨hfol, hrec⟩ := swf_chain_follow ni.ops (n :: rest) f l hc2 hl2
        exact ⟨⟨_, hfol⟩, hrec⟩

/-- One turn of the drain loop unlinks the head of the queue. -/
theorem sw_filter_apply_step_queue (ni : ci_netif)
    (nodes : List (Nat × oof_cb_sw_filter_op)) (hq : swf_queue ni nodes) :
    swf_queue (sw_filter_apply_loop 1 ni) nodes.tail := by
  cases nodes with
  | nil =>
    have hfirst : ni.swf_update_first = none := hq.1
    simp only [sw_filter_apply_loop, hfirst]
    exact hq
  | cons n rest =>
    obtain ⟨a, q⟩ := n
    obtain ⟨⟨hp, o, ho, hoq, hrest⟩, hlast, hnd⟩ := hq
    have hanot : a ∉ rest.map Prod.fst := (List.nodup_cons.mp hnd).1
    have hnd2 : (rest.map Prod.fst).Nodup := (List.nodup_cons.mp hnd).2
    have hchain : swf_chain (heap_free ni.ops a) o.next rest :=
      swf_chain_congr ni.ops (heap_free ni.ops a) rest o.next
        (fun b hb => heap_get_free_ne ni.ops a b (fun hx => hanot (hx ▸ hb))) hrest
    simp only [sw_filter_apply_loop, hp, ho, List.tail_cons]
    cases rest with
    | nil =>
      have hnext : o.next = none := hrest
      exact ⟨hnext, by simp [hnext], by simp⟩
    | cons y t =>
      have hnext : o.next ≠ none := by
        obtain ⟨hy, _⟩ := hrest
        rw [hy]; simp
      exact ⟨hchain, by simpa [hnext, List.getLast?_cons_cons] using hlast, hnd2⟩

/-- C28: the well-formedness of the pending queue (`swf_update_first` is
`NULL` if and only if `swf_update_last` is; otherwise the `next` links lead
from `swf_update_first` to `swf_update_last` in finitely many steps and the
`next` of `swf_update_last` is `NULL`) holds for the empty queue, and is
preserved by every `oof_cb_sw_filter_postpone` (whose allocation, when it
succeeds, returns an address that holds no record yet), by every head-unlink
turn of the loop of `oof_cb_sw_filter_apply`, and so by the whole drain. -/
theorem swf_well_formed_preserved :
    (∀ ops calls, swf_well_formed
      { swf_update_first := none, swf_update_last := none, ops := ops,
        calls := calls }) ∧
    (∀ ni ep_id laddr lport raddr rport protocol op_op alloc locked,
      swf_well_formed ni →
      (∀ a, alloc = some a → heap_get ni.ops a = none) →
      swf_well_formed
        (oof_cb_sw_filter_postpone ni ep_id laddr lport raddr rport protocol op_op
          alloc locked)) ∧
    (∀ ni, swf_well_formed ni → swf_well_formed (sw_filter_apply_loop 1 ni)) ∧
    (∀ ni, swf_well_formed ni → swf_well_formed (oof_cb_sw_filter_apply ni)) := by
  refine ⟨?_, ?_, ?_, ?_⟩
  · intro ops calls
    exact (swf_well_formed_iff _).mpr ⟨[], rfl, rfl, by simp⟩
  · intro ni ep_id laddr lport raddr rport protocol op_op alloc locked hwf hfresh
    cases alloc with
    | none => exact hwf
    | some a =>
      obtain ⟨nodes, hq⟩ := (swf_well_formed_iff ni).mp hwf
      exact (swf_well_formed_iff _).mpr
        ⟨_, postpone_queue ni nodes ep_id laddr lport raddr rport protocol op_op a
          locked hq (hfresh a rfl)⟩
  · intro ni hwf
    obtain ⟨nodes, hq⟩ := (swf_well_formed_iff ni).mp hwf
    exact (swf_well_formed_iff _).mpr ⟨_, sw_filter_apply_step_queue ni nodes hq⟩
  · intro ni hwf
    obtain ⟨nodes, hq⟩ := (swf_well_formed_iff ni).mp hwf
    obtain ⟨_, h2, h3⟩ := sw_filter_apply_loop_queue nodes (ni.ops.length + 1) ni hq
      (Nat.lt_succ_self _)
    exact (swf_well_formed_iff _).mpr ⟨[], h2, by simpa using h3, by simp⟩

/-- C28 witness: the queue of an idle stack is well-formed, and so is the
queue after one postpone at the fresh address 1 and after a head-unlink turn
on that. -/
theorem swf_well_formed_preserved_witness :
    swf_well_formed idle_netif ∧
    swf_well_formed
      (oof_cb_sw_filter_postpone idle_netif 5 167772161 80 0 0 6
        sw_filter_op_kind.OOF_CB_SW_FILTER_OP_ADD (some 1) false) ∧
    swf_well_formed
      (sw_filter_apply_loop 1
        (oof_cb_sw_filter_postpone idle_netif 5 167772161 80 0 0 6
          sw_filter_op_kind.OOF_CB_SW_FILTER_OP_ADD (some 1) false)) :=
  have h0 : swf_well_formed idle_netif := swf_well_formed_preserved.1 [] []
  have h1 := swf_well_formed_preserved.2.1 idle_netif 5 167772161 80 0 0 6
    sw_filter_op_kind.OOF_CB_SW_FILTER_OP_ADD (some 1) false h0 (fun _ _ => rfl)
  ⟨h0, h1, swf_well_formed_preserved.2.2.1 _ h1⟩

/-! ## Theorems: completeness of software-filter inserts -/

/-- C29, as stated, fails: on a stack whose queue holds one other record, an
insert for socket 6 whose try-lock fails and whose record cannot be allocated
returns 0, makes no filter-table call, and the queue still holds just the
other record. -/
theorem sw_filter_insert_lost_counterexample :
    (oof_cb_sw_filter_insert busy_netif 6 167772161 443 0 0 6 0 false 0 none
      false).1 = 0 ∧
    filter_ops (oof_cb_sw_filter_insert busy_netif 6 167772161 443 0 0 6 0 false 0
      none false).2.calls = [] ∧
    swf_queue
      (oof_cb_sw_filter_insert busy_netif 6 167772161 443 0 0 6 0 false 0 none
        false).2
      [(1, new_op 5 167772161 80 0 0 6 sw_filter_op_kind.OOF_CB_SW_FILTER_OP_ADD)] ∧
    new_op 5 167772161 80 0 0 6 sw_filter_op_kind.OOF_CB_SW_FILTER_OP_ADD ≠
      new_op 6 167772161 443 0 0 6 sw_filter_op_kind.OOF_CB_SW_FILTER_OP_ADD := by
  refine ⟨rfl, by decide, ?_, by decide⟩
  exact ⟨⟨rfl, _, rfl, rfl, rfl⟩, rfl, by simp⟩

/-- C29, amended: on a stack whose pending queue holds `xs`, whenever
`oof_cb_sw_filter_insert` returns 0 and the pending-operation record, where one
is needed, is allocated (at a fresh address), the requested filter has either
been inserted in the filter table (the insert was called and returned 0) or
stands as an ADD record at the tail of the pending queue.  When the try-lock
fails and the allocation fails, 0 is returned, only the try-lock call is made
and the stack is otherwise as before. -/
theorem sw_filter_insert_not_lost (ni : ci_netif)
    (xs : List (Nat × oof_cb_sw_filter_op)) (ep_id : Int) (laddr : Nat)
    (lport : Int) (raddr : Nat) (rport : Int) (protocol : Int)
    (stack_locked : Int) (try_lock : Bool) (insert_rc : Int)
    (alloc : Option Nat) (locked : Bool) (hq : swf_queue ni xs)
    (hfresh : ∀ a, alloc = some a → heap_get ni.ops a = none) :
    ((oof_cb_sw_filter_insert ni ep_id laddr lport raddr rport protocol
        stack_locked try_lock insert_rc alloc locked).1 = 0 →
      (stack_locked ≠ 0 ∨ try_lock = true ∨ alloc ≠ none) →
      (insert_rc = 0 ∧
        filter_ops (oof_cb_sw_filter_insert ni ep_id laddr lport raddr rport
          protocol stack_locked try_lock insert_rc alloc locked).2.calls =
          filter_ops ni.calls ++
            [netif_call.filter_insert ep_id laddr lport raddr rport protocol]) ∨
      ∃ a, alloc = some a ∧
        swf_queue
          (oof_cb_sw_filter_insert ni ep_id laddr lport raddr rport protocol
            stack_locked try_lock insert_rc alloc locked).2
          (xs ++ [(a, new_op ep_id laddr lport raddr rport protocol
            sw_filter_op_kind.OOF_CB_SW_FILTER_OP_ADD)])) ∧
    (stack_locked = 0 → try_lock = false → alloc = none →
      oof_cb_sw_filter_insert ni ep_id laddr lport raddr rport protocol
          stack_locked try_lock insert_rc alloc locked =
        (0, { ni with calls := ni.calls ++ [netif_call.try_lock false] })) := by
  refine ⟨?_, ?_⟩
  · intro hrc hcase
    by_cases hs : stack_locked = 0
    · cases try_lock with
      | true =>
        left
        subst hs
        have heq : oof_cb_sw_filter_insert ni ep_id laddr lport raddr rport protocol
            0 true insert_rc alloc locked =
            (insert_rc,
              { ni with
                calls := ni.calls ++
                  [netif_call.try_lock true,
                   netif_call.filter_insert ep_id laddr lport raddr rport protocol,
                   netif_call.unlock] }) := by
          simp [oof_cb_sw_filter_insert]
        rw [heq] at hrc ⊢
        refine ⟨hrc, ?_⟩
        simp [filter_ops, netif_call.is_filter_op]
      | false =>
        right
        rcases hcase with h | h | h
        · exact absurd hs h
        · exact absurd h (by decide)
        · cases alloc with
          | none => exact absurd rfl h
          | some a =>
            subst hs
            refine ⟨a, rfl, ?_⟩
            simp only [oof_cb_sw_filter_insert, ne_eq, not_true_eq_false, if_false,
              Bool.false_eq_true, or_self]
            exact postpone_queue _ xs ep_id laddr lport raddr rport protocol _ a
              locked hq (hfresh a rfl)
    · left
      have heq : oof_cb_sw_filter_insert ni ep_id laddr lport raddr rport protocol
          stack_locked try_lock insert_rc alloc locked =
          (insert_rc,
            { ni with
              calls := ni.calls ++
                [netif_call.filter_insert ep_id laddr lport raddr rport
                  protocol] }) := by
        simp [oof_cb_sw_filter_insert, hs]
      rw [heq] at hrc ⊢
      refine ⟨hrc, ?_⟩
      simp [filter_ops, netif_call.is_filter_op]
  · intro hs ht ha
    subst hs ht ha
    simp [oof_cb_sw_filter_insert, oof_cb_sw_filter_postpone]

/-- C29 witness: on the stack with one queued record, an insert for socket 6
whose try-lock fails and whose record is allocated at address 2 stands at the
tail of the queue. -/
theorem sw_filter_insert_not_lost_witness :
    swf_queue busy_netif
      [(1, new_op 5 167772161 80 0 0 6 sw_filter_op_kind.OOF_CB_SW_FILTER_OP_ADD)] ∧
    (((0 : Int) = 0 ∧
        filter_ops (oof_cb_sw_filter_insert busy_netif 6 167772161 443 0 0 6 0 false
          0 (some 2) false).2.calls =
          filter_ops busy_netif.calls ++
            [netif_call.filter_insert 6 167772161 443 0 0 6]) ∨
      ∃ a, some 2 = some a ∧
        swf_queue
          (oof_cb_sw_filter_insert busy_netif 6 167772161 443 0 0 6 0 false 0
            (some 2) false).2
          ([(1, new_op 5 167772161 80 0 0 6
              sw_filter_op_kind.OOF_CB_SW_FILTER_OP_ADD)] ++
            [(a, new_op 6 167772161 443 0 0 6
              sw_filter_op_kind.OOF_CB_SW_FILTER_OP_ADD)])) :=
  have hq : swf_queue busy_netif
      [(1, new_op 5 167772161 80 0 0 6
        sw_filter_op_kind.OOF_CB_SW_FILTER_OP_ADD)] :=
    ⟨⟨rfl, _, rfl, rfl, rfl⟩, rfl, by simp⟩
  ⟨hq,
    (sw_filter_insert_not_lost busy_netif _ 6 167772161 443 0 0 6 0 false 0 (some 2)
      false hq
      (fun _ h => Option.some.inj h ▸ (by decide : heap_get busy_netif.ops 2 = none))).1
      rfl (Or.inr (Or.inr (by decide)))⟩

end Cplane
